import Mathlib

/-!
# License Status Document server: state machine and loan transactions

A shallow embedding of `lsdserver/api/license_status.go`.  Every handler
becomes a pure function from the stored state, the request and the answers of
the outside world (clock readings, the LCP server) to an `Outcome`: the next
stored state, the HTTP response and the list of calls made to `updateLicense`.

Conventions of the embedding

* `time.Time` is an instant counted in nanoseconds from Go's zero time, so
  `IsZero`, `After`, `Before`, `Add` and `Sub` are integer operations;
  `time.Duration` is a 64-bit integer and its arithmetic wraps.
* `len(s)` of a Go string is its length in bytes, `String.utf8ByteSize`.
* A Go pointer that may be nil is an `Option`; dereferencing nil is the
  response `Response.crash` (the handler panics, nothing is written after it).
* `int` counters (`DeviceCount`, `Id`) are unbounded integers.
* `FilterLicenseStatuses` only reads the store: it is a function from the
  stored state and the three form values to a `ListOutcome`, the response
  with its `Link` header and the list of queries made to the repository.
  `strconv.ParseInt` and `strconv.Itoa` follow their library definitions.
-/

namespace Lsd

/-! ## Time -/

/-- Instant of `time.Time`, in nanoseconds since the zero time (January 1, year 1, UTC). -/
abbrev Time := Int

/-- Value of `time.Duration`: a signed 64-bit count of nanoseconds. -/
abbrev Duration := Int

/-- Two's complement reduction of an integer to the range of `int64`. -/
def wrap64 (x : Int) : Int := (x + 2 ^ 63) % 2 ^ 64 - 2 ^ 63

/-- Largest `time.Duration`. -/
def maxDuration : Duration := 2 ^ 63 - 1

/-- Smallest `time.Duration`. -/
def minDuration : Duration := -(2 ^ 63)

/-- Constant `time.Hour`, in nanoseconds. -/
def Hour : Duration := 3600000000000

/-- Method `Time.IsZero`: the instant is the zero time. -/
def Time.IsZero (t : Time) : Bool := decide (t = 0)

/-- Method `Time.After`: `t` is strictly later than `u`. -/
def Time.After (t u : Time) : Bool := decide (u < t)

/-- Method `Time.Before`: `t` is strictly earlier than `u`. -/
def Time.Before (t u : Time) : Bool := decide (t < u)

/-- Method `Time.Add`: the instant `t + d`. -/
def Time.Add (t : Time) (d : Duration) : Time := t + d

/-- Method `Time.Sub`: the duration `t - u`, saturated to the range of `time.Duration`. -/
def Time.Sub (t u : Time) : Duration :=
  if maxDuration < t - u then maxDuration
  else if t - u < minDuration then minDuration
  else t - u

/-! ## Constants of package `status` -/

/-- Modelled from the spec: constant `status.STATUS_READY` (package `status` is not part of the
sources), the status READY of section 3. -/
def STATUS_READY : String := "ready"

/-- Modelled from the spec: constant `status.STATUS_ACTIVE`, the status ACTIVE. -/
def STATUS_ACTIVE : String := "active"

/-- Modelled from the spec: constant `status.STATUS_REVOKED`, the status REVOKED. -/
def STATUS_REVOKED : String := "revoked"

/-- Modelled from the spec: constant `status.STATUS_RETURNED`, the status RETURNED. -/
def STATUS_RETURNED : String := "returned"

/-- Modelled from the spec: constant `status.STATUS_CANCELLED`, the status CANCELLED. -/
def STATUS_CANCELLED : String := "cancelled"

/-- Modelled from the spec: constant `status.STATUS_EXPIRED`, the status EXPIRED. -/
def STATUS_EXPIRED : String := "expired"

/-- Modelled from the spec: constant `status.TYPE_REGISTER`, the event type `register`. -/
def TYPE_REGISTER : String := "register"

/-- Modelled from the spec: constant `status.TYPE_RETURN`, the event type `return`. -/
def TYPE_RETURN : String := "return"

/-- Modelled from the spec: constant `status.TYPE_RENEW`, the event type `renew`. -/
def TYPE_RENEW : String := "renew"

/-- The six status values of section 3 of the specification. -/
def IsStatus (s : String) : Prop :=
  s = STATUS_READY ∨ s = STATUS_ACTIVE ∨ s = STATUS_RETURNED ∨ s = STATUS_EXPIRED ∨
    s = STATUS_CANCELLED ∨ s = STATUS_REVOKED

instance (s : String) : Decidable (IsStatus s) := by
  unfold IsStatus; infer_instance

/-! ## Media types of package `api` and HTTP status codes -/

/-- Modelled from the spec: constant `api.ContentType_LCP_JSON` (section 4.6). -/
def ContentType_LCP_JSON : String := "application/vnd.readium.lcp.license.v1.0+json"

/-- Modelled from the spec: constant `api.ContentType_LSD_JSON` (section 4.2). -/
def ContentType_LSD_JSON : String := "application/vnd.readium.license.status.v1.0+json"

/-- Modelled from the spec: constant `api.ContentType_FORM_URL_ENCODED`. -/
def ContentType_FORM_URL_ENCODED : String := "application/x-www-form-urlencoded"

/-- Code `http.StatusOK`. -/
def StatusOK : Int := 200

/-- Code `http.StatusPartialContent`. -/
def StatusPartialContent : Int := 206

/-- Code `http.StatusBadRequest`. -/
def StatusBadRequest : Int := 400

/-- Code `http.StatusForbidden`. -/
def StatusForbidden : Int := 403

/-- Code `http.StatusInternalServerError`. -/
def StatusInternalServerError : Int := 500

/-! ## Data model -/

/-- Modelled from the spec: type `transactions.Event` (section 3, Event). -/
structure Event where
  Id : Int
  DeviceName : String
  Timestamp : Time
  /-- Field `Type` of the source (a reserved word here). -/
  Type_ : String
  DeviceId : String
  LicenseStatusFk : Int
deriving DecidableEq, Repr

/-- Modelled from the spec: type `licensestatuses.Link` (section 4.7). -/
structure Link where
  Href : String
  Rel : String
  /-- Field `Type` of the source (a reserved word here). -/
  Type_ : String
  Templated : Bool
deriving DecidableEq, Repr

/-- Modelled from the spec: type `licensestatuses.Updated`, the two timestamps `updated.license`
and `updated.status`. -/
structure Updated where
  License : Option Time
  Status : Option Time
deriving DecidableEq, Repr

/-- Modelled from the spec: type `licensestatuses.PotentialRights`, with its optional `end`. -/
structure PotentialRights where
  End : Option Time
deriving DecidableEq, Repr

/-- Modelled from the spec: type `licensestatuses.LicenseStatus`, the License Status Document of
section 3.  The fields the handlers reach through a pointer are options; `Updated` is always
present in a stored document. -/
structure LicenseStatus where
  Id : Int
  LicenseRef : String
  Status : String
  Updated : Updated
  Message : String
  Links : List Link
  DeviceCount : Option Int
  PotentialRights : Option PotentialRights
  CurrentEndLicense : Option Time
  Events : List Event
deriving DecidableEq, Repr

/-- Modelled from the spec: type `license.UserRights`, of which only `end` is read. -/
structure UserRights where
  End : Option Time
deriving DecidableEq, Repr

/-- Modelled from the spec: type `license.License` (section 4.1: id, issued timestamp, optional
rights.end). -/
structure License where
  Id : String
  Issued : Time
  Rights : Option UserRights
deriving DecidableEq, Repr

/-! ## Configuration -/

/-- Section `license_status` of the configuration. -/
structure LicenseStatusConfig where
  Register : Bool
  Return : Bool
  Renew : Bool
  RentingDays : Int
  RenewDays : Int
  DefaultLanguage : String

/-- Section of the configuration describing one server. -/
structure ServerInfo where
  PublicBaseUrl : String
  LicenseLinkUrl : String

/-- Modelled from the spec: the global `config.Config` (section 6, configuration keys). -/
structure Config where
  LicenseStatus : LicenseStatusConfig
  LsdServer : ServerInfo
  LcpServer : ServerInfo

/-- The configuration and the library functions the handlers call.  `T` is the translation
function obtained from `i18n.Tfunc`, taking the accepted languages, the default language and the
key; `Parse` is `time.Parse(time.RFC3339, _)`; `DecodeStatus` is the JSON decoding of a status
document and `DecodeJsonLicense` the decoding of a license by `apilcp.DecodeJsonLicense`.  The
last three return the text of their error when they fail. -/
structure Env where
  Config : Config
  T : String → String → String → String
  Parse : String → Except String Time
  DecodeStatus : String → Except String LicenseStatus
  DecodeJsonLicense : String → Except String License

/-! ## Stored state and repositories -/

/-- The persisted state: the `license_status` table and the append-only `event` table. -/
structure State where
  statuses : List LicenseStatus
  events : List Event
deriving DecidableEq, Repr

/-- Modelled from the spec: repository call `LicenseStatuses().GetByLicenseId`, the stored
document with the given `license_ref`, if any. -/
def State.GetByLicenseId (st : State) (licenseFk : String) : Option LicenseStatus :=
  st.statuses.find? (fun ls => decide (ls.LicenseRef = licenseFk))

/-- Modelled from the spec: repository call `LicenseStatuses().Add`, which stores a new document
under a fresh persistence-assigned id. -/
def State.AddStatus (st : State) (ls : LicenseStatus) : State :=
  { st with statuses := st.statuses ++ [{ ls with Id := st.statuses.length + 1 }] }

/-- Modelled from the spec: repository call `LicenseStatuses().Update`, update by id. -/
def State.Update (st : State) (ls : LicenseStatus) : State :=
  { st with statuses := st.statuses.map (fun x => if x.Id = ls.Id then ls else x) }

/-- Modelled from the spec: repository call `Transactions().Add`, which appends the event to the
log under a fresh persistence-assigned id. -/
def State.AddEvent (st : State) (e : Event) : State :=
  { st with events := st.events ++ [{ e with Id := st.events.length + 1 }] }

/-- The events recorded for one document and one device, oldest first. -/
def State.deviceEvents (st : State) (licenseStatusFk : Int) (deviceId : String) : List Event :=
  st.events.filter (fun e => decide (e.LicenseStatusFk = licenseStatusFk ∧ e.DeviceId = deviceId))

/-- Modelled from the spec: repository call `Transactions().CheckDeviceStatus`, the type of the
most recent event of the device for this document, or the empty string when there is none. -/
def State.CheckDeviceStatus (st : State) (licenseStatusFk : Int) (deviceId : String) : String :=
  match (st.deviceEvents licenseStatusFk deviceId).getLast? with
  | some e => e.Type_
  | none => ""

/-- Modelled from the spec: repository call `Transactions().GetByLicenseStatusId`, the events of
one document. -/
def State.GetByLicenseStatusId (st : State) (licenseStatusFk : Int) : List Event :=
  st.events.filter (fun e => decide (e.LicenseStatusFk = licenseStatusFk))

/-- The distinct device ids that have at least one `register` event for the document. -/
def State.registeredDevices (st : State) (licenseStatusFk : Int) : List String :=
  ((st.events.filter (fun e =>
    decide (e.LicenseStatusFk = licenseStatusFk ∧ e.Type_ = TYPE_REGISTER))).map
      (fun e => e.DeviceId)).dedup

/-- Consistency of the store: ids of documents and foreign keys of events are among the ids
handed out so far, every event has a type, and every document counts its registered devices. -/
def State.Consistent (st : State) : Prop :=
  (∀ ls ∈ st.statuses, ls.Id ≤ st.statuses.length) ∧
  (∀ e ∈ st.events, e.LicenseStatusFk ≤ st.statuses.length) ∧
  (∀ e ∈ st.events, e.Type_ ≠ "") ∧
  (∀ ls ∈ st.statuses, ls.DeviceCount = some ((st.registeredDevices ls.Id).length : Int))

/-! ## Requests, the outside world, responses -/

/-- The parts of an HTTP request the handlers read. -/
structure Request where
  /-- Path variable `key`. -/
  key : String
  /-- Form value `id`. -/
  id : String
  /-- Form value `name`. -/
  name : String
  /-- Form value `end`. -/
  timeEndString : String
  /-- Header `Accept-Language`. -/
  acceptLanguages : String
  /-- Values of the header `Content-Type`. -/
  contentType : List String
  /-- Form value `data` of the posted form. -/
  data : String
  /-- The request body. -/
  body : String
deriving DecidableEq, Repr

/-- Answer of the LCP server to one PATCH: an HTTP status code, or a transport error. -/
inductive LcpReply where
  | status (code : Int)
  | failure (msg : String)
deriving DecidableEq, Repr

/-- What the outside world answers during one request: `clock n` is the value of the `n`-th call
of `time.Now()`, and `lcp url timeEnd` the answer of the LCP server to the PATCH of `timeEnd`
sent to `url`. -/
structure World where
  clock : Nat → Time
  lcp : String → Time → LcpReply

/-- HTTP response of a handler. -/
inductive Response where
  /-- Status 201 without body. -/
  | created
  /-- Status 200 with the encoded status document. -/
  | document (ls : LicenseStatus)
  /-- Status 200 without body. -/
  | ok
  /-- Response of `problem.NotFoundHandler`: status 404. -/
  | notFound
  /-- Response of `problem.Error`: a Problem-Details body with this detail, and this status. -/
  | problem (detail : String) (code : Int)
  /-- The handler panicked on a nil dereference; no response was written. -/
  | crash
deriving DecidableEq, Repr

/-- One recorded call `updateLicense(timeEnd, licenseRef)`. -/
structure LcpCall where
  timeEnd : Time
  licenseRef : String
deriving DecidableEq, Repr

/-- Result of running a handler. -/
structure Outcome where
  state : State
  response : Response
  lcpCalls : List LcpCall
deriving DecidableEq, Repr

/-- HTTP status of a response, when one was written. -/
def Response.code : Response → Option Int
  | .created => some 201
  | .document _ => some 200
  | .ok => some 200
  | .notFound => some 404
  | .problem _ code => some code
  | .crash => none

/-! ## Helpers of the handlers -/

/-- The zero value of `licensestatuses.LicenseStatus`, as declared by `var ls`. -/
def LicenseStatus.zero : LicenseStatus :=
  { Id := 0, LicenseRef := "", Status := "", Updated := ⟨none, none⟩, Message := "", Links := [],
    DeviceCount := none, PotentialRights := none, CurrentEndLicense := none, Events := [] }

/-- Function `makeLicenseStatus`: sets the fields of `ls` from the license and the
configuration; `now` is the value of `time.Now()`. -/
def makeLicenseStatus (cfg : Config) (now : Time) (license : License) (ls : LicenseStatus) :
    LicenseStatus :=
  let ls := { ls with LicenseRef := license.Id }
  let registerAvailable := cfg.LicenseStatus.Register
  let ls :=
    match license.Rights.bind (fun rights => rights.End) with
    | none => { ls with CurrentEndLicense := none }
    | some e =>
      let endFromLicense := Time.Add e 0
      let rentingDays := cfg.LicenseStatus.RentingDays
      if rentingDays > 0 then
        let endFromConfig := Time.Add license.Issued (wrap64 (Hour * 24 * rentingDays))
        if Time.After endFromLicense endFromConfig then
          { ls with CurrentEndLicense := some endFromLicense,
                    PotentialRights := some ⟨some endFromLicense⟩ }
        else
          { ls with CurrentEndLicense := some endFromLicense,
                    PotentialRights := some ⟨some endFromConfig⟩ }
      else
        { ls with CurrentEndLicense := some endFromLicense,
                  PotentialRights := some ⟨some endFromLicense⟩ }
  let ls :=
    if registerAvailable then { ls with Status := STATUS_READY }
    else { ls with Status := STATUS_ACTIVE }
  let currentTime := now
  { ls with Updated := ⟨some license.Issued, some currentTime⟩, DeviceCount := some 0 }

/-- Function `getEvents`: loads the events of the document. -/
def getEvents (st : State) (ls : LicenseStatus) : LicenseStatus :=
  { ls with Events := st.GetByLicenseStatusId ls.Id }

/-- Function `makeLinks`: replaces the links of the document. -/
def makeLinks (cfg : Config) (ls : LicenseStatus) : LicenseStatus :=
  let lsdBaseUrl := cfg.LsdServer.PublicBaseUrl
  let licenseLinkUrl := cfg.LsdServer.LicenseLinkUrl
  let lcpBaseUrl := cfg.LcpServer.PublicBaseUrl
  let registerAvailable := cfg.LicenseStatus.Register
  let licenseHasRightsEnd :=
    match ls.CurrentEndLicense with
    | some t => !Time.IsZero t
    | none => false
  let returnAvailable := cfg.LicenseStatus.Return && licenseHasRightsEnd
  let renewAvailable := cfg.LicenseStatus.Renew && licenseHasRightsEnd
  let links : List Link :=
    if licenseLinkUrl ≠ "" then
      [⟨licenseLinkUrl.replace "\x7blicense_id\x7d" ls.LicenseRef, "license",
        ContentType_LCP_JSON, false⟩]
    else
      [⟨lcpBaseUrl ++ "/licenses/" ++ ls.LicenseRef, "license", ContentType_LCP_JSON, false⟩]
  let links :=
    if registerAvailable then
      links ++ [⟨lsdBaseUrl ++ "/licenses/" ++ ls.LicenseRef ++ "/register\x7b?id,name\x7d",
        "register", ContentType_LSD_JSON, true⟩]
    else links
  let links :=
    if returnAvailable then
      links ++ [⟨lsdBaseUrl ++ "/licenses/" ++ ls.LicenseRef ++ "/return\x7b?id,name\x7d",
        "return", ContentType_LSD_JSON, true⟩]
    else links
  let links :=
    if renewAvailable then
      links ++ [⟨lsdBaseUrl ++ "/licenses/" ++ ls.LicenseRef ++ "/renew\x7b?end,id,name\x7d",
        "renew", ContentType_LSD_JSON, true⟩]
    else links
  { ls with Links := links }

/-- Function `makeEvent`: a new event stamped with `now`, the value of `time.Now()`. -/
def makeEvent (now : Time) (status : String) (deviceName : String) (deviceId : String)
    (licenseStatusFk : Int) : Event :=
  { Id := 0, DeviceName := deviceName, Timestamp := now, Type_ := status, DeviceId := deviceId,
    LicenseStatusFk := licenseStatusFk }

/-- Function `decodeJsonLicenseStatus`: decodes the form value `data` when the request is
form-encoded, the body otherwise. -/
def decodeJsonLicenseStatus (env : Env) (r : Request) : Except String LicenseStatus :=
  match r.contentType with
  | ctype :: _ =>
    if ctype = ContentType_FORM_URL_ENCODED then env.DecodeStatus r.data
    else env.DecodeStatus r.body
  | [] => env.DecodeStatus r.body

/-- Function `updateLicense`: sends the new end date to the LCP server and returns its HTTP
status code, or an error. -/
def updateLicense (cfg : Config) (w : World) (timeEnd : Time) (licenseRef : String) :
    Except String Int :=
  let lcpBaseUrl := cfg.LcpServer.PublicBaseUrl
  if lcpBaseUrl.utf8ByteSize ≤ 0 then
    .error "Undefined Config.LcpServer.PublicBaseUrl"
  else
    match w.lcp (lcpBaseUrl ++ "/licenses/" ++ licenseRef) timeEnd with
    | .status code => .ok code
    | .failure msg => .error msg

/-- Function `localization.LocalizeMessage`: the message of the key in the accepted language. -/
def LocalizeMessage (env : Env) (acceptLanguage : String) (key : String) : String :=
  let defaultLanguage := env.Config.LicenseStatus.DefaultLanguage
  env.T acceptLanguage defaultLanguage key

/-- Function `fillLicenseStatus`: fills the links, the message and the events of the document. -/
def fillLicenseStatus (env : Env) (st : State) (r : Request) (ls : LicenseStatus) :
    LicenseStatus :=
  let ls := makeLinks env.Config ls
  let acceptLanguages := r.acceptLanguages
  let ls := { ls with Message := LocalizeMessage env acceptLanguages ls.Status }
  getEvents st ls

/-! ## Handlers -/

/-- Handler `CreateLicenseStatusDocument`: creates the status document of a license and adds it
to the store. -/
def CreateLicenseStatusDocument (env : Env) (w : World) (st : State) (r : Request) : Outcome :=
  match env.DecodeJsonLicense r.body with
  | .error err => ⟨st, .problem err StatusBadRequest, []⟩
  | .ok lic =>
    let ls := makeLicenseStatus env.Config (w.clock 0) lic LicenseStatus.zero
    ⟨st.AddStatus ls, .created, []⟩

/-- Handler `GetLicenseStatusDocument`: returns the status document of a license, after marking
it expired when its potential rights end is over. -/
def GetLicenseStatusDocument (env : Env) (w : World) (st : State) (r : Request) : Outcome :=
  let licenseFk := r.key
  match st.GetByLicenseId licenseFk with
  | none => ⟨st, .notFound, []⟩
  | some licenseStatus =>
    let currentDateTime := w.clock 0
    let expired : Bool :=
      match licenseStatus.PotentialRights with
      | some ⟨some potentialEnd⟩ =>
        !Time.IsZero potentialEnd &&
          (decide (Time.Sub currentDateTime potentialEnd > 0) &&
            (decide (licenseStatus.Status = STATUS_ACTIVE) ||
              decide (licenseStatus.Status = STATUS_READY)))
      | _ => false
    let licenseStatus :=
      if expired then { licenseStatus with Status := STATUS_EXPIRED } else licenseStatus
    let st := if expired then st.Update licenseStatus else st
    let licenseStatus := fillLicenseStatus env st r licenseStatus
    ⟨st, .document { licenseStatus with DeviceCount := none }, []⟩

/-- The second half of `RegisterDevice`, from the comment `make event for register transaction`
on: appends the register event, moves a READY document to ACTIVE, counts the device and stores
the document.  A document without device count makes the increment panic. -/
def registerTransaction (env : Env) (w : World) (st : State) (r : Request)
    (licenseStatus : LicenseStatus) : Outcome :=
  let event := makeEvent (w.clock 0) TYPE_REGISTER r.name r.id licenseStatus.Id
  let st := st.AddEvent event
  let licenseStatus :=
    { licenseStatus with Updated := { licenseStatus.Updated with
                                      Status := some event.Timestamp } }
  let licenseStatus :=
    if licenseStatus.Status = STATUS_READY then
      { licenseStatus with Status := STATUS_ACTIVE }
    else licenseStatus
  match licenseStatus.DeviceCount with
  | none => ⟨st, .crash, []⟩
  | some count =>
    let licenseStatus := { licenseStatus with DeviceCount := some (count + 1) }
    let st := st.Update licenseStatus
    let licenseStatus := fillLicenseStatus env st r licenseStatus
    ⟨st, .document { licenseStatus with DeviceCount := none }, []⟩

/-- Handler `RegisterDevice`: registers a device from the request parameters `id` and `name`
and returns the updated status document. -/
def RegisterDevice (env : Env) (w : World) (st : State) (r : Request) : Outcome :=
  let licenseFk := r.key
  match st.GetByLicenseId licenseFk with
  | none => ⟨st, .notFound, []⟩
  | some licenseStatus =>
    let deviceId := r.id
    let deviceName := r.name
    let dILen := deviceId.utf8ByteSize
    let dNLen := deviceName.utf8ByteSize
    if dILen = 0 ∨ dILen > 255 ∨ dNLen = 0 ∨ dNLen > 255 then
      ⟨st, .problem "device id and device name are mandatory and maximum length is 255 symbols "
        StatusBadRequest, []⟩
    else if licenseStatus.Status ≠ STATUS_ACTIVE ∧ licenseStatus.Status ≠ STATUS_READY then
      ⟨st, .problem "License is not active" StatusBadRequest, []⟩
    else
      let deviceStatus := st.CheckDeviceStatus licenseStatus.Id deviceId
      if deviceStatus ≠ "" then
        ⟨st, .problem "Device has been already registered" StatusBadRequest, []⟩
      else
        registerTransaction env w st r licenseStatus

/-- The `switch` of `LendingReturn` on the current status: the document with its new status, or
the response that refuses the return.  A status that matches no case leaves the document as it
is. -/
def returnSwitch (licenseStatus : LicenseStatus) : Except Response LicenseStatus :=
  if licenseStatus.Status = STATUS_RETURNED then
    .error (.problem "License has been already returned" StatusForbidden)
  else if licenseStatus.Status = STATUS_EXPIRED then
    .error (.problem "License is expired" StatusForbidden)
  else if licenseStatus.Status = STATUS_ACTIVE then
    .ok { licenseStatus with Status := STATUS_RETURNED }
  else if licenseStatus.Status = STATUS_READY then
    .ok { licenseStatus with Status := STATUS_CANCELLED }
  else if licenseStatus.Status = STATUS_CANCELLED then
    .error (.problem "License is cancelled" StatusForbidden)
  else if licenseStatus.Status = STATUS_REVOKED then
    .error (.problem "License is revoked" StatusForbidden)
  else
    .ok licenseStatus

/-- The second half of `LendingReturn`, from the comment `create event for lending return` on:
appends the return event, calls `updateLicense` with the timestamp of the event and, when the
LCP server answers 200 or 206, stores the document with its new end date. -/
def returnTransaction (env : Env) (w : World) (st : State) (r : Request)
    (licenseStatus : LicenseStatus) : Outcome :=
  let licenseFk := r.key
  let event := makeEvent (w.clock 0) TYPE_RETURN r.name r.id licenseStatus.Id
  let st := st.AddEvent event
  let call : LcpCall := ⟨event.Timestamp, licenseFk⟩
  match updateLicense env.Config w event.Timestamp licenseFk with
  | .error errorr => ⟨st, .problem errorr StatusInternalServerError, [call]⟩
  | .ok httpStatusCode =>
    if httpStatusCode ≠ StatusOK ∧ httpStatusCode ≠ StatusPartialContent then
      ⟨st, .problem ("LCP license PATCH returned HTTP error code " ++
          toString httpStatusCode) httpStatusCode, [call]⟩
    else
      let licenseStatus :=
        { licenseStatus with
          CurrentEndLicense := some event.Timestamp
          Updated := ⟨some event.Timestamp, some event.Timestamp⟩ }
      let st := st.Update licenseStatus
      let licenseStatus := fillLicenseStatus env st r licenseStatus
      ⟨st, .document { licenseStatus with DeviceCount := none }, [call]⟩

/-- Handler `LendingReturn`: checks that the calling device is activated, then sets the end date
of the license to now and returns the updated status document.  The length check builds its
Problem from `err.Error()` while `err` is nil, which panics. -/
def LendingReturn (env : Env) (w : World) (st : State) (r : Request) : Outcome :=
  let licenseFk := r.key
  match st.GetByLicenseId licenseFk with
  | none => ⟨st, .notFound, []⟩
  | some licenseStatus =>
    let deviceId := r.id
    let deviceName := r.name
    if deviceName.utf8ByteSize > 255 ∨ deviceId.utf8ByteSize > 255 then
      ⟨st, .crash, []⟩
    else
    match returnSwitch licenseStatus with
    | .error response => ⟨st, response, []⟩
    | .ok licenseStatus =>
      if deviceId ≠ "" ∧
          (st.CheckDeviceStatus licenseStatus.Id deviceId = TYPE_RETURN ∨
            st.CheckDeviceStatus licenseStatus.Id deviceId = "") then
        ⟨st, .problem "Device is not activated" StatusBadRequest, []⟩
      else
        returnTransaction env w st r licenseStatus

/-- The end date suggested by a renewal request: the parsed parameter `end` when it is given,
the current end of the license plus `renew_days` otherwise; or the error response. -/
def suggestedEnd (env : Env) (licenseStatus : LicenseStatus) (r : Request) :
    Except Response Time :=
  let timeEndString := r.timeEndString
  if timeEndString = "" then
    let renewDays := env.Config.LicenseStatus.RenewDays
    if renewDays = 0 then
      .error (.problem "renew_days not found" StatusInternalServerError)
    else
      let suggestedDuration : Duration := wrap64 (24 * Hour * renewDays)
      match licenseStatus.CurrentEndLicense with
      | some currentEnd =>
        if !Time.IsZero currentEnd then .ok (Time.Add currentEnd suggestedDuration)
        else .error (.problem "CurrentEndLicense for LSD License Status is not set"
          StatusInternalServerError)
      | none => .error (.problem "CurrentEndLicense for LSD License Status is not set"
          StatusInternalServerError)
  else
    match env.Parse timeEndString with
    | .error err => .error (.problem err StatusInternalServerError)
    | .ok expirationEnd => .ok expirationEnd

/-- The second half of `LendingRenewal`, from the call of `makeEvent` on: appends the renew
event, calls `updateLicense` with the suggested end and, when the LCP server answers 200 or 206,
stores the document with its new end date and the status ACTIVE. -/
def renewTransaction (env : Env) (w : World) (st : State) (r : Request)
    (licenseStatus : LicenseStatus) (suggestedEnd : Time) : Outcome :=
  let licenseFk := r.key
  let event := makeEvent (w.clock 1) TYPE_RENEW r.name r.id licenseStatus.Id
  let st := st.AddEvent event
  let call : LcpCall := ⟨suggestedEnd, licenseFk⟩
  match updateLicense env.Config w suggestedEnd licenseFk with
  | .error errorr => ⟨st, .problem errorr StatusInternalServerError, [call]⟩
  | .ok httpStatusCode =>
    if httpStatusCode ≠ StatusOK ∧ httpStatusCode ≠ StatusPartialContent then
      ⟨st, .problem ("LCP license PATCH returned HTTP error code " ++
          toString httpStatusCode) httpStatusCode, [call]⟩
    else
      let licenseStatus :=
        { licenseStatus with
          CurrentEndLicense := some suggestedEnd
          Updated := ⟨some event.Timestamp, some event.Timestamp⟩
          Status := STATUS_ACTIVE }
      let st := st.Update licenseStatus
      let licenseStatus := fillLicenseStatus env st r licenseStatus
      ⟨st, .document { licenseStatus with DeviceCount := none }, [call]⟩

/-- Handler `LendingRenewal`: checks that the calling device is activated, then moves the end
date of the license and returns the updated status document.  The length check builds its
Problem from `err.Error()` while `err` is nil, which panics. -/
def LendingRenewal (env : Env) (w : World) (st : State) (r : Request) : Outcome :=
  let licenseFk := r.key
  match st.GetByLicenseId licenseFk with
  | none => ⟨st, .notFound, []⟩
  | some licenseStatus =>
    let deviceId := r.id
    let deviceName := r.name
    if deviceName.utf8ByteSize > 255 ∨ deviceId.utf8ByteSize > 255 then
      ⟨st, .crash, []⟩
    else if licenseStatus.Status ≠ STATUS_ACTIVE ∧ licenseStatus.Status ≠ STATUS_READY then
      ⟨st, .problem "License is not active" StatusBadRequest, []⟩
    else if deviceId ≠ "" ∧
        (st.CheckDeviceStatus licenseStatus.Id deviceId ≠ TYPE_REGISTER ∧
          st.CheckDeviceStatus licenseStatus.Id deviceId ≠ TYPE_RENEW) then
      ⟨st, .problem "The device is not active for this license" StatusBadRequest, []⟩
    else
      match licenseStatus.PotentialRights with
      | some ⟨some potentialEnd⟩ =>
        if Time.IsZero potentialEnd then
          ⟨st, .problem "Potential rights end not set" StatusInternalServerError, []⟩
        else
          match suggestedEnd env licenseStatus r with
          | .error response => ⟨st, response, []⟩
          | .ok suggestedEnd =>
            if Time.After suggestedEnd potentialEnd then
              ⟨st, .problem "attempt to renew with date greater than potential rights end"
                StatusForbidden, []⟩
            else if Time.Before suggestedEnd (w.clock 0) then
              ⟨st, .problem "attempt to renew with date before now" StatusForbidden, []⟩
            else
              renewTransaction env w st r licenseStatus suggestedEnd
      | _ => ⟨st, .problem "Potential rights end not set" StatusInternalServerError, []⟩

/-- The second half of `CancelLicenseStatus`, from the reading of the clock on: calls
`updateLicense` with the current time and, when the LCP server answers 200 or 206, stores the
document with the status of the decoded body and the current time as its end date. -/
def cancelTransaction (env : Env) (w : World) (st : State) (r : Request)
    (licenseStatus parsedLs : LicenseStatus) : Outcome :=
  let licenseFk := r.key
  let currentTime := w.clock 0
  let call : LcpCall := ⟨currentTime, licenseFk⟩
  match updateLicense env.Config w currentTime licenseFk with
  | .error errorr => ⟨st, .problem errorr StatusInternalServerError, [call]⟩
  | .ok httpStatusCode =>
    if httpStatusCode ≠ StatusOK ∧ httpStatusCode ≠ StatusPartialContent then
      ⟨st, .problem ("LCP license PATCH returned HTTP error code " ++
          toString httpStatusCode) httpStatusCode, [call]⟩
    else
      let licenseStatus :=
        { licenseStatus with
          CurrentEndLicense := some currentTime
          Status := parsedLs.Status
          Updated := ⟨some currentTime, some currentTime⟩ }
      let st := st.Update licenseStatus
      ⟨st, .ok, [call]⟩

/-- Handler `CancelLicenseStatus`: cancels or revokes (according to the status of the body) a
license. -/
def CancelLicenseStatus (env : Env) (w : World) (st : State) (r : Request) : Outcome :=
  let licenseFk := r.key
  match st.GetByLicenseId licenseFk with
  | none => ⟨st, .notFound, []⟩
  | some licenseStatus =>
    if licenseStatus.Status ≠ STATUS_READY then
      ⟨st, .problem "The new status is not compatible with current status" StatusBadRequest, []⟩
    else
      match decodeJsonLicenseStatus env r with
      | .error err => ⟨st, .problem err StatusInternalServerError, []⟩
      | .ok parsedLs => cancelTransaction env w st r licenseStatus parsedLs

/-! ## Runs of the server -/

/-- The six endpoints of the state machine. -/
inductive Action where
  | create
  | get
  | register
  | lendingReturn
  | renew
  | cancel
deriving DecidableEq, Repr

/-- Dispatch of a request to its handler. -/
def handle (env : Env) (a : Action) (w : World) (st : State) (r : Request) : Outcome :=
  match a with
  | .create => CreateLicenseStatusDocument env w st r
  | .get => GetLicenseStatusDocument env w st r
  | .register => RegisterDevice env w st r
  | .lendingReturn => LendingReturn env w st r
  | .renew => LendingRenewal env w st r
  | .cancel => CancelLicenseStatus env w st r

/-- One served request: the endpoint, the request and what the outside world answers. -/
structure Call where
  action : Action
  world : World
  request : Request

/-- Stored state after serving the calls in order, starting from `st`. -/
def run (env : Env) (st : State) (calls : List Call) : State :=
  calls.foldl (fun s c => (handle env c.action c.world s c.request).state) st

/-- A call is timely in a state when it is not a Return or a Cancel/Revoke made after the
potential rights end of the stored document it addresses. -/
def Call.timely (st : State) (c : Call) : Bool :=
  match c.action with
  | .lendingReturn | .cancel =>
    match st.GetByLicenseId c.request.key with
    | some ls =>
      match ls.PotentialRights with
      | some ⟨some potentialEnd⟩ => decide (c.world.clock 0 ≤ potentialEnd)
      | _ => true
    | none => true
  | _ => true

/-- Every call of the run is timely in the state it is served in. -/
def timelyRun (env : Env) : State → List Call → Bool
  | _, [] => true
  | st, c :: cs =>
    c.timely st && timelyRun env (handle env c.action c.world st c.request).state cs

/-- The empty store of a freshly started server. -/
def State.empty : State := ⟨[], []⟩

/-- The states the server reaches from the empty store. -/
def Reachable (env : Env) (st : State) : Prop :=
  ∃ calls : List Call, run env State.empty calls = st

/-! ## Sample data -/

/-- A configuration with every action enabled and the given `renting_days` and `renew_days`. -/
def sampleConfigWith (rentingDays renewDays : Int) : Config :=
  { LicenseStatus := ⟨true, true, true, rentingDays, renewDays, "en"⟩
    LsdServer := ⟨"http://lsd", ""⟩
    LcpServer := ⟨"http://lcp", ""⟩ }

/-- A configuration with every action enabled, `renting_days` 30 and `renew_days` 7. -/
def sampleConfig : Config := sampleConfigWith 30 7

/-- An environment whose translation returns the key, whose time parser reads an instant
written as a decimal count of nanoseconds, whose status decoder reads a body made of the bare
value of `status`, and whose license decoder reads a body made of the bare license id, for a
loan issued at 0 and ending at 100. -/
def sampleEnvWith (cfg : Config) : Env :=
  { Config := cfg
    T := fun _ _ key => key
    Parse := fun s =>
      if s.data.all Char.isDigit then
        .ok (s.data.foldl (fun acc c => acc * 10 + ((c.toNat : Int) - 48)) 0)
      else .error "cannot parse"
    DecodeStatus := fun s => .ok { LicenseStatus.zero with Status := s }
    DecodeJsonLicense := fun s => .ok ⟨s, 0, some ⟨some 100⟩⟩ }

/-- The sample environment with `renting_days` 30 and `renew_days` 7. -/
def sampleEnv : Env := sampleEnvWith sampleConfig

/-- A world in which every clock reading is `now` and the LCP server answers `code`. -/
def sampleWorld (now : Time) (code : Int) : World :=
  ⟨fun _ => now, fun _ _ => .status code⟩

/-- A stored loan with the given status, ending at 100 and renewable up to 200. -/
def sampleLoan (status : String) : LicenseStatus :=
  { Id := 1, LicenseRef := "L1", Status := status, Updated := ⟨some 0, some 0⟩, Message := "",
    Links := [], DeviceCount := some 0, PotentialRights := some ⟨some 200⟩,
    CurrentEndLicense := some 100, Events := [] }

/-- A store holding one loan with the given status and no event. -/
def sampleState (status : String) : State := ⟨[sampleLoan status], []⟩

/-- A request on the license `L1` whose body is the given text. -/
def sampleBody (body : String) : Request :=
  { key := "L1", id := "", name := "", timeEndString := "", acceptLanguages := "",
    contentType := [], data := "", body := body }

/-- A request on the sample loan with the given device id, device name and `end` parameter. -/
def sampleRequest (id name timeEndString : String) : Request :=
  { key := "L1", id := id, name := name, timeEndString := timeEndString, acceptLanguages := "",
    contentType := [], data := "", body := "" }

/-- A call served at time `now` while the LCP server answers `code`. -/
def sampleCall (a : Action) (now : Time) (code : Int) (r : Request) : Call :=
  ⟨a, sampleWorld now code, r⟩


/-- A stored loan with the given status, current end and potential rights end. -/
def sampleLoanWith (status : String) (currentEnd potentialEnd : Time) : LicenseStatus :=
  { Id := 1, LicenseRef := "L1", Status := status, Updated := ⟨some 0, some 0⟩, Message := "",
    Links := [], DeviceCount := some 0, PotentialRights := some ⟨some potentialEnd⟩,
    CurrentEndLicense := some currentEnd, Events := [] }

/-- A text of 256 bytes: 64 characters of four bytes each. -/
def text256 : String := String.mk (List.replicate 64 '𝔸')

/-- A text of 255 bytes: one character of three bytes and 63 characters of four bytes. -/
def text255 : String := String.mk ('€' :: List.replicate 63 '𝔸')

/-- The status document answered, when the response carries one. -/
def Response.document? : Response → Option LicenseStatus
  | .document ls => some ls
  | _ => none

/-- Number of days from January 1 of year 1 to January 1 of `year`, in the proleptic Gregorian
calendar. -/
def daysBeforeYear (year : Int) : Int :=
  let y := year - 1
  365 * y + y / 4 - y / 100 + y / 400

/-- The year is a leap year. -/
def isLeap (year : Int) : Bool :=
  decide (year % 4 = 0 ∧ (year % 100 ≠ 0 ∨ year % 400 = 0))

/-- Number of days from January 1 of `year` to the first day of `month`. -/
def daysBeforeMonth (year : Int) (month : Nat) : Int :=
  [0, 31, 59, 90, 120, 151, 181, 212, 243, 273, 304, 334].getD (month - 1) 0 +
    (if month > 2 ∧ isLeap year = true then 1 else 0)

/-- Instant of `time.Date(year, month, day, 0, 0, 0, 0, time.UTC)` for a valid date: midnight UTC
of that day, in nanoseconds since the zero time. -/
def Date (year : Int) (month day : Nat) : Time :=
  (daysBeforeYear year + daysBeforeMonth year month + ((day : Int) - 1)) * (24 * Hour)

/-- The device is active for the document in the words of the specification (section 3,
invariant 5): its most recent event for this document is `register` or `renew`, not `return` and
not absent. -/
def State.specDeviceActive (st : State) (licenseStatusFk : Int) (deviceId : String) : Bool :=
  match (st.deviceEvents licenseStatusFk deviceId).getLast? with
  | some e => decide (e.Type_ = TYPE_REGISTER ∨ e.Type_ = TYPE_RENEW)
  | none => false

/-- A store holding the given loan and the given events. -/
def sampleStateWith (ls : LicenseStatus) (events : List Event) : State := ⟨[ls], events⟩

/-- An event of the device `D1` for the sample loan. -/
def sampleEvent (type : String) (timestamp : Time) : Event :=
  { Id := 1, DeviceName := "Kindle", Timestamp := timestamp, Type_ := type, DeviceId := "D1",
    LicenseStatusFk := 1 }


/-- A call is on a loan in a state when it is not a Return or a Cancel/Revoke addressed to a
stored document without potential rights (a purchase). -/
def Call.onLoan (st : State) (c : Call) : Bool :=
  match c.action with
  | .lendingReturn | .cancel =>
    match st.GetByLicenseId c.request.key with
    | some ls => ls.PotentialRights.isSome
    | none => true
  | _ => true

/-- Every call of the run is on a loan in the state it is served in. -/
def loanRun (env : Env) : State → List Call → Bool
  | _, [] => true
  | st, c :: cs =>
    c.onLoan st && loanRun env (handle env c.action c.world st c.request).state cs

/-- The sample environment with a license decoder that reads the body as the id of a purchase:
a license issued at 0 without rights. -/
def samplePurchaseEnv : Env :=
  { sampleEnv with DecodeJsonLicense := fun s => .ok ⟨s, 0, none⟩ }

/-- The links of a document in the words of the specification (section 4.7): the license link,
then the register link if `register` is enabled, then the return link if `return` is enabled and
the document has a current end that is not zero, then the renew link if `renew` is enabled and
the document has a current end that is not zero. -/
def specLinks (cfg : Config) (ls : LicenseStatus) : List Link :=
  let hasEnd : Bool :=
    match ls.CurrentEndLicense with
    | some t => decide (t ≠ 0)
    | none => false
  [{ Href :=
       if cfg.LsdServer.LicenseLinkUrl ≠ "" then
         cfg.LsdServer.LicenseLinkUrl.replace "\x7blicense_id\x7d" ls.LicenseRef
       else cfg.LcpServer.PublicBaseUrl ++ "/licenses/" ++ ls.LicenseRef,
     Rel := "license", Type_ := ContentType_LCP_JSON, Templated := false }] ++
  (if cfg.LicenseStatus.Register then
    [{ Href := cfg.LsdServer.PublicBaseUrl ++ "/licenses/" ++ ls.LicenseRef ++
         "/register\x7b?id,name\x7d",
       Rel := "register", Type_ := ContentType_LSD_JSON, Templated := true }]
   else []) ++
  (if cfg.LicenseStatus.Return && hasEnd then
    [{ Href := cfg.LsdServer.PublicBaseUrl ++ "/licenses/" ++ ls.LicenseRef ++
         "/return\x7b?id,name\x7d",
       Rel := "return", Type_ := ContentType_LSD_JSON, Templated := true }]
   else []) ++
  (if cfg.LicenseStatus.Renew && hasEnd then
    [{ Href := cfg.LsdServer.PublicBaseUrl ++ "/licenses/" ++ ls.LicenseRef ++
         "/renew\x7b?end,id,name\x7d",
       Rel := "renew", Type_ := ContentType_LSD_JSON, Templated := true }]
   else [])


/-! ## The filter endpoint -/

/-- The two errors of package `strconv`: `ErrSyntax` and `ErrRange`. -/
inductive ConvErr where
  | ErrSyntax
  | ErrRange
deriving DecidableEq, Repr

/-- Method `Error` of the two errors of package `strconv`. -/
def ConvErr.Error : ConvErr → String
  | .ErrSyntax => "invalid syntax"
  | .ErrRange => "value out of range"

/-- Type `strconv.NumError`: the failing function, its input and the error. -/
structure NumError where
  Func : String
  Num : String
  Err : ConvErr
deriving DecidableEq, Repr

/-- Method `NumError.Error`.  The input is written between double quotes; the escaping that
`strconv.Quote` applies to quotes, backslashes and non-printable characters is left out. -/
def NumError.Error (e : NumError) : String :=
  "strconv." ++ e.Func ++ ": parsing " ++ "\"" ++ e.Num ++ "\"" ++ ": " ++ e.Err.Error

/-- The digit loop of `strconv.ParseUint` for an explicit base between 2 and 36, over unsigned
64-bit numbers: a character that is not a digit of the base is a syntax error, a value above
`maxVal` a range error. -/
def ParseUint.loop (base maxVal : Nat) : List Char → Nat → Except ConvErr Nat
  | [], n => .ok n
  | c :: cs, n =>
    let lower := c.toNat ||| 32
    let digit : Option Nat :=
      if 48 ≤ c.toNat ∧ c.toNat ≤ 57 then some (c.toNat - 48)
      else if 97 ≤ lower ∧ lower ≤ 122 then some (lower - 97 + 10)
      else none
    match digit with
    | none => .error .ErrSyntax
    | some d =>
      if d ≥ base then .error .ErrSyntax
      else if n ≥ (2 ^ 64 - 1) / base + 1 then .error .ErrRange
      else
        let n := n * base
        let n1 := (n + d) % 2 ^ 64
        if n1 < n ∨ n1 > maxVal then .error .ErrRange
        else ParseUint.loop base maxVal cs n1

/-- Function `strconv.ParseUint` for an explicit base between 2 and 36 and a bit size between 1
and 64. -/
def ParseUint (s : String) (base bitSize : Nat) : Except ConvErr Nat :=
  if s = "" then .error .ErrSyntax
  else ParseUint.loop base (2 ^ bitSize - 1) s.data 0

/-- Function `strconv.ParseInt` for an explicit base between 2 and 36 and a bit size between 1
and 64: an optional sign, then the digits read by `ParseUint`, the value being kept within the
signed range of the bit size. -/
def ParseInt (s : String) (base bitSize : Nat) : Except NumError Int :=
  match s.data with
  | [] => .error ⟨"ParseInt", s, .ErrSyntax⟩
  | c :: cs =>
    let neg := decide (c = '-')
    let digits := if c = '+' ∨ c = '-' then String.mk cs else s
    match ParseUint digits base bitSize with
    | .error .ErrSyntax => .error ⟨"ParseInt", s, .ErrSyntax⟩
    | .error .ErrRange => .error ⟨"ParseInt", s, .ErrRange⟩
    | .ok un =>
      let cutoff := 2 ^ (bitSize - 1)
      if !neg ∧ un ≥ cutoff then .error ⟨"ParseInt", s, .ErrRange⟩
      else if neg ∧ un > cutoff then .error ⟨"ParseInt", s, .ErrRange⟩
      else .ok (if neg then -(un : Int) else (un : Int))

/-- Function `strconv.Itoa`: the decimal text of an integer. -/
def Itoa (i : Int) : String :=
  match i with
  | .ofNat n => Nat.repr n
  | .negSucc n => "-" ++ Nat.repr (n + 1)

/-- The form values read by `FilterLicenseStatuses`; an absent value is the empty text. -/
structure ListRequest where
  devices : String
  page : String
  per_page : String
deriving DecidableEq, Repr

/-- One call of the repository function `LicenseStatuses().List`, with its three arguments. -/
structure ListQuery where
  deviceLimit : Int
  limit : Int
  offset : Int
deriving DecidableEq, Repr

/-- What `FilterLicenseStatuses` writes: a problem answer, or status 200 with the encoded array
of status documents and the header `Link`, when it is set. -/
inductive ListResponse where
  | problem (detail : String) (code : Int)
  | ok (body : List LicenseStatus) (link : Option String)
deriving DecidableEq, Repr

/-- Result of `FilterLicenseStatuses`: the response and the repository queries made. -/
structure ListOutcome where
  response : ListResponse
  queries : List ListQuery
deriving DecidableEq, Repr

/-- Modelled from the spec: repository call `LicenseStatuses().List` (section 4.8), the stored
documents whose `device_count` is at least `deviceLimit`, ordered by id ascending, of which
`offset` are skipped and at most `limit` returned. -/
def State.List (st : State) (deviceLimit limit offset : Int) : List LicenseStatus :=
  (((st.statuses.filter (fun ls =>
      match ls.DeviceCount with
      | some count => decide (deviceLimit ≤ count)
      | none => false)).insertionSort (fun a b => a.Id ≤ b.Id)).drop offset.toNat).take
    limit.toNat

/-- Handler `FilterLicenseStatuses`: the license statuses used on at least `devices` devices, one
page of them.  The arithmetic on `page` and `perPage` is that of 64-bit integers. -/
def FilterLicenseStatuses (st : State) (r : ListRequest) : ListOutcome :=
  let rDevices := if r.devices = "" then "1" else r.devices
  let rPage := if r.page = "" then "1" else r.page
  let rPerPage := if r.per_page = "" then "10" else r.per_page
  match ParseInt rDevices 10 32 with
  | .error err => ⟨.problem err.Error StatusBadRequest, []⟩
  | .ok devicesLimit =>
    match ParseInt rPage 10 32 with
    | .error err => ⟨.problem err.Error StatusBadRequest, []⟩
    | .ok page =>
      match ParseInt rPerPage 10 32 with
      | .error err => ⟨.problem err.Error StatusBadRequest, []⟩
      | .ok perPage =>
        if page < 1 ∨ perPage < 1 ∨ devicesLimit < 1 then
          ⟨.problem "Devices, page, per_page must be positive number" StatusBadRequest, []⟩
        else
          let page := wrap64 (page - 1)
          let query : ListQuery := ⟨devicesLimit, perPage, wrap64 (page * perPage)⟩
          let licenseStatuses := st.List query.deviceLimit query.limit query.offset
          let devices := Itoa devicesLimit
          let lsperpage := Itoa (wrap64 (perPage + 1))
          let resultLink := ""
          let resultLink :=
            if licenseStatuses.length > 0 then
              let nextPage := Itoa (wrap64 (page + 1))
              resultLink ++ ("</licenses/?devices=" ++ devices ++ "&page=" ++ nextPage ++
                "&per_page=" ++ lsperpage ++ ">; rel=\"next\"; title=\"next\"")
            else resultLink
          let resultLink :=
            if page > 0 then
              let previousPage := Itoa (wrap64 (page - 1))
              let resultLink := if resultLink.utf8ByteSize > 0 then resultLink ++ ", " else resultLink
              resultLink ++ ("</licenses/?devices=" ++ devices ++ "&page=" ++ previousPage ++
                "&per_page=" ++ lsperpage ++ ">; rel=\"previous\"; title=\"previous\"")
            else resultLink
          ⟨.ok licenseStatuses (if resultLink.utf8ByteSize > 0 then some resultLink else none),
            [query]⟩

/-- A stored document with the given id, license reference and device count. -/
def sampleCounted (id : Int) (ref : String) (count : Int) : LicenseStatus :=
  { sampleLoan STATUS_ACTIVE with Id := id, LicenseRef := ref, DeviceCount := some count }

/-- A store of three documents, used on 1, 3 and 2 devices. -/
def sampleStore : State :=
  ⟨[sampleCounted 1 "L1" 1, sampleCounted 2 "L2" 3, sampleCounted 3 "L3" 2], []⟩

/-! ## Basic facts -/

theorem Time.sub_pos_iff (t u : Int) : (Time.Sub t u : Int) > 0 ↔ u < t := by
  have hmax : (maxDuration : Int) = 9223372036854775807 := by norm_num [maxDuration]
  have hmin : (minDuration : Int) = -9223372036854775808 := by norm_num [minDuration]
  unfold Time.Sub
  rw [hmax, hmin]
  split_ifs with h1 h2
  · constructor <;> intro h
    · have h3 : (9223372036854775807 : Int) < t - u := h1
      omega
    · norm_num
  · constructor <;> intro h
    · have h3 : (-9223372036854775808 : Int) > 0 := h
      omega
    · have h3 : (t : Int) - u < -9223372036854775808 := h2
      omega
  · constructor <;> intro h
    · have h3 : (t : Int) - u > 0 := h
      omega
    · show (t : Int) - u > 0
      omega

theorem Time.after_iff (t u : Int) : Time.After t u = true ↔ u < t := by
  simp [Time.After]

theorem Time.before_iff (t u : Int) : Time.Before t u = true ↔ t < u := by
  simp [Time.Before]


theorem status_constants_distinct :
    STATUS_READY ≠ STATUS_ACTIVE ∧ STATUS_READY ≠ STATUS_REVOKED ∧
    STATUS_READY ≠ STATUS_RETURNED ∧ STATUS_READY ≠ STATUS_CANCELLED ∧
    STATUS_READY ≠ STATUS_EXPIRED ∧ STATUS_ACTIVE ≠ STATUS_REVOKED ∧
    STATUS_ACTIVE ≠ STATUS_RETURNED ∧ STATUS_ACTIVE ≠ STATUS_CANCELLED ∧
    STATUS_ACTIVE ≠ STATUS_EXPIRED ∧ STATUS_REVOKED ≠ STATUS_RETURNED ∧
    STATUS_REVOKED ≠ STATUS_CANCELLED ∧ STATUS_REVOKED ≠ STATUS_EXPIRED ∧
    STATUS_RETURNED ≠ STATUS_CANCELLED ∧ STATUS_RETURNED ≠ STATUS_EXPIRED ∧
    STATUS_CANCELLED ≠ STATUS_EXPIRED := by
  decide

theorem type_constants_distinct :
    TYPE_REGISTER ≠ TYPE_RETURN ∧ TYPE_REGISTER ≠ TYPE_RENEW ∧ TYPE_RETURN ≠ TYPE_RENEW ∧
    TYPE_REGISTER ≠ "" ∧ TYPE_RETURN ≠ "" ∧ TYPE_RENEW ≠ "" := by
  decide

theorem getByLicenseId_ref {st : State} {key : String} {ls : LicenseStatus}
    (hget : st.GetByLicenseId key = some ls) : ls.LicenseRef = key := by
  have h := List.find?_some hget
  simpa using h

theorem getByLicenseId_mem {st : State} {key : String} {ls : LicenseStatus}
    (hget : st.GetByLicenseId key = some ls) : ls ∈ st.statuses :=
  List.mem_of_find?_eq_some hget

theorem getByLicenseId_addEvent (st : State) (e : Event) (key : String) :
    (st.AddEvent e).GetByLicenseId key = st.GetByLicenseId key := rfl

theorem find_update (l : List LicenseStatus) (key : String) (ls new : LicenseStatus)
    (hget : l.find? (fun x => decide (x.LicenseRef = key)) = some ls)
    (hid : new.Id = ls.Id) (href : new.LicenseRef = key) :
    (l.map (fun x => if x.Id = new.Id then new else x)).find?
      (fun x => decide (x.LicenseRef = key)) = some new := by
  induction l with
  | nil => simp at hget
  | cons x xs ih =>
    by_cases hx : x.LicenseRef = key
    · have hxls : x = ls := by simpa [List.find?_cons, hx] using hget
      subst hxls
      simp [List.find?_cons, hid, href]
    · have hrest : xs.find? (fun x => decide (x.LicenseRef = key)) = some ls := by
        simpa [List.find?_cons, hx] using hget
      by_cases hxi : x.Id = new.Id
      · simp [List.find?_cons, hxi, href]
      · simp [List.find?_cons, hxi, hx, ih hrest]

theorem getByLicenseId_update (st : State) (key : String) (ls new : LicenseStatus)
    (hget : st.GetByLicenseId key = some ls) (hid : new.Id = ls.Id)
    (href : new.LicenseRef = key) : (st.Update new).GetByLicenseId key = some new :=
  find_update st.statuses key ls new hget hid href


theorem returnSwitch_active {ls : LicenseStatus} (h : ls.Status = STATUS_ACTIVE) :
    returnSwitch ls = .ok { ls with Status := STATUS_RETURNED } := by
  obtain ⟨-, -, -, -, -, -, h1, -, h2, -⟩ := status_constants_distinct
  simp [returnSwitch, h, h1, h2]

theorem returnSwitch_ready {ls : LicenseStatus} (h : ls.Status = STATUS_READY) :
    returnSwitch ls = .ok { ls with Status := STATUS_CANCELLED } := by
  obtain ⟨h0, -, h1, -, h2, -⟩ := status_constants_distinct
  simp [returnSwitch, h, h0, h1, h2]

theorem returnSwitch_closed {ls : LicenseStatus}
    (h : ls.Status = STATUS_RETURNED ∨ ls.Status = STATUS_EXPIRED ∨
      ls.Status = STATUS_CANCELLED ∨ ls.Status = STATUS_REVOKED) :
    ∃ detail, returnSwitch ls = .error (.problem detail StatusForbidden) := by
  obtain ⟨h1, h2, h3, h4, h5, h6, h7, h8, h9, h10, h11, h12, h13, h14, h15⟩ :=
    status_constants_distinct
  rcases h with h | h | h | h
  · exact ⟨"License has been already returned", by simp [returnSwitch, h]⟩
  · exact ⟨"License is expired", by simp [returnSwitch, h, h14.symm]⟩
  · exact ⟨"License is cancelled", by simp [returnSwitch, h, h13.symm, h15, h8.symm, h4.symm]⟩
  · exact ⟨"License is revoked", by simp [returnSwitch, h, h10, h12, h6.symm, h2.symm, h11]⟩

/-- The effect of a return that passes every check on a document whose switch gives `moved`. -/
theorem LendingReturn_success (env : Env) (w : World) (st : State) (r : Request)
    (ls moved : LicenseStatus) (c : Int)
    (hget : st.GetByLicenseId r.key = some ls)
    (hid : r.id.utf8ByteSize ≤ 255) (hname : r.name.utf8ByteSize ≤ 255)
    (hswitch : returnSwitch ls = .ok moved)
    (hdev : r.id = "" ∨ (st.CheckDeviceStatus moved.Id r.id ≠ TYPE_RETURN ∧
      st.CheckDeviceStatus moved.Id r.id ≠ ""))
    (hlcp : updateLicense env.Config w (w.clock 0) r.key = .ok c)
    (hc : c = StatusOK ∨ c = StatusPartialContent) :
    LendingReturn env w st r =
      let event := makeEvent (w.clock 0) TYPE_RETURN r.name r.id moved.Id
      let stored : LicenseStatus :=
        { moved with CurrentEndLicense := some (w.clock 0)
                     Updated := ⟨some (w.clock 0), some (w.clock 0)⟩ }
      let st2 := (st.AddEvent event).Update stored
      ⟨st2, .document { fillLicenseStatus env st2 r stored with DeviceCount := none },
        [⟨w.clock 0, r.key⟩]⟩ := by
  have hlen : ¬ (r.name.utf8ByteSize > 255 ∨ r.id.utf8ByteSize > 255) := by omega
  have hdev2 : ¬ (r.id ≠ "" ∧ (st.CheckDeviceStatus moved.Id r.id = TYPE_RETURN ∨
      st.CheckDeviceStatus moved.Id r.id = "")) := by
    rcases hdev with h | ⟨h1, h2⟩
    · simp [h]
    · simp [h1, h2]
  have hc2 : ¬ (c ≠ StatusOK ∧ c ≠ StatusPartialContent) := by
    rcases hc with h | h <;> simp [h]
  simp only [LendingReturn, hget, hswitch]
  rw [if_neg hlen]
  rw [if_neg hdev2]
  simp only [returnTransaction, makeEvent, hlcp]
  rw [if_neg hc2]

theorem fillLicenseStatus_fields (env : Env) (st : State) (r : Request) (ls : LicenseStatus) :
    (fillLicenseStatus env st r ls).Status = ls.Status ∧
    (fillLicenseStatus env st r ls).Id = ls.Id ∧
    (fillLicenseStatus env st r ls).LicenseRef = ls.LicenseRef ∧
    (fillLicenseStatus env st r ls).Updated = ls.Updated ∧
    (fillLicenseStatus env st r ls).DeviceCount = ls.DeviceCount ∧
    (fillLicenseStatus env st r ls).PotentialRights = ls.PotentialRights ∧
    (fillLicenseStatus env st r ls).CurrentEndLicense = ls.CurrentEndLicense := by
  simp [fillLicenseStatus, makeLinks, getEvents]


/-! ## The shape of every run of a handler -/

theorem returnTransaction_events (env : Env) (w : World) (st : State) (r : Request)
    (ls : LicenseStatus) :
    (returnTransaction env w st r ls).state.events = st.events ++
      [{ Id := st.events.length + 1, DeviceName := r.name, Timestamp := w.clock 0,
         Type_ := TYPE_RETURN, DeviceId := r.id, LicenseStatusFk := ls.Id }] ∧
    (returnTransaction env w st r ls).lcpCalls = [⟨w.clock 0, r.key⟩] := by
  unfold returnTransaction
  simp only [makeEvent]
  cases updateLicense env.Config w (w.clock 0) r.key with
  | error e => exact ⟨rfl, rfl⟩
  | ok c =>
    simp only
    split_ifs
    · exact ⟨rfl, rfl⟩
    · exact ⟨rfl, rfl⟩

theorem renewTransaction_events (env : Env) (w : World) (st : State) (r : Request)
    (ls : LicenseStatus) (sugg : Time) :
    (renewTransaction env w st r ls sugg).state.events = st.events ++
      [{ Id := st.events.length + 1, DeviceName := r.name, Timestamp := w.clock 1,
         Type_ := TYPE_RENEW, DeviceId := r.id, LicenseStatusFk := ls.Id }] ∧
    (renewTransaction env w st r ls sugg).lcpCalls = [⟨sugg, r.key⟩] := by
  unfold renewTransaction
  simp only [makeEvent]
  cases updateLicense env.Config w sugg r.key with
  | error e => exact ⟨rfl, rfl⟩
  | ok c =>
    simp only
    split_ifs
    · exact ⟨rfl, rfl⟩
    · exact ⟨rfl, rfl⟩

theorem returnTransaction_refused (env : Env) (w : World) (st : State) (r : Request)
    (ls : LicenseStatus) (c : Int)
    (hlcp : updateLicense env.Config w (w.clock 0) r.key = .ok c)
    (h200 : c ≠ StatusOK) (h206 : c ≠ StatusPartialContent) :
    returnTransaction env w st r ls =
      ⟨st.AddEvent (makeEvent (w.clock 0) TYPE_RETURN r.name r.id ls.Id),
       .problem ("LCP license PATCH returned HTTP error code " ++ toString c) c,
       [⟨w.clock 0, r.key⟩]⟩ := by
  simp only [returnTransaction, makeEvent, hlcp]
  rw [if_pos ⟨h200, h206⟩]

theorem renewTransaction_refused (env : Env) (w : World) (st : State) (r : Request)
    (ls : LicenseStatus) (sugg : Time) (c : Int)
    (hlcp : updateLicense env.Config w sugg r.key = .ok c)
    (h200 : c ≠ StatusOK) (h206 : c ≠ StatusPartialContent) :
    renewTransaction env w st r ls sugg =
      ⟨st.AddEvent (makeEvent (w.clock 1) TYPE_RENEW r.name r.id ls.Id),
       .problem ("LCP license PATCH returned HTTP error code " ++ toString c) c,
       [⟨sugg, r.key⟩]⟩ := by
  simp only [renewTransaction, makeEvent, hlcp]
  rw [if_pos ⟨h200, h206⟩]

theorem returnSwitch_fields {ls moved : LicenseStatus} (h : returnSwitch ls = .ok moved) :
    moved.Id = ls.Id ∧ moved.LicenseRef = ls.LicenseRef ∧ moved.DeviceCount = ls.DeviceCount ∧
    moved.PotentialRights = ls.PotentialRights ∧
    moved.CurrentEndLicense = ls.CurrentEndLicense ∧ moved.Updated = ls.Updated := by
  unfold returnSwitch at h
  split_ifs at h <;> cases h <;> simp

/-- Every run of `LendingReturn` either stops before its transaction, leaving the state as it is
and calling nobody, or is the transaction on the document its switch produced. -/
theorem LendingReturn_cases (env : Env) (w : World) (st : State) (r : Request) :
    ((LendingReturn env w st r).state = st ∧ (LendingReturn env w st r).lcpCalls = [] ∧
      ∀ doc, (LendingReturn env w st r).response ≠ .document doc) ∨
    ∃ ls moved, st.GetByLicenseId r.key = some ls ∧ returnSwitch ls = .ok moved ∧
      r.name.utf8ByteSize ≤ 255 ∧ r.id.utf8ByteSize ≤ 255 ∧
      (r.id = "" ∨ (st.CheckDeviceStatus ls.Id r.id ≠ TYPE_RETURN ∧
        st.CheckDeviceStatus ls.Id r.id ≠ "")) ∧
      LendingReturn env w st r = returnTransaction env w st r moved := by
  cases hget : st.GetByLicenseId r.key with
  | none => left; simp [LendingReturn, hget]
  | some ls =>
    simp only [LendingReturn, hget]
    split_ifs with hlen
    · left; simp
    · cases hsw : returnSwitch ls with
      | error resp =>
        left
        refine ⟨rfl, rfl, ?_⟩
        intro doc
        simp only
        unfold returnSwitch at hsw
        split_ifs at hsw <;> cases hsw <;> simp
      | ok moved =>
        simp only
        have hf := returnSwitch_fields hsw
        split_ifs with hdev
        · left; simp
        · right
          refine ⟨ls, moved, rfl, hsw, by omega, by omega, ?_, rfl⟩
          rw [← hf.1]
          by_cases hid : r.id = ""
          · exact Or.inl hid
          · right
            constructor
            · intro h; exact hdev ⟨hid, Or.inl h⟩
            · intro h; exact hdev ⟨hid, Or.inr h⟩

theorem suggestedEnd_error_not_document (env : Env) (ls : LicenseStatus) (r : Request)
    (resp : Response) (h : suggestedEnd env ls r = .error resp) :
    ∀ doc, resp ≠ .document doc := by
  intro doc
  simp only [suggestedEnd] at h
  split_ifs at h
  · cases h; simp
  · split at h
    · split_ifs at h
      cases h; simp
    · cases h; simp
  · split at h
    · cases h; simp
    · cases h

/-- Every run of `LendingRenewal` either stops before its transaction, leaving the state as it
is and calling nobody, or is the transaction for a suggested end inside the window. -/
theorem LendingRenewal_cases (env : Env) (w : World) (st : State) (r : Request) :
    ((LendingRenewal env w st r).state = st ∧ (LendingRenewal env w st r).lcpCalls = [] ∧
      ∀ doc, (LendingRenewal env w st r).response ≠ .document doc) ∨
    ∃ ls pe sugg, st.GetByLicenseId r.key = some ls ∧
      (ls.Status = STATUS_ACTIVE ∨ ls.Status = STATUS_READY) ∧
      ls.PotentialRights = some ⟨some pe⟩ ∧ suggestedEnd env ls r = .ok sugg ∧
      (sugg : Int) ≤ pe ∧ (w.clock 0 : Int) ≤ sugg ∧
      LendingRenewal env w st r = renewTransaction env w st r ls sugg := by
  cases hget : st.GetByLicenseId r.key with
  | none => left; simp [LendingRenewal, hget]
  | some ls =>
    simp only [LendingRenewal, hget]
    split_ifs with hlen hst hdev
    · left; simp
    · left; simp
    · left; simp
    · rcases hp : ls.PotentialRights with _ | ⟨_ | pe⟩
      · left; simp
      · left; simp
      · simp only
        split_ifs with hz
        · left; simp
        · cases hs : suggestedEnd env ls r with
          | error resp =>
            left
            exact ⟨rfl, rfl, suggestedEnd_error_not_document env ls r resp hs⟩
          | ok sugg =>
            simp only
            split_ifs with ha hb
            · left; simp
            · left; simp
            · right
              refine ⟨ls, pe, sugg, rfl, ?_, hp, hs, ?_, ?_, rfl⟩
              · by_contra hc
                exact hst ⟨fun h => hc (Or.inl h), fun h => hc (Or.inr h)⟩
              · rw [Time.after_iff] at ha; exact not_lt.1 ha
              · rw [Time.before_iff] at hb; exact not_lt.1 hb


/-- Every run of `RegisterDevice` either stops before its transaction, leaving the state as it
is, or is the transaction on the stored document, for a device without earlier event. -/
theorem RegisterDevice_cases (env : Env) (w : World) (st : State) (r : Request) :
    ((RegisterDevice env w st r).state = st ∧ (RegisterDevice env w st r).lcpCalls = [] ∧
      ∀ doc, (RegisterDevice env w st r).response ≠ .document doc) ∨
    ∃ ls, st.GetByLicenseId r.key = some ls ∧
      (ls.Status = STATUS_ACTIVE ∨ ls.Status = STATUS_READY) ∧
      (1 ≤ r.id.utf8ByteSize ∧ r.id.utf8ByteSize ≤ 255) ∧
      (1 ≤ r.name.utf8ByteSize ∧ r.name.utf8ByteSize ≤ 255) ∧
      st.CheckDeviceStatus ls.Id r.id = "" ∧
      RegisterDevice env w st r = registerTransaction env w st r ls := by
  cases hget : st.GetByLicenseId r.key with
  | none => left; simp [RegisterDevice, hget]
  | some ls =>
    simp only [RegisterDevice, hget]
    split_ifs with hlen hst hdev
    · left; simp
    · left; simp
    · left; simp
    · right
      refine ⟨ls, rfl, ?_, by omega, by omega, not_not.1 hdev, rfl⟩
      by_contra hc
      exact hst ⟨fun h => hc (Or.inl h), fun h => hc (Or.inr h)⟩

/-- Every run of `CancelLicenseStatus` either stops before its transaction, leaving the state as
it is and calling nobody, or is the transaction on a READY document with the decoded body. -/
theorem CancelLicenseStatus_cases (env : Env) (w : World) (st : State) (r : Request) :
    ((CancelLicenseStatus env w st r).state = st ∧
      (CancelLicenseStatus env w st r).lcpCalls = []) ∨
    ∃ ls parsedLs, st.GetByLicenseId r.key = some ls ∧ ls.Status = STATUS_READY ∧
      decodeJsonLicenseStatus env r = .ok parsedLs ∧
      CancelLicenseStatus env w st r = cancelTransaction env w st r ls parsedLs := by
  cases hget : st.GetByLicenseId r.key with
  | none => left; simp [CancelLicenseStatus, hget]
  | some ls =>
    simp only [CancelLicenseStatus, hget]
    split_ifs with hst
    · left; simp
    · cases hd : decodeJsonLicenseStatus env r with
      | error e => left; simp
      | ok parsedLs => right; exact ⟨ls, parsedLs, rfl, not_not.1 hst, rfl, rfl⟩

/-- Every run of `GetLicenseStatusDocument` leaves the state as it is or stores the document it
read with the status EXPIRED. -/
theorem GetLicenseStatusDocument_cases (env : Env) (w : World) (st : State) (r : Request) :
    (GetLicenseStatusDocument env w st r).lcpCalls = [] ∧
    ((GetLicenseStatusDocument env w st r).state = st ∨
      ∃ ls, st.GetByLicenseId r.key = some ls ∧
        (GetLicenseStatusDocument env w st r).state =
          st.Update { ls with Status := STATUS_EXPIRED }) := by
  cases hget : st.GetByLicenseId r.key with
  | none => simp [GetLicenseStatusDocument, hget]
  | some ls =>
    simp only [GetLicenseStatusDocument, hget]
    refine ⟨trivial, ?_⟩
    split_ifs with hexp
    · right; exact ⟨ls, rfl, rfl⟩
    · left; rfl

/-- Every run of `CreateLicenseStatusDocument` leaves the state as it is or adds the document
made from the decoded license. -/
theorem CreateLicenseStatusDocument_cases (env : Env) (w : World) (st : State) (r : Request) :
    (CreateLicenseStatusDocument env w st r).lcpCalls = [] ∧
    ((CreateLicenseStatusDocument env w st r).state = st ∨
      ∃ lic, env.DecodeJsonLicense r.body = .ok lic ∧
        (CreateLicenseStatusDocument env w st r).state =
          st.AddStatus (makeLicenseStatus env.Config (w.clock 0) lic LicenseStatus.zero)) := by
  unfold CreateLicenseStatusDocument
  cases hd : env.DecodeJsonLicense r.body with
  | error e => exact ⟨rfl, Or.inl rfl⟩
  | ok lic => exact ⟨rfl, Or.inr ⟨lic, rfl, rfl⟩⟩

/-- The state after a return transaction: the event is appended, and the document is stored
with the timestamp of the event as its end date when the LCP server accepts. -/
theorem returnTransaction_state (env : Env) (w : World) (st : State) (r : Request)
    (ls : LicenseStatus) :
    (returnTransaction env w st r ls).state =
        st.AddEvent (makeEvent (w.clock 0) TYPE_RETURN r.name r.id ls.Id) ∨
    (returnTransaction env w st r ls).state =
        (st.AddEvent (makeEvent (w.clock 0) TYPE_RETURN r.name r.id ls.Id)).Update
          { ls with CurrentEndLicense := some (w.clock 0)
                    Updated := ⟨some (w.clock 0), some (w.clock 0)⟩ } := by
  unfold returnTransaction
  simp only [makeEvent]
  cases updateLicense env.Config w (w.clock 0) r.key with
  | error e => exact Or.inl rfl
  | ok c =>
    simp only
    split_ifs
    · exact Or.inl rfl
    · exact Or.inr rfl

/-- The state after a renew transaction. -/
theorem renewTransaction_state (env : Env) (w : World) (st : State) (r : Request)
    (ls : LicenseStatus) (sugg : Time) :
    (renewTransaction env w st r ls sugg).state =
        st.AddEvent (makeEvent (w.clock 1) TYPE_RENEW r.name r.id ls.Id) ∨
    (renewTransaction env w st r ls sugg).state =
        (st.AddEvent (makeEvent (w.clock 1) TYPE_RENEW r.name r.id ls.Id)).Update
          { ls with CurrentEndLicense := some sugg
                    Updated := ⟨some (w.clock 1), some (w.clock 1)⟩
                    Status := STATUS_ACTIVE } := by
  unfold renewTransaction
  simp only [makeEvent]
  cases updateLicense env.Config w sugg r.key with
  | error e => exact Or.inl rfl
  | ok c =>
    simp only
    split_ifs
    · exact Or.inl rfl
    · exact Or.inr rfl

/-- The state after a cancel transaction. -/
theorem cancelTransaction_state (env : Env) (w : World) (st : State) (r : Request)
    (ls parsedLs : LicenseStatus) :
    (cancelTransaction env w st r ls parsedLs).state = st ∨
    (cancelTransaction env w st r ls parsedLs).state =
        st.Update
          { ls with CurrentEndLicense := some (w.clock 0)
                    Status := parsedLs.Status
                    Updated := ⟨some (w.clock 0), some (w.clock 0)⟩ } := by
  unfold cancelTransaction
  simp only
  cases updateLicense env.Config w (w.clock 0) r.key with
  | error e => exact Or.inl rfl
  | ok c =>
    simp only
    split_ifs
    · exact Or.inl rfl
    · exact Or.inr rfl

/-- The state after a register transaction. -/
theorem registerTransaction_state (env : Env) (w : World) (st : State) (r : Request)
    (ls : LicenseStatus) :
    (ls.DeviceCount = none ∧ (registerTransaction env w st r ls).response = .crash ∧
      (registerTransaction env w st r ls).state =
        st.AddEvent (makeEvent (w.clock 0) TYPE_REGISTER r.name r.id ls.Id)) ∨
    ∃ n, ls.DeviceCount = some n ∧
      (∃ doc, (registerTransaction env w st r ls).response = .document doc) ∧
      (registerTransaction env w st r ls).state =
        (st.AddEvent (makeEvent (w.clock 0) TYPE_REGISTER r.name r.id ls.Id)).Update
          { ls with Status := (if ls.Status = STATUS_READY then STATUS_ACTIVE else ls.Status)
                    DeviceCount := some (n + 1)
                    Updated := { ls.Updated with Status := some (w.clock 0) } } := by
  unfold registerTransaction
  simp only [makeEvent]
  by_cases hs : ls.Status = STATUS_READY
  · simp only [hs, if_true]
    cases hc : ls.DeviceCount with
    | none => left; exact ⟨rfl, rfl, rfl⟩
    | some n => right; exact ⟨n, rfl, ⟨_, rfl⟩, rfl⟩
  · simp only [hs, if_false]
    cases hc : ls.DeviceCount with
    | none => left; exact ⟨rfl, rfl, rfl⟩
    | some n => right; exact ⟨n, rfl, ⟨_, rfl⟩, rfl⟩


/-- C1: a return request whose id and name are at most 255 bytes moves an ACTIVE document to
RETURNED and a READY document to CANCELLED, the new status being stored and answered once the
device check and the LCP PATCH succeed; on a RETURNED, EXPIRED, CANCELLED or REVOKED document
the answer is 403, no event is appended, `updateLicense` is not called and the store is
unchanged. -/
theorem LendingReturn_status_table (env : Env) (w : World) (st : State) (r : Request)
    (ls : LicenseStatus) (hget : st.GetByLicenseId r.key = some ls)
    (hid : r.id.utf8ByteSize ≤ 255) (hname : r.name.utf8ByteSize ≤ 255) :
    (∀ c, ls.Status = STATUS_ACTIVE →
      (r.id = "" ∨ (st.CheckDeviceStatus ls.Id r.id ≠ TYPE_RETURN ∧
        st.CheckDeviceStatus ls.Id r.id ≠ "")) →
      updateLicense env.Config w (w.clock 0) r.key = .ok c →
      (c = StatusOK ∨ c = StatusPartialContent) →
      ∃ doc stored, (LendingReturn env w st r).response = .document doc ∧
        doc.Status = STATUS_RETURNED ∧
        (LendingReturn env w st r).state.GetByLicenseId r.key = some stored ∧
        stored.Status = STATUS_RETURNED) ∧
    (∀ c, ls.Status = STATUS_READY →
      (r.id = "" ∨ (st.CheckDeviceStatus ls.Id r.id ≠ TYPE_RETURN ∧
        st.CheckDeviceStatus ls.Id r.id ≠ "")) →
      updateLicense env.Config w (w.clock 0) r.key = .ok c →
      (c = StatusOK ∨ c = StatusPartialContent) →
      ∃ doc stored, (LendingReturn env w st r).response = .document doc ∧
        doc.Status = STATUS_CANCELLED ∧
        (LendingReturn env w st r).state.GetByLicenseId r.key = some stored ∧
        stored.Status = STATUS_CANCELLED) ∧
    (ls.Status = STATUS_RETURNED ∨ ls.Status = STATUS_EXPIRED ∨
        ls.Status = STATUS_CANCELLED ∨ ls.Status = STATUS_REVOKED →
      (∃ detail, (LendingReturn env w st r).response = .problem detail 403) ∧
      (LendingReturn env w st r).state = st ∧
      (LendingReturn env w st r).lcpCalls = []) := by
  have href := getByLicenseId_ref hget
  refine ⟨?_, ?_, ?_⟩
  · intro c hs hdev hlcp hc
    rw [LendingReturn_success env w st r ls _ c hget hid hname (returnSwitch_active hs) hdev
      hlcp hc]
    refine ⟨_, _, rfl, ?_, getByLicenseId_update _ _ ls _ ?_ rfl href, rfl⟩
    · simp [(fillLicenseStatus_fields _ _ _ _).1]
    · exact hget
  · intro c hs hdev hlcp hc
    rw [LendingReturn_success env w st r ls _ c hget hid hname (returnSwitch_ready hs) hdev
      hlcp hc]
    refine ⟨_, _, rfl, ?_, getByLicenseId_update _ _ ls _ ?_ rfl href, rfl⟩
    · simp [(fillLicenseStatus_fields _ _ _ _).1]
    · exact hget
  · intro hs
    obtain ⟨detail, hd⟩ := returnSwitch_closed hs
    have hlen : ¬ (r.name.utf8ByteSize > 255 ∨ r.id.utf8ByteSize > 255) := by omega
    simp only [LendingReturn, hget, hd]
    rw [if_neg hlen]
    exact ⟨⟨detail, rfl⟩, rfl, rfl⟩

/-- C1, at a stored ACTIVE loan returned at time 50 with the LCP server answering 200. -/
theorem LendingReturn_status_table_witness :
    ∃ doc stored,
      (LendingReturn sampleEnv (sampleWorld 50 200) (sampleState STATUS_ACTIVE)
        (sampleRequest "" "" "")).response = .document doc ∧
      doc.Status = STATUS_RETURNED ∧
      (LendingReturn sampleEnv (sampleWorld 50 200) (sampleState STATUS_ACTIVE)
        (sampleRequest "" "" "")).state.GetByLicenseId "L1" = some stored ∧
      stored.Status = STATUS_RETURNED :=
  (LendingReturn_status_table sampleEnv (sampleWorld 50 200) (sampleState STATUS_ACTIVE)
    (sampleRequest "" "" "") (sampleLoan STATUS_ACTIVE) (by decide) (by decide) (by decide)).1
    200 (by decide) (Or.inl (by decide)) rfl (Or.inl (by decide))


/-- C2: `GetLicenseStatusDocument` stores the status EXPIRED exactly when the potential rights
end is set and not zero, the clock is past it and the status is ACTIVE or READY; in every other
case the store is unchanged and the answered status is the stored one. -/
theorem GetLicenseStatusDocument_lazy_expiry (env : Env) (w : World) (st : State)
    (r : Request) (ls : LicenseStatus) (hget : st.GetByLicenseId r.key = some ls) :
    ((∃ e, ls.PotentialRights = some ⟨some e⟩ ∧ e ≠ 0 ∧ e < w.clock 0 ∧
        (ls.Status = STATUS_ACTIVE ∨ ls.Status = STATUS_READY)) →
      (GetLicenseStatusDocument env w st r).state =
        st.Update { ls with Status := STATUS_EXPIRED } ∧
      (GetLicenseStatusDocument env w st r).state.GetByLicenseId r.key =
        some { ls with Status := STATUS_EXPIRED } ∧
      ∃ doc, (GetLicenseStatusDocument env w st r).response = .document doc ∧
        doc.Status = STATUS_EXPIRED) ∧
    (¬ (∃ e, ls.PotentialRights = some ⟨some e⟩ ∧ e ≠ 0 ∧ e < w.clock 0 ∧
        (ls.Status = STATUS_ACTIVE ∨ ls.Status = STATUS_READY)) →
      (GetLicenseStatusDocument env w st r).state = st ∧
      ∃ doc, (GetLicenseStatusDocument env w st r).response = .document doc ∧
        doc.Status = ls.Status) ∧
    ((ls.Status ≠ STATUS_EXPIRED ∧
        ∃ stored, (GetLicenseStatusDocument env w st r).state.GetByLicenseId r.key =
          some stored ∧ stored.Status = STATUS_EXPIRED) ↔
      ∃ e, ls.PotentialRights = some ⟨some e⟩ ∧ e ≠ 0 ∧ e < w.clock 0 ∧
        (ls.Status = STATUS_ACTIVE ∨ ls.Status = STATUS_READY)) := by
  have href := getByLicenseId_ref hget
  obtain ⟨-, -, -, -, hre, -, -, -, hae, -⟩ := status_constants_distinct
  have hyes : (∃ e, ls.PotentialRights = some ⟨some e⟩ ∧ e ≠ 0 ∧ e < w.clock 0 ∧
        (ls.Status = STATUS_ACTIVE ∨ ls.Status = STATUS_READY)) →
      (GetLicenseStatusDocument env w st r).state =
        st.Update { ls with Status := STATUS_EXPIRED } ∧
      (GetLicenseStatusDocument env w st r).state.GetByLicenseId r.key =
        some { ls with Status := STATUS_EXPIRED } ∧
      ∃ doc, (GetLicenseStatusDocument env w st r).response = .document doc ∧
        doc.Status = STATUS_EXPIRED := by
    rintro ⟨e, hp, he, hlt, hs⟩
    have hsub : Time.Sub (w.clock 0) e > 0 := (Time.sub_pos_iff _ _).2 hlt
    have hexp : (!Time.IsZero e && (decide (Time.Sub (w.clock 0) e > 0) &&
        (decide (ls.Status = STATUS_ACTIVE) || decide (ls.Status = STATUS_READY)))) = true := by
      simp [Time.IsZero, he, hsub, hs]
    have hstate : (GetLicenseStatusDocument env w st r).state =
        st.Update { ls with Status := STATUS_EXPIRED } := by
      simp only [GetLicenseStatusDocument, hget, hp, hexp, if_true]
    refine ⟨hstate, ?_, ?_⟩
    · rw [hstate]
      exact getByLicenseId_update st r.key ls _ hget rfl href
    · simp only [GetLicenseStatusDocument, hget, hp, hexp, if_true]
      exact ⟨_, rfl, by simp [(fillLicenseStatus_fields _ _ _ _).1]⟩
  have hno : ¬ (∃ e, ls.PotentialRights = some ⟨some e⟩ ∧ e ≠ 0 ∧ e < w.clock 0 ∧
        (ls.Status = STATUS_ACTIVE ∨ ls.Status = STATUS_READY)) →
      (GetLicenseStatusDocument env w st r).state = st ∧
      ∃ doc, (GetLicenseStatusDocument env w st r).response = .document doc ∧
        doc.Status = ls.Status := by
    intro hn
    have hexp : (match ls.PotentialRights with
        | some ⟨some potentialEnd⟩ =>
          !Time.IsZero potentialEnd &&
            (decide (Time.Sub (w.clock 0) potentialEnd > 0) &&
              (decide (ls.Status = STATUS_ACTIVE) || decide (ls.Status = STATUS_READY)))
        | _ => false) = false := by
      rcases hp : ls.PotentialRights with _ | ⟨_ | e⟩
      · rfl
      · rfl
      · simp only
        by_contra hc
        apply hn
        simp only [Bool.not_eq_false, Bool.and_eq_true, Bool.or_eq_true, decide_eq_true_eq,
          Bool.not_eq_true', Time.IsZero, decide_eq_false_iff_not] at hc
        exact ⟨e, hp, hc.1, (Time.sub_pos_iff _ _).1 hc.2.1, hc.2.2⟩
    simp only [GetLicenseStatusDocument, hget, hexp]
    exact ⟨rfl, _, rfl, by simp [(fillLicenseStatus_fields _ _ _ _).1]⟩
  refine ⟨hyes, hno, ?_⟩
  constructor
  · rintro ⟨hne, stored, hst, hse⟩
    by_contra hn
    obtain ⟨hs, -⟩ := hno hn
    rw [hs, hget] at hst
    cases hst
    exact hne hse
  · intro hd
    obtain ⟨-, hg, -⟩ := hyes hd
    obtain ⟨e, -, -, -, hs⟩ := hd
    refine ⟨?_, _, hg, rfl⟩
    rcases hs with hs | hs
    · rw [hs]; exact hae
    · rw [hs]; exact hre


/-- C2, at an ACTIVE loan whose potential rights end is 200, read at time 300. -/
theorem GetLicenseStatusDocument_lazy_expiry_witness :
    (GetLicenseStatusDocument sampleEnv (sampleWorld 300 200) (sampleState STATUS_ACTIVE)
      (sampleRequest "" "" "")).state.GetByLicenseId "L1" =
      some { sampleLoan STATUS_ACTIVE with Status := STATUS_EXPIRED } :=
  ((GetLicenseStatusDocument_lazy_expiry sampleEnv (sampleWorld 300 200)
    (sampleState STATUS_ACTIVE) (sampleRequest "" "" "") (sampleLoan STATUS_ACTIVE)
    (by decide)).1 ⟨200, rfl, by decide, by decide, Or.inl rfl⟩).2.1


/-- The part of `LendingRenewal` that follows the checks on the request and the document. -/
theorem LendingRenewal_checked (env : Env) (w : World) (st : State) (r : Request)
    (ls : LicenseStatus) (pe sugg : Time)
    (hget : st.GetByLicenseId r.key = some ls)
    (hid : r.id.utf8ByteSize ≤ 255) (hname : r.name.utf8ByteSize ≤ 255)
    (hstatus : ls.Status = STATUS_ACTIVE ∨ ls.Status = STATUS_READY)
    (hdev : r.id = "" ∨ st.CheckDeviceStatus ls.Id r.id = TYPE_REGISTER ∨
      st.CheckDeviceStatus ls.Id r.id = TYPE_RENEW)
    (hpot : ls.PotentialRights = some ⟨some pe⟩) (hpe : pe ≠ 0)
    (hsugg : suggestedEnd env ls r = .ok sugg) :
    LendingRenewal env w st r =
      if Time.After sugg pe then
        ⟨st, .problem "attempt to renew with date greater than potential rights end"
          StatusForbidden, []⟩
      else if Time.Before sugg (w.clock 0) then
        ⟨st, .problem "attempt to renew with date before now" StatusForbidden, []⟩
      else renewTransaction env w st r ls sugg := by
  have hlen : ¬ (r.name.utf8ByteSize > 255 ∨ r.id.utf8ByteSize > 255) := by omega
  have hst : ¬ (ls.Status ≠ STATUS_ACTIVE ∧ ls.Status ≠ STATUS_READY) := by
    rcases hstatus with h | h <;> simp [h]
  have hdev2 : ¬ (r.id ≠ "" ∧ (st.CheckDeviceStatus ls.Id r.id ≠ TYPE_REGISTER ∧
      st.CheckDeviceStatus ls.Id r.id ≠ TYPE_RENEW)) := by
    rcases hdev with h | h | h <;> simp [h]
  have hz : Time.IsZero pe = false := by simp [Time.IsZero, hpe]
  simp only [LendingRenewal, hget, hpot, hsugg]
  rw [if_neg hlen, if_neg hst, if_neg hdev2]
  simp only [hz, Bool.false_eq_true, if_false]

/-- C3, amended: a renewal that passes the length, status, device and potential-rights checks
and yields a suggested end proceeds (the renew event is appended and `updateLicense` is called
with the suggested end) exactly when the suggested end is not before now and not after the
potential rights end; otherwise the answer is 403 and nothing is appended or stored.  The end
`potential_rights.end` is allowed when it is not before now; `potential_rights.end + 1ns` and
`now - 1s` are refused. -/
theorem LendingRenewal_window (env : Env) (w : World) (st : State) (r : Request)
    (ls : LicenseStatus) (pe sugg : Time)
    (hget : st.GetByLicenseId r.key = some ls)
    (hid : r.id.utf8ByteSize ≤ 255) (hname : r.name.utf8ByteSize ≤ 255)
    (hstatus : ls.Status = STATUS_ACTIVE ∨ ls.Status = STATUS_READY)
    (hdev : r.id = "" ∨ st.CheckDeviceStatus ls.Id r.id = TYPE_REGISTER ∨
      st.CheckDeviceStatus ls.Id r.id = TYPE_RENEW)
    (hpot : ls.PotentialRights = some ⟨some pe⟩) (hpe : pe ≠ 0)
    (hsugg : suggestedEnd env ls r = .ok sugg) :
    (w.clock 0 ≤ sugg ∧ sugg ≤ pe →
      (LendingRenewal env w st r).state.events = st.events ++
        [{ makeEvent (w.clock 1) TYPE_RENEW r.name r.id ls.Id with
            Id := st.events.length + 1 }] ∧
      (LendingRenewal env w st r).lcpCalls = [⟨sugg, r.key⟩]) ∧
    (¬ (w.clock 0 ≤ sugg ∧ sugg ≤ pe) →
      (∃ detail, (LendingRenewal env w st r).response = .problem detail 403) ∧
      (LendingRenewal env w st r).state = st ∧
      (LendingRenewal env w st r).lcpCalls = []) ∧
    ((LendingRenewal env w st r).lcpCalls ≠ [] ↔ w.clock 0 ≤ sugg ∧ sugg ≤ pe) ∧
    (sugg = pe → w.clock 0 ≤ pe → (LendingRenewal env w st r).lcpCalls = [⟨pe, r.key⟩]) ∧
    (sugg = pe + 1 → ∃ detail, (LendingRenewal env w st r).response = .problem detail 403) ∧
    (sugg = w.clock 0 - 1000000000 →
      ∃ detail, (LendingRenewal env w st r).response = .problem detail 403) := by
  have hrun := LendingRenewal_checked env w st r ls pe sugg hget hid hname hstatus hdev hpot
    hpe hsugg
  have hyes : w.clock 0 ≤ sugg ∧ sugg ≤ pe →
      (LendingRenewal env w st r).state.events = st.events ++
        [{ makeEvent (w.clock 1) TYPE_RENEW r.name r.id ls.Id with
            Id := st.events.length + 1 }] ∧
      (LendingRenewal env w st r).lcpCalls = [⟨sugg, r.key⟩] := by
    rintro ⟨h1, h2⟩
    have ha : ¬ (Time.After sugg pe = true) := by
      rw [Time.after_iff]; exact not_lt.2 h2
    have hb : ¬ (Time.Before sugg (w.clock 0) = true) := by
      rw [Time.before_iff]; exact not_lt.2 h1
    rw [hrun, if_neg ha, if_neg hb]
    simp only [renewTransaction]
    cases hu : updateLicense env.Config w sugg r.key with
    | error e => exact ⟨rfl, rfl⟩
    | ok c =>
      simp only
      split_ifs
      · exact ⟨rfl, rfl⟩
      · exact ⟨rfl, rfl⟩
  have hno : ¬ (w.clock 0 ≤ sugg ∧ sugg ≤ pe) →
      (∃ detail, (LendingRenewal env w st r).response = .problem detail 403) ∧
      (LendingRenewal env w st r).state = st ∧
      (LendingRenewal env w st r).lcpCalls = [] := by
    intro hn
    rw [hrun]
    by_cases ha : Time.After sugg pe = true
    · rw [if_pos ha]
      exact ⟨⟨_, rfl⟩, rfl, rfl⟩
    · rw [if_neg ha]
      have hb : Time.Before sugg (w.clock 0) = true := by
        rw [Time.before_iff]
        rw [Time.after_iff] at ha
        by_contra hc
        exact hn ⟨not_lt.1 hc, not_lt.1 ha⟩
      rw [if_pos hb]
      exact ⟨⟨_, rfl⟩, rfl, rfl⟩
  refine ⟨hyes, hno, ?_, ?_, ?_, ?_⟩
  · constructor
    · intro hne
      by_contra hn
      exact hne (hno hn).2.2
    · intro hc
      rw [(hyes hc).2]
      simp
  · intro he hle
    rw [(hyes ⟨he ▸ hle, he ▸ le_refl _⟩).2, he]
  · intro he
    refine (hno ?_).1
    rintro ⟨-, h2⟩
    rw [he] at h2
    exact absurd h2 (not_le.2 (Int.lt_succ_self pe))
  · intro he
    refine (hno ?_).1
    rintro ⟨h1, -⟩
    rw [he] at h1
    exact absurd h1 (not_le.2 (sub_lt_self _ (by norm_num)))


/-- C3, at a READY loan renewable up to 200, renewed at time 50 with `end` = 200. -/
theorem LendingRenewal_window_witness :
    (LendingRenewal sampleEnv (sampleWorld 50 200) (sampleState STATUS_READY)
      (sampleRequest "" "" "200")).state.events =
      [{ makeEvent 50 TYPE_RENEW "" "" 1 with Id := 1 }] ∧
    (LendingRenewal sampleEnv (sampleWorld 50 200) (sampleState STATUS_READY)
      (sampleRequest "" "" "200")).lcpCalls = [⟨200, "L1"⟩] :=
  (LendingRenewal_window sampleEnv (sampleWorld 50 200) (sampleState STATUS_READY)
    (sampleRequest "" "" "200") (sampleLoan STATUS_READY) 200 200 (by decide) (by decide)
    (by decide) (Or.inr rfl) (Or.inl rfl) rfl (by decide) rfl).1 ⟨by decide, by decide⟩

/-- C3 as stated fails: a renewal whose suggested end equals now (so is not strictly after now)
passes every check, appends its renew event, calls `updateLicense` and is answered 200. -/
theorem LendingRenewal_end_equal_now_proceeds :
    suggestedEnd sampleEnv (sampleLoan STATUS_READY) (sampleRequest "" "" "50") = .ok 50 ∧
    ¬ ((sampleWorld 50 200).clock 0 < 50) ∧
    (LendingRenewal sampleEnv (sampleWorld 50 200) (sampleState STATUS_READY)
      (sampleRequest "" "" "50")).state.events =
      [{ makeEvent 50 TYPE_RENEW "" "" 1 with Id := 1 }] ∧
    (LendingRenewal sampleEnv (sampleWorld 50 200) (sampleState STATUS_READY)
      (sampleRequest "" "" "50")).lcpCalls = [⟨50, "L1"⟩] ∧
    (LendingRenewal sampleEnv (sampleWorld 50 200) (sampleState STATUS_READY)
      (sampleRequest "" "" "50")).response.code = some 200 := by
  refine ⟨rfl, by decide, by decide, by decide, by decide⟩


theorem wrap64_of_range (x : Int) (h0 : 0 ≤ x) (h1 : x ≤ maxDuration) : wrap64 x = x := by
  have hmax : (maxDuration : Int) = 9223372036854775807 := by norm_num [maxDuration]
  rw [hmax] at h1
  unfold wrap64
  norm_num
  omega

/-- C4, amended: for a license with `rights.end` set, `makeLicenseStatus` sets
`current_end_license` to `rights.end`; when `renting_days` is positive (and `renting_days`
times 24h fits a 64-bit duration) it sets `potential_rights.end` to the later of `rights.end`
and `issued + renting_days * 24h`, and when `renting_days` is 0 it sets `potential_rights.end`
to `rights.end`, whatever `issued` is. -/
theorem makeLicenseStatus_loan (cfg : Config) (now : Time) (license : License)
    (ls : LicenseStatus) (rights : UserRights) (e : Time)
    (hrights : license.Rights = some rights) (hend : rights.End = some e) :
    (makeLicenseStatus cfg now license ls).CurrentEndLicense = some e ∧
    (0 < cfg.LicenseStatus.RentingDays →
      cfg.LicenseStatus.RentingDays * (24 * Hour) ≤ maxDuration →
      (makeLicenseStatus cfg now license ls).PotentialRights =
        some ⟨some (max e (license.Issued + cfg.LicenseStatus.RentingDays * (24 * Hour)))⟩) ∧
    (cfg.LicenseStatus.RentingDays = 0 →
      (makeLicenseStatus cfg now license ls).PotentialRights = some ⟨some e⟩) := by
  have hbind : license.Rights.bind (fun rights => rights.End) = some e := by
    simp [hrights, hend]
  refine ⟨?_, ?_, ?_⟩
  · simp only [makeLicenseStatus, hbind, Time.Add, add_zero]
    split_ifs <;> simp [Time.Add]
  · intro hpos hfit
    have hw : wrap64 (Hour * 24 * cfg.LicenseStatus.RentingDays) =
        cfg.LicenseStatus.RentingDays * (24 * Hour) := by
      have hcomm : Hour * 24 * cfg.LicenseStatus.RentingDays =
          cfg.LicenseStatus.RentingDays * (24 * Hour) := by ring
      rw [hcomm]
      exact wrap64_of_range _ (mul_nonneg (le_of_lt hpos) (by norm_num [Hour])) hfit
    simp only [makeLicenseStatus, hbind, hw, Time.Add, add_zero, Time.After]
    rw [if_pos (show cfg.LicenseStatus.RentingDays > 0 from hpos)]
    by_cases hlt : license.Issued + cfg.LicenseStatus.RentingDays * (24 * Hour) < e
    · have hm : max e (license.Issued + cfg.LicenseStatus.RentingDays * (24 * Hour)) = e :=
        max_eq_left (le_of_lt hlt)
      simp only [hlt, decide_True, if_true, hm]
      split_ifs <;> simp [Time.Add]
    · have hm : max e (license.Issued + cfg.LicenseStatus.RentingDays * (24 * Hour)) =
          license.Issued + cfg.LicenseStatus.RentingDays * (24 * Hour) :=
        max_eq_right (not_lt.1 hlt)
      simp only [hlt, decide_False, Bool.false_eq_true, if_false, hm]
      split_ifs <;> simp [Time.Add]
  · intro hzero
    simp only [makeLicenseStatus, hbind, Time.Add, add_zero, hzero, gt_iff_lt, lt_irrefl,
      if_false]
    split_ifs <;> simp

/-- C4, at the license issued at 0 and ending at 100 nanoseconds with `renting_days` 30. -/
theorem makeLicenseStatus_loan_witness :
    (makeLicenseStatus sampleConfig 7 ⟨"L1", 0, some ⟨some 100⟩⟩
      LicenseStatus.zero).CurrentEndLicense = some 100 ∧
    (makeLicenseStatus sampleConfig 7 ⟨"L1", 0, some ⟨some 100⟩⟩
      LicenseStatus.zero).PotentialRights =
        some ⟨some (max 100 (0 + 30 * (24 * Hour)))⟩ :=
  ⟨(makeLicenseStatus_loan sampleConfig 7 ⟨"L1", 0, some ⟨some 100⟩⟩ LicenseStatus.zero
      ⟨some 100⟩ 100 rfl rfl).1,
    (makeLicenseStatus_loan sampleConfig 7 ⟨"L1", 0, some ⟨some 100⟩⟩ LicenseStatus.zero
      ⟨some 100⟩ 100 rfl rfl).2.1 (by decide) (by decide)⟩

/-- C4 as stated fails: with `renting_days` 0 and a license issued at 10 whose rights end at 5,
`potential_rights.end` is 5, the rights end, and not the later of 5 and `issued + 0 * 24h`. -/
theorem makeLicenseStatus_zero_renting_days_not_max :
    (makeLicenseStatus (sampleConfigWith 0 7) 7 ⟨"L1", 10, some ⟨some 5⟩⟩
      LicenseStatus.zero).PotentialRights = some ⟨some 5⟩ ∧
    (makeLicenseStatus (sampleConfigWith 0 7) 7 ⟨"L1", 10, some ⟨some 5⟩⟩
      LicenseStatus.zero).PotentialRights ≠ some ⟨some (max 5 (10 + 0 * (24 * Hour)))⟩ := by
  constructor <;> decide


theorem checkDeviceStatus_of_no_event (st : State) (fk : Int) (deviceId : String)
    (hnew : ∀ e ∈ st.events, ¬ (e.LicenseStatusFk = fk ∧ e.DeviceId = deviceId)) :
    st.CheckDeviceStatus fk deviceId = "" := by
  have hnil : st.deviceEvents fk deviceId = [] := by
    unfold State.deviceEvents
    rw [List.filter_eq_nil_iff]
    intro e he
    simpa using hnew e he
  simp [State.CheckDeviceStatus, hnil]

/-- The part of `RegisterDevice` that follows the checks on the request and the document. -/
theorem RegisterDevice_checked (env : Env) (w : World) (st : State) (r : Request)
    (ls : LicenseStatus) (n : Int)
    (hget : st.GetByLicenseId r.key = some ls)
    (hstatus : ls.Status = STATUS_READY ∨ ls.Status = STATUS_ACTIVE)
    (hid : 1 ≤ r.id.utf8ByteSize ∧ r.id.utf8ByteSize ≤ 255)
    (hname : 1 ≤ r.name.utf8ByteSize ∧ r.name.utf8ByteSize ≤ 255)
    (hdev : st.CheckDeviceStatus ls.Id r.id = "")
    (hcount : ls.DeviceCount = some n) :
    RegisterDevice env w st r =
      let stored : LicenseStatus :=
        { ls with Status := STATUS_ACTIVE, DeviceCount := some (n + 1),
                  Updated := { ls.Updated with Status := some (w.clock 0) } }
      let st2 := (st.AddEvent (makeEvent (w.clock 0) TYPE_REGISTER r.name r.id ls.Id)).Update
        stored
      ⟨st2, .document { fillLicenseStatus env st2 r stored with DeviceCount := none }, []⟩ := by
  have hlen : ¬ (r.id.utf8ByteSize = 0 ∨ r.id.utf8ByteSize > 255 ∨ r.name.utf8ByteSize = 0 ∨
      r.name.utf8ByteSize > 255) := by omega
  have hst : ¬ (ls.Status ≠ STATUS_ACTIVE ∧ ls.Status ≠ STATUS_READY) := by
    rcases hstatus with h | h <;> simp [h]
  simp only [RegisterDevice, hget]
  rw [if_neg hlen, if_neg hst, if_neg (not_not.2 hdev)]
  simp only [registerTransaction, makeEvent, hcount]
  rcases hstatus with h | h
  · simp [h]
  · have hne : STATUS_ACTIVE ≠ STATUS_READY := fun hx => status_constants_distinct.1 hx.symm
    simp [h, hne]

/-- C5: on a READY or ACTIVE document, for a device whose id and name have between 1 and 255
bytes and which has no earlier event for the document, `RegisterDevice` succeeds, appends exactly
one register event stamped now, and stores the status ACTIVE, the device count plus one and
`updated.status` = the timestamp of the event, leaving `license_ref`, `current_end_license`,
`potential_rights` and `updated.license` as they were. -/
theorem RegisterDevice_success (env : Env) (w : World) (st : State) (r : Request)
    (ls : LicenseStatus) (n : Int)
    (hget : st.GetByLicenseId r.key = some ls)
    (hstatus : ls.Status = STATUS_READY ∨ ls.Status = STATUS_ACTIVE)
    (hid : 1 ≤ r.id.utf8ByteSize ∧ r.id.utf8ByteSize ≤ 255)
    (hname : 1 ≤ r.name.utf8ByteSize ∧ r.name.utf8ByteSize ≤ 255)
    (hnew : ∀ e ∈ st.events, ¬ (e.LicenseStatusFk = ls.Id ∧ e.DeviceId = r.id))
    (hcount : ls.DeviceCount = some n) :
    (∃ doc, (RegisterDevice env w st r).response = .document doc ∧
      doc.Status = STATUS_ACTIVE) ∧
    (RegisterDevice env w st r).state.events = st.events ++
      [{ Id := st.events.length + 1, DeviceName := r.name, Timestamp := w.clock 0,
         Type_ := TYPE_REGISTER, DeviceId := r.id, LicenseStatusFk := ls.Id }] ∧
    ∃ stored, (RegisterDevice env w st r).state.GetByLicenseId r.key = some stored ∧
      stored.Status = STATUS_ACTIVE ∧
      stored.DeviceCount = some (n + 1) ∧
      stored.Updated.Status = some (w.clock 0) ∧
      stored.LicenseRef = ls.LicenseRef ∧
      stored.CurrentEndLicense = ls.CurrentEndLicense ∧
      stored.PotentialRights = ls.PotentialRights ∧
      stored.Updated.License = ls.Updated.License := by
  have href := getByLicenseId_ref hget
  rw [RegisterDevice_checked env w st r ls n hget hstatus hid hname
    (checkDeviceStatus_of_no_event st ls.Id r.id hnew) hcount]
  refine ⟨⟨_, rfl, ?_⟩, rfl, _, getByLicenseId_update _ _ ls _ ?_ rfl href, rfl, rfl, rfl, rfl,
    rfl, rfl, rfl⟩
  · simp [(fillLicenseStatus_fields _ _ _ _).1]
  · exact hget

/-- C5, at a READY loan on which the device `D1` named `Kindle` registers at time 50. -/
theorem RegisterDevice_success_witness :
    (RegisterDevice sampleEnv (sampleWorld 50 200) (sampleState STATUS_READY)
      (sampleRequest "D1" "Kindle" "")).state.events =
      [{ Id := 1, DeviceName := "Kindle", Timestamp := 50, Type_ := TYPE_REGISTER,
         DeviceId := "D1", LicenseStatusFk := 1 }] :=
  (RegisterDevice_success sampleEnv (sampleWorld 50 200) (sampleState STATUS_READY)
    (sampleRequest "D1" "Kindle" "") (sampleLoan STATUS_READY) 0 (by decide) (Or.inl rfl)
    (by decide) (by decide) (by decide) rfl).2.1


/-! ## Invariants of the store -/

theorem update_forall (P : LicenseStatus → Prop) (st : State) (new : LicenseStatus)
    (hall : ∀ x ∈ st.statuses, P x) (hnew : P new) : ∀ x ∈ (st.Update new).statuses, P x := by
  intro x hx
  simp only [State.Update, List.mem_map] at hx
  obtain ⟨y, hy, hxy⟩ := hx
  split_ifs at hxy
  · rw [← hxy]; exact hnew
  · rw [← hxy]; exact hall y hy

theorem addStatus_forall (P : LicenseStatus → Prop) (st : State) (new : LicenseStatus)
    (hall : ∀ x ∈ st.statuses, P x) (hnew : P { new with Id := st.statuses.length + 1 }) :
    ∀ x ∈ (st.AddStatus new).statuses, P x := by
  intro x hx
  simp only [State.AddStatus, List.mem_append, List.mem_singleton] at hx
  rcases hx with hx | hx
  · exact hall x hx
  · rw [hx]; exact hnew

theorem makeLicenseStatus_end_le (cfg : Config) (now : Time) (license : License)
    (ls : LicenseStatus) (ce pe : Time)
    (hce : (makeLicenseStatus cfg now license ls).CurrentEndLicense = some ce)
    (hpe : (makeLicenseStatus cfg now license ls).PotentialRights = some ⟨some pe⟩) :
    (ce : Int) ≤ pe := by
  cases hb : license.Rights.bind (fun rights => rights.End) with
  | none =>
    simp only [makeLicenseStatus, hb] at hce
    split_ifs at hce
  | some e =>
    simp only [makeLicenseStatus, hb, Time.Add, add_zero, Time.After] at hce hpe
    split_ifs at hce hpe with h1 h2 h3 <;>
      simp only [Option.some.injEq, PotentialRights.mk.injEq] at hce hpe <;>
      subst hce <;> subst hpe
    all_goals first
      | exact le_refl _
      | (simp only [decide_eq_true_eq, not_lt] at *; assumption)

/-- The end date of a stored document is not after its potential rights end. -/
theorem endWithin_step (env : Env) (st : State) (c : Call)
    (hinv : ∀ ls ∈ st.statuses, ∀ ce pe : Time, ls.CurrentEndLicense = some ce →
      ls.PotentialRights = some ⟨some pe⟩ → (ce : Int) ≤ pe)
    (htimely : c.timely st = true) :
    ∀ ls ∈ (handle env c.action c.world st c.request).state.statuses, ∀ ce pe : Time,
      ls.CurrentEndLicense = some ce → ls.PotentialRights = some ⟨some pe⟩ →
      (ce : Int) ≤ pe := by
  obtain ⟨action, w, r⟩ := c
  cases action with
  | create =>
    simp only [handle]
    rcases (CreateLicenseStatusDocument_cases env w st r).2 with h | ⟨lic, -, h⟩
    · rw [h]; exact hinv
    · rw [h]
      apply addStatus_forall _ st _ hinv
      intro ce pe hce hpe
      exact makeLicenseStatus_end_le env.Config (w.clock 0) lic LicenseStatus.zero ce pe hce hpe
  | get =>
    simp only [handle]
    rcases (GetLicenseStatusDocument_cases env w st r).2 with h | ⟨ls, hget, h⟩
    · rw [h]; exact hinv
    · rw [h]
      apply update_forall _ st _ hinv
      exact hinv ls (getByLicenseId_mem hget)
  | register =>
    simp only [handle]
    rcases RegisterDevice_cases env w st r with ⟨h, -, -⟩ | ⟨ls, hget, -, -, -, -, hrun⟩
    · rw [h]; exact hinv
    · rw [hrun]
      rcases registerTransaction_state env w st r ls with ⟨-, -, h⟩ | ⟨n, -, -, h⟩
      · rw [h]; exact hinv
      · rw [h]
        apply update_forall _ (st.AddEvent _) _ hinv
        exact hinv ls (getByLicenseId_mem hget)
  | lendingReturn =>
    simp only [handle]
    rcases LendingReturn_cases env w st r with
      ⟨h, -, -⟩ | ⟨ls, moved, hget, hsw, -, -, -, hrun⟩
    · rw [h]; exact hinv
    · rw [hrun]
      rcases returnTransaction_state env w st r moved with h | h
      · rw [h]; exact hinv
      · rw [h]
        apply update_forall _ (st.AddEvent _) _ hinv
        intro ce pe hce hpe
        simp only [Option.some.injEq] at hce
        rw [(returnSwitch_fields hsw).2.2.2.1] at hpe
        simp only [Call.timely, hget, hpe, decide_eq_true_eq] at htimely
        rw [← hce]
        exact htimely
  | renew =>
    simp only [handle]
    rcases LendingRenewal_cases env w st r with
      ⟨h, -, -⟩ | ⟨ls, pe0, sugg, hget, -, hpot, -, hle, -, hrun⟩
    · rw [h]; exact hinv
    · rw [hrun]
      rcases renewTransaction_state env w st r ls sugg with h | h
      · rw [h]; exact hinv
      · rw [h]
        apply update_forall _ (st.AddEvent _) _ hinv
        intro ce pe hce hpe
        simp only [Option.some.injEq] at hce
        simp only [hpot, Option.some.injEq, PotentialRights.mk.injEq] at hpe
        rw [← hce, ← hpe]
        exact hle
  | cancel =>
    simp only [handle]
    rcases CancelLicenseStatus_cases env w st r with
      ⟨h, -⟩ | ⟨ls, parsedLs, hget, -, -, hrun⟩
    · rw [h]; exact hinv
    · rw [hrun]
      rcases cancelTransaction_state env w st r ls parsedLs with h | h
      · rw [h]; exact hinv
      · rw [h]
        apply update_forall _ st _ hinv
        intro ce pe hce hpe
        simp only [Option.some.injEq] at hce
        simp only [Call.timely, hget] at htimely
        simp only at hpe
        simp only [hpe, decide_eq_true_eq] at htimely
        rw [← hce]
        exact htimely

theorem endWithin_run (env : Env) (calls : List Call) (st : State)
    (hinv : ∀ ls ∈ st.statuses, ∀ ce pe : Time, ls.CurrentEndLicense = some ce →
      ls.PotentialRights = some ⟨some pe⟩ → (ce : Int) ≤ pe)
    (htimely : timelyRun env st calls = true) :
    ∀ ls ∈ (run env st calls).statuses, ∀ ce pe : Time,
      ls.CurrentEndLicense = some ce → ls.PotentialRights = some ⟨some pe⟩ →
      (ce : Int) ≤ pe := by
  induction calls generalizing st with
  | nil => exact hinv
  | cons c cs ih =>
    simp only [timelyRun, Bool.and_eq_true] at htimely
    simp only [run, List.foldl_cons]
    exact ih _ (endWithin_step env st c hinv htimely.1) htimely.2

/-- C7, amended: in every state reached from the empty store by creations and any sequence of
Get, Register, Return, Renew and Cancel/Revoke requests in which no Return and no Cancel/Revoke
is made after the potential rights end of the document it addresses, every stored document
with a potential rights end has its current end not after it. -/
theorem current_end_within_potential_rights (env : Env) (calls : List Call)
    (htimely : timelyRun env State.empty calls = true) :
    ∀ ls ∈ (run env State.empty calls).statuses, ∀ ce pe : Time,
      ls.CurrentEndLicense = some ce → ls.PotentialRights = some ⟨some pe⟩ →
      (ce : Int) ≤ pe := by
  apply endWithin_run env calls State.empty _ htimely
  intro ls hls
  simp [State.empty] at hls

/-- C7, at the run that creates the loan `L1` at time 0 and returns it at time 50. -/
theorem current_end_within_potential_rights_witness :
    timelyRun sampleEnv State.empty
      [sampleCall .create 0 200 (sampleBody "L1"),
       sampleCall .lendingReturn 50 200 (sampleBody "")] = true ∧
    ∀ ls ∈ (run sampleEnv State.empty
      [sampleCall .create 0 200 (sampleBody "L1"),
       sampleCall .lendingReturn 50 200 (sampleBody "")]).statuses, ∀ ce pe : Time,
      ls.CurrentEndLicense = some ce → ls.PotentialRights = some ⟨some pe⟩ →
      (ce : Int) ≤ pe :=
  ⟨by decide, current_end_within_potential_rights sampleEnv _ (by decide)⟩

/-- C7 as stated fails: with `renting_days` 0, the loan created at time 0 with rights end 100
has potential rights end 100; returned at time 300, before any Get has marked it expired, it is
stored with current end 300, after its potential rights end. -/
theorem return_after_potential_end_breaks_bound :
    (run (sampleEnvWith (sampleConfigWith 0 7)) State.empty
      [sampleCall .create 0 200 (sampleBody "L1"),
       sampleCall .lendingReturn 300 200 (sampleBody "")]).statuses.map
        (fun ls => (ls.Status, ls.CurrentEndLicense, ls.PotentialRights)) =
      [(STATUS_CANCELLED, some 300, some ⟨some 100⟩)] ∧
    ¬ ((300 : Int) ≤ 100) := by
  constructor <;> decide


/-- C8 fails on the code: after the creation of the license `L1`, a Cancel/Revoke request whose
body carries the status `foo` is accepted (the LCP server answering 200) and the stored status
becomes `foo`, which is none of the six status values. -/
theorem cancel_stores_status_of_body :
    (run sampleEnv State.empty
      [sampleCall .create 0 200 (sampleBody "L1"),
       sampleCall .cancel 10 200 (sampleBody "foo")]).statuses.map (fun ls => ls.Status) =
      ["foo"] ∧
    ¬ IsStatus "foo" := by
  constructor <;> decide


/-! ## The device count -/

theorem registeredDevices_addEvent_other (st : State) (e : Event) (fk : Int)
    (h : e.Type_ ≠ TYPE_REGISTER ∨ e.LicenseStatusFk ≠ fk) :
    (st.AddEvent e).registeredDevices fk = st.registeredDevices fk := by
  have hf : ¬ (e.LicenseStatusFk = fk ∧ e.Type_ = TYPE_REGISTER) := by
    rcases h with h | h
    · exact fun hc => h hc.2
    · exact fun hc => h hc.1
  simp [State.registeredDevices, State.AddEvent, List.filter_append, List.filter_cons, hf]

theorem dedup_length_append_new (l : List String) (d : String) (h : d ∉ l) :
    (l ++ [d]).dedup.length = l.dedup.length + 1 := by
  rw [← List.card_toFinset, ← List.card_toFinset]
  have hset : (l ++ [d]).toFinset = insert d l.toFinset := by
    ext x
    simp [or_comm]
  rw [hset, Finset.card_insert_of_not_mem (by simpa using h)]

theorem registeredDevices_addEvent_new (st : State) (e : Event) (fk : Int)
    (htype : e.Type_ = TYPE_REGISTER) (hfk : e.LicenseStatusFk = fk)
    (hnew : ∀ x ∈ st.events, ¬ (x.LicenseStatusFk = fk ∧ x.DeviceId = e.DeviceId)) :
    ((st.AddEvent e).registeredDevices fk).length = (st.registeredDevices fk).length + 1 := by
  have ht : e.LicenseStatusFk = fk ∧ e.Type_ = TYPE_REGISTER := ⟨hfk, htype⟩
  have hnot : e.DeviceId ∉ (st.events.filter (fun x =>
      decide (x.LicenseStatusFk = fk ∧ x.Type_ = TYPE_REGISTER))).map (fun x => x.DeviceId) := by
    intro hmem
    obtain ⟨x, hx, hxd⟩ := List.mem_map.1 hmem
    have hx2 := List.mem_filter.1 hx
    have hx3 : x.LicenseStatusFk = fk ∧ x.Type_ = TYPE_REGISTER := by simpa using hx2.2
    exact hnew x hx2.1 ⟨hx3.1, hxd⟩
  have hlist : (st.AddEvent e).registeredDevices fk =
      ((st.events.filter (fun x =>
        decide (x.LicenseStatusFk = fk ∧ x.Type_ = TYPE_REGISTER))).map
          (fun x => x.DeviceId) ++ [e.DeviceId]).dedup := by
    simp [State.registeredDevices, State.AddEvent, List.filter_append, List.filter_cons, ht]
  rw [hlist, dedup_length_append_new _ _ hnot]
  rfl

theorem no_event_of_checkDeviceStatus (st : State) (fk : Int) (deviceId : String)
    (htypes : ∀ e ∈ st.events, e.Type_ ≠ "")
    (hcheck : st.CheckDeviceStatus fk deviceId = "") :
    ∀ e ∈ st.events, ¬ (e.LicenseStatusFk = fk ∧ e.DeviceId = deviceId) := by
  intro e he hmatch
  have hmem : e ∈ st.deviceEvents fk deviceId := by
    simp only [State.deviceEvents, List.mem_filter, decide_eq_true_eq]
    exact ⟨he, hmatch⟩
  unfold State.CheckDeviceStatus at hcheck
  cases hlast : (st.deviceEvents fk deviceId).getLast? with
  | none =>
    rw [List.getLast?_eq_none_iff] at hlast
    rw [hlast] at hmem
    simp at hmem
  | some x =>
    rw [hlast] at hcheck
    have hx : x ∈ st.deviceEvents fk deviceId := List.mem_of_getLast?_eq_some hlast
    have hx2 : x ∈ st.events := (List.mem_filter.1 hx).1
    exact htypes x hx2 hcheck


theorem consistent_update (st : State) (ls new : LicenseStatus) (hinv : st.Consistent)
    (hmem : ls ∈ st.statuses) (hid : new.Id = ls.Id)
    (hcount : new.DeviceCount = ls.DeviceCount) : (st.Update new).Consistent := by
  obtain ⟨ha, hb, hc, hd⟩ := hinv
  have hlen : (st.Update new).statuses.length = st.statuses.length := by
    simp [State.Update]
  refine ⟨?_, ?_, hc, ?_⟩
  · rw [hlen]
    apply update_forall (fun x => x.Id ≤ (st.statuses.length : Int)) st new ha
    show new.Id ≤ (st.statuses.length : Int)
    rw [hid]; exact ha ls hmem
  · rw [hlen]; exact hb
  · apply update_forall
      (fun x => x.DeviceCount = some ((st.registeredDevices x.Id).length : Int)) st new hd
    show new.DeviceCount = some ((st.registeredDevices new.Id).length : Int)
    rw [hcount, hid]; exact hd ls hmem

theorem consistent_addEvent_other (st : State) (ls : LicenseStatus) (e : Event)
    (hinv : st.Consistent) (hmem : ls ∈ st.statuses) (hfk : e.LicenseStatusFk = ls.Id)
    (hne : e.Type_ ≠ "") (hreg : e.Type_ ≠ TYPE_REGISTER) : (st.AddEvent e).Consistent := by
  obtain ⟨ha, hb, hc, hd⟩ := hinv
  refine ⟨ha, ?_, ?_, ?_⟩
  · intro x hx
    simp only [State.AddEvent, List.mem_append, List.mem_singleton] at hx
    rcases hx with hx | hx
    · exact hb x hx
    · rw [hx]; show e.LicenseStatusFk ≤ (st.statuses.length : Int)
      rw [hfk]; exact ha ls hmem
  · intro x hx
    simp only [State.AddEvent, List.mem_append, List.mem_singleton] at hx
    rcases hx with hx | hx
    · exact hc x hx
    · rw [hx]; exact hne
  · intro x hx
    rw [registeredDevices_addEvent_other st e x.Id (Or.inl hreg)]
    exact hd x hx

theorem consistent_register (st : State) (ls new : LicenseStatus) (e : Event) (n : Int)
    (hinv : st.Consistent) (hmem : ls ∈ st.statuses) (hfk : e.LicenseStatusFk = ls.Id)
    (htype : e.Type_ = TYPE_REGISTER)
    (hcheck : st.CheckDeviceStatus ls.Id e.DeviceId = "")
    (hn : ls.DeviceCount = some n) (hid : new.Id = ls.Id)
    (hcount : new.DeviceCount = some (n + 1)) :
    ((st.AddEvent e).Update new).Consistent := by
  obtain ⟨ha, hb, hc, hd⟩ := hinv
  have hnew := no_event_of_checkDeviceStatus st ls.Id e.DeviceId hc hcheck
  have hlen : ((st.AddEvent e).Update new).statuses.length = st.statuses.length := by
    simp [State.Update, State.AddEvent]
  have hn2 : n = ((st.registeredDevices ls.Id).length : Int) := by
    have := hd ls hmem
    rw [hn] at this
    exact Option.some.inj this
  refine ⟨?_, ?_, ?_, ?_⟩
  · rw [hlen]
    apply update_forall (fun x => x.Id ≤ (st.statuses.length : Int)) (st.AddEvent e) new ha
    show new.Id ≤ (st.statuses.length : Int)
    rw [hid]; exact ha ls hmem
  · rw [hlen]
    intro x hx
    simp only [State.Update, State.AddEvent, List.mem_append, List.mem_singleton] at hx
    rcases hx with hx | hx
    · exact hb x hx
    · rw [hx]; show e.LicenseStatusFk ≤ (st.statuses.length : Int)
      rw [hfk]; exact ha ls hmem
  · intro x hx
    simp only [State.Update, State.AddEvent, List.mem_append, List.mem_singleton] at hx
    rcases hx with hx | hx
    · exact hc x hx
    · rw [hx]; show e.Type_ ≠ ""
      rw [htype]; exact type_constants_distinct.2.2.2.1
  · intro x hx
    have hreg : ((st.AddEvent e).Update new).registeredDevices x.Id =
        (st.AddEvent e).registeredDevices x.Id := rfl
    rw [hreg]
    simp only [State.Update, List.mem_map] at hx
    obtain ⟨y, hy, hxy⟩ := hx
    split_ifs at hxy with hyid
    · rw [← hxy, hid, hcount, registeredDevices_addEvent_new st e ls.Id htype hfk hnew, hn2]
      simp
    · rw [← hxy]
      have hy2 : y ∈ st.statuses := hy
      rw [registeredDevices_addEvent_other st e y.Id (Or.inr ?_)]
      · exact hd y hy2
      · rw [hfk, ← hid]; exact fun h => hyid h.symm

theorem consistent_addStatus (st : State) (new : LicenseStatus) (hinv : st.Consistent)
    (hcount : new.DeviceCount = some 0) : (st.AddStatus new).Consistent := by
  obtain ⟨ha, hb, hc, hd⟩ := hinv
  have hlen : (st.AddStatus new).statuses.length = st.statuses.length + 1 := by
    simp [State.AddStatus]
  have hreg : ∀ fk, (st.AddStatus new).registeredDevices fk = st.registeredDevices fk :=
    fun _ => rfl
  refine ⟨?_, ?_, hc, ?_⟩
  · rw [hlen]
    apply addStatus_forall (fun x => x.Id ≤ ((st.statuses.length + 1 : Nat) : Int)) st new
    · intro x hx
      have := ha x hx
      push_cast
      omega
    · show ((st.statuses.length : Int) + 1) ≤ ((st.statuses.length + 1 : Nat) : Int)
      push_cast
      exact le_refl _
  · rw [hlen]
    intro x hx
    have := hb x hx
    push_cast
    omega
  · apply addStatus_forall
      (fun x => x.DeviceCount = some (((st.AddStatus new).registeredDevices x.Id).length : Int))
      st new
    · intro x hx
      show x.DeviceCount = _
      rw [hreg]; exact hd x hx
    · show new.DeviceCount = _
      rw [hreg, hcount]
      have hnil : st.registeredDevices ((st.statuses.length : Int) + 1) = [] := by
        unfold State.registeredDevices
        have hf : st.events.filter (fun e => decide (e.LicenseStatusFk =
            (st.statuses.length : Int) + 1 ∧ e.Type_ = TYPE_REGISTER)) = [] := by
          rw [List.filter_eq_nil_iff]
          intro e he
          have := hb e he
          simp only [decide_eq_true_eq, not_and]
          intro h
          omega
        rw [hf]
        rfl
      show some (0 : Int) = some ((st.registeredDevices ((st.statuses.length : Int) + 1)).length : Int)
      rw [hnil]
      rfl


theorem makeLicenseStatus_count (cfg : Config) (now : Time) (license : License)
    (ls : LicenseStatus) : (makeLicenseStatus cfg now license ls).DeviceCount = some 0 := by
  simp only [makeLicenseStatus]

theorem registeredDevices_update (st : State) (new : LicenseStatus) (fk : Int) :
    (st.Update new).registeredDevices fk = st.registeredDevices fk := rfl

/-- Every handler keeps the store consistent. -/
theorem consistent_step (env : Env) (st : State) (c : Call) (hinv : st.Consistent) :
    (handle env c.action c.world st c.request).state.Consistent := by
  obtain ⟨action, w, r⟩ := c
  cases action with
  | create =>
    simp only [handle]
    rcases (CreateLicenseStatusDocument_cases env w st r).2 with h | ⟨lic, -, h⟩
    · rw [h]; exact hinv
    · rw [h]
      exact consistent_addStatus st _ hinv (makeLicenseStatus_count _ _ _ _)
  | get =>
    simp only [handle]
    rcases (GetLicenseStatusDocument_cases env w st r).2 with h | ⟨ls, hget, h⟩
    · rw [h]; exact hinv
    · rw [h]
      exact consistent_update st ls _ hinv (getByLicenseId_mem hget) rfl rfl
  | register =>
    simp only [handle]
    rcases RegisterDevice_cases env w st r with ⟨h, -, -⟩ | ⟨ls, hget, -, -, -, hcheck, hrun⟩
    · rw [h]; exact hinv
    · rw [hrun]
      have hmem := getByLicenseId_mem hget
      rcases registerTransaction_state env w st r ls with ⟨hnone, -, -⟩ | ⟨n, hn, -, h⟩
      · have := hinv.2.2.2 ls hmem
        rw [hnone] at this
        cases this
      · rw [h]
        exact consistent_register st ls _ _ n hinv hmem rfl rfl hcheck hn rfl rfl
  | lendingReturn =>
    simp only [handle]
    rcases LendingReturn_cases env w st r with
      ⟨h, -, -⟩ | ⟨ls, moved, hget, hsw, -, -, -, hrun⟩
    · rw [h]; exact hinv
    · rw [hrun]
      have hmem := getByLicenseId_mem hget
      have hf := returnSwitch_fields hsw
      have hev : (st.AddEvent (makeEvent (w.clock 0) TYPE_RETURN r.name r.id
          moved.Id)).Consistent :=
        consistent_addEvent_other st ls _ hinv hmem hf.1 type_constants_distinct.2.2.2.2.1
          (fun h => type_constants_distinct.1 h.symm)
      rcases returnTransaction_state env w st r moved with h | h
      · rw [h]; exact hev
      · rw [h]
        exact consistent_update _ ls _ hev hmem hf.1 hf.2.2.1
  | renew =>
    simp only [handle]
    rcases LendingRenewal_cases env w st r with
      ⟨h, -, -⟩ | ⟨ls, pe0, sugg, hget, -, -, -, -, -, hrun⟩
    · rw [h]; exact hinv
    · rw [hrun]
      have hmem := getByLicenseId_mem hget
      have hev : (st.AddEvent (makeEvent (w.clock 1) TYPE_RENEW r.name r.id
          ls.Id)).Consistent :=
        consistent_addEvent_other st ls _ hinv hmem rfl type_constants_distinct.2.2.2.2.2
          (fun h => type_constants_distinct.2.1 h.symm)
      rcases renewTransaction_state env w st r ls sugg with h | h
      · rw [h]; exact hev
      · rw [h]
        exact consistent_update _ ls _ hev hmem rfl rfl
  | cancel =>
    simp only [handle]
    rcases CancelLicenseStatus_cases env w st r with
      ⟨h, -⟩ | ⟨ls, parsedLs, hget, -, -, hrun⟩
    · rw [h]; exact hinv
    · rw [hrun]
      rcases cancelTransaction_state env w st r ls parsedLs with h | h
      · rw [h]; exact hinv
      · rw [h]
        exact consistent_update st ls _ hinv (getByLicenseId_mem hget) rfl rfl

theorem consistent_empty : State.empty.Consistent := by
  refine ⟨?_, ?_, ?_, ?_⟩ <;> intro x hx <;> simp [State.empty] at hx

theorem consistent_run (env : Env) (calls : List Call) (st : State) (hinv : st.Consistent) :
    (run env st calls).Consistent := by
  induction calls generalizing st with
  | nil => exact hinv
  | cons c cs ih =>
    simp only [run, List.foldl_cons]
    exact ih _ (consistent_step env st c hinv)

theorem consistent_of_reachable (env : Env) (st : State) (h : Reachable env st) :
    st.Consistent := by
  obtain ⟨calls, hrun⟩ := h
  rw [← hrun]
  exact consistent_run env calls State.empty consistent_empty

/-- The registered devices of a document after one call: one more after a successful Register
on this document, the same after any other call. -/
theorem registeredDevices_step (env : Env) (st : State) (c : Call) (fk : Int)
    (hinv : st.Consistent) :
    ((c.action = .register ∧
        (∃ doc, (handle env c.action c.world st c.request).response = .document doc) ∧
        (∃ d, st.GetByLicenseId c.request.key = some d ∧ d.Id = fk)) →
      ((handle env c.action c.world st c.request).state.registeredDevices fk).length =
        (st.registeredDevices fk).length + 1) ∧
    (¬ (c.action = .register ∧
        (∃ doc, (handle env c.action c.world st c.request).response = .document doc) ∧
        (∃ d, st.GetByLicenseId c.request.key = some d ∧ d.Id = fk)) →
      (handle env c.action c.world st c.request).state.registeredDevices fk =
        st.registeredDevices fk) := by
  obtain ⟨action, w, r⟩ := c
  cases action with
  | create =>
    refine ⟨fun h => (by cases h.1), fun _ => ?_⟩
    simp only [handle]
    rcases (CreateLicenseStatusDocument_cases env w st r).2 with h | ⟨lic, -, h⟩
    · rw [h]
    · rw [h]; rfl
  | get =>
    refine ⟨fun h => (by cases h.1), fun _ => ?_⟩
    simp only [handle]
    rcases (GetLicenseStatusDocument_cases env w st r).2 with h | ⟨ls, -, h⟩
    · rw [h]
    · rw [h]; rfl
  | register =>
    simp only [handle]
    rcases RegisterDevice_cases env w st r with
      ⟨h, -, hnd⟩ | ⟨ls, hget, -, -, -, hcheck, hrun⟩
    · refine ⟨fun hs => ?_, fun _ => by rw [h]⟩
      obtain ⟨-, ⟨doc, hdoc⟩, -⟩ := hs
      exact absurd hdoc (hnd doc)
    · have hmem := getByLicenseId_mem hget
      rw [hrun]
      rcases registerTransaction_state env w st r ls with ⟨hnone, -, -⟩ | ⟨n, hn, -, h⟩
      · have := hinv.2.2.2 ls hmem
        rw [hnone] at this
        cases this
      · rw [h]
        have hsame := registeredDevices_update (st.AddEvent (makeEvent (w.clock 0)
          TYPE_REGISTER r.name r.id ls.Id)) { ls with
            Status := (if ls.Status = STATUS_READY then STATUS_ACTIVE else ls.Status)
            DeviceCount := some (n + 1)
            Updated := { ls.Updated with Status := some (w.clock 0) } } fk
        constructor
        · rintro ⟨-, -, d, hd, hdfk⟩
          have hdl : d = ls := by
            have hd2 : st.GetByLicenseId r.key = some d := hd
            rw [hget] at hd2
            exact (Option.some.inj hd2).symm
          subst hdl
          rw [hsame]
          exact registeredDevices_addEvent_new st _ fk rfl hdfk
            (hdfk ▸ no_event_of_checkDeviceStatus st d.Id r.id hinv.2.2.1 hcheck)
        · intro hns
          rw [hsame]
          apply registeredDevices_addEvent_other
          right
          intro hfk
          apply hns
          refine ⟨trivial, ?_, ls, hget, hfk⟩
          rcases registerTransaction_state env w st r ls with ⟨hnone, -, -⟩ | ⟨-, -, hdoc, -⟩
          · rw [hnone] at hn; cases hn
          · exact hdoc
  | lendingReturn =>
    refine ⟨fun h => (by cases h.1), fun _ => ?_⟩
    simp only [handle]
    rcases LendingReturn_cases env w st r with
      ⟨h, -, -⟩ | ⟨ls, moved, -, -, -, -, -, hrun⟩
    · rw [h]
    · rw [hrun]
      have hev := registeredDevices_addEvent_other st
        (makeEvent (w.clock 0) TYPE_RETURN r.name r.id moved.Id) fk
        (Or.inl (fun h => type_constants_distinct.1 h.symm))
      rcases returnTransaction_state env w st r moved with h | h <;> (rw [h]; exact hev)
  | renew =>
    refine ⟨fun h => (by cases h.1), fun _ => ?_⟩
    simp only [handle]
    rcases LendingRenewal_cases env w st r with
      ⟨h, -, -⟩ | ⟨ls, pe0, sugg, -, -, -, -, -, -, hrun⟩
    · rw [h]
    · rw [hrun]
      have hev := registeredDevices_addEvent_other st
        (makeEvent (w.clock 1) TYPE_RENEW r.name r.id ls.Id) fk
        (Or.inl (fun h => type_constants_distinct.2.1 h.symm))
      rcases renewTransaction_state env w st r ls sugg with h | h <;> (rw [h]; exact hev)
  | cancel =>
    refine ⟨fun h => (by cases h.1), fun _ => ?_⟩
    simp only [handle]
    rcases CancelLicenseStatus_cases env w st r with
      ⟨h, -⟩ | ⟨ls, parsedLs, -, -, -, hrun⟩
    · rw [h]
    · rw [hrun]
      rcases cancelTransaction_state env w st r ls parsedLs with h | h
      · rw [h]
      · rw [h]; rfl

/-- C9: in every state the server reaches from the empty store, the stored device count of a
document is the number of distinct device ids that have at least one register event for it; a
call that is a successful Register on the document raises its count by exactly one, and no other
call changes it. -/
theorem device_count_counts_registered_devices (env : Env) (st : State)
    (hreach : Reachable env st) :
    (∀ ls ∈ st.statuses,
      ls.DeviceCount = some ((st.registeredDevices ls.Id).length : Int)) ∧
    (∀ c : Call, ∀ ls ∈ st.statuses,
      ∀ after ∈ (handle env c.action c.world st c.request).state.statuses,
      after.Id = ls.Id → ∀ n : Int, ls.DeviceCount = some n →
      ((c.action = .register ∧
          (∃ doc, (handle env c.action c.world st c.request).response = .document doc) ∧
          (∃ d, st.GetByLicenseId c.request.key = some d ∧ d.Id = ls.Id)) →
        after.DeviceCount = some (n + 1)) ∧
      (¬ (c.action = .register ∧
          (∃ doc, (handle env c.action c.world st c.request).response = .document doc) ∧
          (∃ d, st.GetByLicenseId c.request.key = some d ∧ d.Id = ls.Id)) →
        after.DeviceCount = some n)) := by
  have hinv := consistent_of_reachable env st hreach
  refine ⟨hinv.2.2.2, ?_⟩
  intro c ls hls after hafter hid n hn
  have hinv2 := consistent_step env st c hinv
  have hcount := hinv2.2.2.2 after hafter
  have hn2 : n = ((st.registeredDevices ls.Id).length : Int) := by
    have := hinv.2.2.2 ls hls
    rw [hn] at this
    exact Option.some.inj this
  have hstep := registeredDevices_step env st c ls.Id hinv
  rw [hid] at hcount
  constructor
  · intro hs
    rw [hcount, hstep.1 hs, hn2]
    simp
  · intro hs
    rw [hcount, hstep.2 hs, hn2]

/-- C9, at the state reached by creating the license `L1` and registering the device `D1`,
where the stored count is 1. -/
theorem device_count_counts_registered_devices_witness :
    (∀ ls ∈ (run sampleEnv State.empty
        [sampleCall .create 0 200 (sampleBody "L1"),
         sampleCall .register 10 200 (sampleRequest "D1" "Kindle" "")]).statuses,
      ls.DeviceCount = some (((run sampleEnv State.empty
        [sampleCall .create 0 200 (sampleBody "L1"),
         sampleCall .register 10 200 (sampleRequest "D1" "Kindle" "")]).registeredDevices
          ls.Id).length : Int)) ∧
    (run sampleEnv State.empty
      [sampleCall .create 0 200 (sampleBody "L1"),
       sampleCall .register 10 200 (sampleRequest "D1" "Kindle" "")]).statuses.map
        (fun ls => ls.DeviceCount) = [some 1] :=
  ⟨(device_count_counts_registered_devices sampleEnv _ ⟨_, rfl⟩).1, by decide⟩


theorem checkDeviceStatus_after_event (st : State) (e : Event) (new : LicenseStatus) :
    ((st.AddEvent e).Update new).CheckDeviceStatus e.LicenseStatusFk e.DeviceId = e.Type_ := by
  have hd : ((st.AddEvent e).Update new).deviceEvents e.LicenseStatusFk e.DeviceId =
      st.deviceEvents e.LicenseStatusFk e.DeviceId ++ [{ e with Id := st.events.length + 1 }] := by
    simp [State.deviceEvents, State.AddEvent, State.Update, List.filter_append,
      List.filter_cons]
  simp only [State.CheckDeviceStatus, hd, List.getLast?_concat]

/-- C10: after a successful `RegisterDevice` call for a device, an immediately following call
with the same device id (and any device name of 1 to 255 bytes, in particular the same name) is
answered 400 with the detail `Device has been already registered`, and leaves the whole state,
so the event log, the stored status and the device count, as it was. -/
theorem RegisterDevice_twice (env : Env) (w w2 : World) (st : State) (r r2 : Request)
    (doc : LicenseStatus)
    (hfirst : (RegisterDevice env w st r).response = .document doc)
    (hkey : r2.key = r.key) (hid : r2.id = r.id)
    (hname : 1 ≤ r2.name.utf8ByteSize ∧ r2.name.utf8ByteSize ≤ 255) :
    (RegisterDevice env w2 (RegisterDevice env w st r).state r2).response =
      .problem "Device has been already registered" 400 ∧
    (RegisterDevice env w2 (RegisterDevice env w st r).state r2).state =
      (RegisterDevice env w st r).state := by
  rcases RegisterDevice_cases env w st r with
    ⟨-, -, hnd⟩ | ⟨ls, hget, hstatus, hidlen, -, -, hrun⟩
  · exact absurd hfirst (hnd doc)
  · rw [hrun] at hfirst ⊢
    rcases registerTransaction_state env w st r ls with ⟨-, hcrash, -⟩ | ⟨n, -, -, hstate⟩
    · rw [hcrash] at hfirst; cases hfirst
    · rw [hstate]
      have href := getByLicenseId_ref hget
      have hactive : (if ls.Status = STATUS_READY then STATUS_ACTIVE else ls.Status) =
          STATUS_ACTIVE := by
        rcases hstatus with h | h
        · rw [h]; split_ifs <;> rfl
        · rw [h]; simp
      have hget2 := getByLicenseId_update
        (st.AddEvent (makeEvent (w.clock 0) TYPE_REGISTER r.name r.id ls.Id)) r.key ls
        { ls with Status := (if ls.Status = STATUS_READY then STATUS_ACTIVE else ls.Status)
                  DeviceCount := some (n + 1)
                  Updated := { ls.Updated with Status := some (w.clock 0) } } hget rfl href
      have hcheck := checkDeviceStatus_after_event st
        (makeEvent (w.clock 0) TYPE_REGISTER r.name r.id ls.Id)
        { ls with Status := (if ls.Status = STATUS_READY then STATUS_ACTIVE else ls.Status)
                  DeviceCount := some (n + 1)
                  Updated := { ls.Updated with Status := some (w.clock 0) } }
      simp only [makeEvent] at hget2 hcheck
      have hlen : ¬ (r.id.utf8ByteSize = 0 ∨ r.id.utf8ByteSize > 255 ∨
          r2.name.utf8ByteSize = 0 ∨ r2.name.utf8ByteSize > 255) := by omega
      have hst : ¬ ((if ls.Status = STATUS_READY then STATUS_ACTIVE else ls.Status) ≠
          STATUS_ACTIVE ∧ (if ls.Status = STATUS_READY then STATUS_ACTIVE else ls.Status) ≠
          STATUS_READY) := by
        rw [hactive]; simp
      have hdev : TYPE_REGISTER ≠ "" := type_constants_distinct.2.2.2.1
      simp only [RegisterDevice, makeEvent, hkey, hid, hget2, hcheck]
      rw [if_neg hlen, if_neg hst, if_pos hdev]
      exact ⟨rfl, rfl⟩

/-- C10, at a READY loan on which the device `D1` registers at time 50 and again at time 60. -/
theorem RegisterDevice_twice_witness :
    (RegisterDevice sampleEnv (sampleWorld 60 200)
      (RegisterDevice sampleEnv (sampleWorld 50 200) (sampleState STATUS_READY)
        (sampleRequest "D1" "Kindle" "")).state (sampleRequest "D1" "Kindle" "")).response =
      .problem "Device has been already registered" 400 ∧
    (RegisterDevice sampleEnv (sampleWorld 60 200)
      (RegisterDevice sampleEnv (sampleWorld 50 200) (sampleState STATUS_READY)
        (sampleRequest "D1" "Kindle" "")).state (sampleRequest "D1" "Kindle" "")).state =
      (RegisterDevice sampleEnv (sampleWorld 50 200) (sampleState STATUS_READY)
        (sampleRequest "D1" "Kindle" "")).state :=
  RegisterDevice_twice sampleEnv (sampleWorld 50 200) (sampleWorld 60 200)
    (sampleState STATUS_READY) (sampleRequest "D1" "Kindle" "") (sampleRequest "D1" "Kindle" "")
    _ rfl rfl rfl (by decide)

/-! ## Successful transactions -/

theorem returnSwitch_returned {ls : LicenseStatus} (h : ls.Status = STATUS_RETURNED) :
    returnSwitch ls = .error (.problem "License has been already returned" StatusForbidden) := by
  simp [returnSwitch, h]

theorem returnSwitch_cancelled {ls : LicenseStatus} (h : ls.Status = STATUS_CANCELLED) :
    returnSwitch ls = .error (.problem "License is cancelled" StatusForbidden) := by
  obtain ⟨-, -, -, h4, -, -, -, h8, -, -, -, -, h13, -, h15⟩ := status_constants_distinct
  simp [returnSwitch, h, h13.symm, h15, h8.symm, h4.symm]

/-- A return transaction answered with a document stored it with its new end date. -/
theorem returnTransaction_document (env : Env) (w : World) (st : State) (r : Request)
    (ls doc : LicenseStatus)
    (h : (returnTransaction env w st r ls).response = .document doc) :
    returnTransaction env w st r ls =
      ⟨(st.AddEvent (makeEvent (w.clock 0) TYPE_RETURN r.name r.id ls.Id)).Update
          { ls with CurrentEndLicense := some (w.clock 0)
                    Updated := ⟨some (w.clock 0), some (w.clock 0)⟩ },
        .document { fillLicenseStatus env
          ((st.AddEvent (makeEvent (w.clock 0) TYPE_RETURN r.name r.id ls.Id)).Update
            { ls with CurrentEndLicense := some (w.clock 0)
                      Updated := ⟨some (w.clock 0), some (w.clock 0)⟩ }) r
          { ls with CurrentEndLicense := some (w.clock 0)
                    Updated := ⟨some (w.clock 0), some (w.clock 0)⟩ } with DeviceCount := none },
        [⟨w.clock 0, r.key⟩]⟩ := by
  unfold returnTransaction at h ⊢
  simp only [makeEvent] at h ⊢
  cases hu : updateLicense env.Config w (w.clock 0) r.key with
  | error e => rw [hu] at h; cases h
  | ok c =>
    rw [hu] at h
    simp only at h ⊢
    by_cases hc : c ≠ StatusOK ∧ c ≠ StatusPartialContent
    · rw [if_pos hc] at h; cases h
    · rw [if_neg hc]

/-- A renew transaction answered with a document stored it with its new end date. -/
theorem renewTransaction_document (env : Env) (w : World) (st : State) (r : Request)
    (ls doc : LicenseStatus) (sugg : Time)
    (h : (renewTransaction env w st r ls sugg).response = .document doc) :
    renewTransaction env w st r ls sugg =
      ⟨(st.AddEvent (makeEvent (w.clock 1) TYPE_RENEW r.name r.id ls.Id)).Update
          { ls with CurrentEndLicense := some sugg
                    Updated := ⟨some (w.clock 1), some (w.clock 1)⟩
                    Status := STATUS_ACTIVE },
        .document { fillLicenseStatus env
          ((st.AddEvent (makeEvent (w.clock 1) TYPE_RENEW r.name r.id ls.Id)).Update
            { ls with CurrentEndLicense := some sugg
                      Updated := ⟨some (w.clock 1), some (w.clock 1)⟩
                      Status := STATUS_ACTIVE }) r
          { ls with CurrentEndLicense := some sugg
                    Updated := ⟨some (w.clock 1), some (w.clock 1)⟩
                    Status := STATUS_ACTIVE } with DeviceCount := none },
        [⟨sugg, r.key⟩]⟩ := by
  unfold renewTransaction at h ⊢
  simp only [makeEvent] at h ⊢
  cases hu : updateLicense env.Config w sugg r.key with
  | error e => rw [hu] at h; cases h
  | ok c =>
    rw [hu] at h
    simp only at h ⊢
    by_cases hc : c ≠ StatusOK ∧ c ≠ StatusPartialContent
    · rw [if_pos hc] at h; cases h
    · rw [if_neg hc]

/-- A run of `LendingReturn` that stops before its transaction is the same at any clock and
with any LCP server. -/
theorem LendingReturn_refused (env : Env) (w : World) (st : State) (r : Request)
    (ls : LicenseStatus) (resp : Response)
    (hget : st.GetByLicenseId r.key = some ls)
    (hid : r.id.utf8ByteSize ≤ 255) (hname : r.name.utf8ByteSize ≤ 255)
    (hsw : returnSwitch ls = .error resp) :
    LendingReturn env w st r = ⟨st, resp, []⟩ := by
  have hlen : ¬ (r.name.utf8ByteSize > 255 ∨ r.id.utf8ByteSize > 255) := by omega
  simp only [LendingReturn, hget, hsw]
  rw [if_neg hlen]


/-- C11, amended: for a stored document whose status is ACTIVE or READY and on which a Return
succeeds, a second Return on the same license whose id and name are at most 255 bytes is answered
403, calls nobody and changes nothing; its detail is `License has been already returned` when
the first Return found the document ACTIVE, and `License is cancelled` when it found it READY. -/
theorem LendingReturn_twice (env : Env) (w w2 : World) (st : State) (r r2 : Request)
    (ls doc : LicenseStatus)
    (hget : st.GetByLicenseId r.key = some ls)
    (hstatus : ls.Status = STATUS_ACTIVE ∨ ls.Status = STATUS_READY)
    (hfirst : (LendingReturn env w st r).response = .document doc)
    (hkey : r2.key = r.key)
    (hid : r2.id.utf8ByteSize ≤ 255) (hname : r2.name.utf8ByteSize ≤ 255) :
    LendingReturn env w2 (LendingReturn env w st r).state r2 =
      ⟨(LendingReturn env w st r).state,
        .problem (if ls.Status = STATUS_ACTIVE then "License has been already returned"
          else "License is cancelled") 403, []⟩ ∧
    (ls.Status = STATUS_ACTIVE →
      LendingReturn env w2 (LendingReturn env w st r).state r2 =
        ⟨(LendingReturn env w st r).state,
          .problem "License has been already returned" 403, []⟩) ∧
    (ls.Status = STATUS_READY →
      LendingReturn env w2 (LendingReturn env w st r).state r2 =
        ⟨(LendingReturn env w st r).state, .problem "License is cancelled" 403, []⟩) := by
  have href := getByLicenseId_ref hget
  have hne : STATUS_READY ≠ STATUS_ACTIVE := by decide
  rcases LendingReturn_cases env w st r with
    ⟨-, -, hnd⟩ | ⟨ls0, moved, hget0, hsw, -, -, -, hrun⟩
  · exact absurd hfirst (hnd doc)
  · have hls : ls0 = ls := by
      rw [hget] at hget0
      exact (Option.some.inj hget0).symm
    subst hls
    rw [hrun] at hfirst ⊢
    rw [returnTransaction_document env w st r moved doc hfirst]
    have hf := returnSwitch_fields hsw
    have hget2 := getByLicenseId_update
      (st.AddEvent (makeEvent (w.clock 0) TYPE_RETURN r.name r.id moved.Id)) r.key ls0
      { moved with CurrentEndLicense := some (w.clock 0)
                   Updated := ⟨some (w.clock 0), some (w.clock 0)⟩ } hget hf.1
      (hf.2.1.trans href)
    rw [← hkey] at hget2
    have hactive : ls0.Status = STATUS_ACTIVE →
        LendingReturn env w2 ((st.AddEvent (makeEvent (w.clock 0) TYPE_RETURN r.name r.id
          moved.Id)).Update { moved with CurrentEndLicense := some (w.clock 0)
                                         Updated := ⟨some (w.clock 0), some (w.clock 0)⟩ }) r2 =
        ⟨(st.AddEvent (makeEvent (w.clock 0) TYPE_RETURN r.name r.id
          moved.Id)).Update { moved with CurrentEndLicense := some (w.clock 0)
                                         Updated := ⟨some (w.clock 0), some (w.clock 0)⟩ },
          .problem "License has been already returned" 403, []⟩ := by
      intro hs
      rw [returnSwitch_active hs] at hsw
      cases hsw
      exact LendingReturn_refused env w2 _ r2 _ _ hget2 hid hname (returnSwitch_returned rfl)
    have hready : ls0.Status = STATUS_READY →
        LendingReturn env w2 ((st.AddEvent (makeEvent (w.clock 0) TYPE_RETURN r.name r.id
          moved.Id)).Update { moved with CurrentEndLicense := some (w.clock 0)
                                         Updated := ⟨some (w.clock 0), some (w.clock 0)⟩ }) r2 =
        ⟨(st.AddEvent (makeEvent (w.clock 0) TYPE_RETURN r.name r.id
          moved.Id)).Update { moved with CurrentEndLicense := some (w.clock 0)
                                         Updated := ⟨some (w.clock 0), some (w.clock 0)⟩ },
          .problem "License is cancelled" 403, []⟩ := by
      intro hs
      rw [returnSwitch_ready hs] at hsw
      cases hsw
      exact LendingReturn_refused env w2 _ r2 _ _ hget2 hid hname (returnSwitch_cancelled rfl)
    refine ⟨?_, hactive, hready⟩
    rcases hstatus with hs | hs
    · rw [if_pos hs]
      exact hactive hs
    · rw [if_neg (by rw [hs]; exact hne)]
      exact hready hs

/-- C11, at an ACTIVE loan returned at time 50 and again at time 60. -/
theorem LendingReturn_twice_witness :
    LendingReturn sampleEnv (sampleWorld 60 200)
      (LendingReturn sampleEnv (sampleWorld 50 200) (sampleState STATUS_ACTIVE)
        (sampleRequest "" "" "")).state (sampleRequest "" "" "") =
      ⟨(LendingReturn sampleEnv (sampleWorld 50 200) (sampleState STATUS_ACTIVE)
        (sampleRequest "" "" "")).state,
        .problem "License has been already returned" 403, []⟩ :=
  (LendingReturn_twice sampleEnv (sampleWorld 50 200) (sampleWorld 60 200)
    (sampleState STATUS_ACTIVE) (sampleRequest "" "" "") (sampleRequest "" "" "")
    (sampleLoan STATUS_ACTIVE) _ (by decide) (Or.inl rfl) rfl rfl (by decide)
    (by decide)).2.1 rfl

/-- C11 as stated fails: a READY loan is returned with success, which cancels it, and the second
Return is answered 403 with the detail `License is cancelled`, not a detail saying that the
license has already been returned. -/
theorem LendingReturn_twice_from_ready :
    (LendingReturn sampleEnv (sampleWorld 50 200) (sampleState STATUS_READY)
      (sampleRequest "" "" "")).response.code = some 200 ∧
    (LendingReturn sampleEnv (sampleWorld 60 200)
      (LendingReturn sampleEnv (sampleWorld 50 200) (sampleState STATUS_READY)
        (sampleRequest "" "" "")).state (sampleRequest "" "" "")).response =
      .problem "License is cancelled" 403 ∧
    "License is cancelled" ≠ "License has been already returned" := by
  refine ⟨by decide, by decide, by decide⟩


/-- A document whose stored status is none of the six values of the transition table is not
covered by the amended statement: after the creation of the license `L1` and a Cancel/Revoke
whose body carries the status `foo`, a Return succeeds, and a second Return succeeds again, with
a second return event and a second call of `updateLicense`. -/
theorem LendingReturn_repeats_on_unknown_status :
    (handle sampleEnv .lendingReturn (sampleWorld 20 200)
      (run sampleEnv State.empty
        [sampleCall .create 0 200 (sampleBody "L1"),
         sampleCall .cancel 10 200 (sampleBody "foo")])
      (sampleBody "")).response.code = some 200 ∧
    (handle sampleEnv .lendingReturn (sampleWorld 30 200)
      (run sampleEnv State.empty
        [sampleCall .create 0 200 (sampleBody "L1"),
         sampleCall .cancel 10 200 (sampleBody "foo"),
         sampleCall .lendingReturn 20 200 (sampleBody "")])
      (sampleBody "")).response.code = some 200 ∧
    (handle sampleEnv .lendingReturn (sampleWorld 30 200)
      (run sampleEnv State.empty
        [sampleCall .create 0 200 (sampleBody "L1"),
         sampleCall .cancel 10 200 (sampleBody "foo"),
         sampleCall .lendingReturn 20 200 (sampleBody "")])
      (sampleBody "")).lcpCalls = [⟨30, "L1"⟩] ∧
    (handle sampleEnv .lendingReturn (sampleWorld 30 200)
      (run sampleEnv State.empty
        [sampleCall .create 0 200 (sampleBody "L1"),
         sampleCall .cancel 10 200 (sampleBody "foo"),
         sampleCall .lendingReturn 20 200 (sampleBody "")])
      (sampleBody "")).state.events.map (fun e => (e.Type_, e.Timestamp)) =
        [(TYPE_RETURN, 20), (TYPE_RETURN, 30)] := by
  refine ⟨by decide, by decide, by decide, by decide⟩


/-- C12: on an existing document `RegisterDevice` answers with the 400 of its length check,
appending no event and changing nothing, exactly when the byte length of the id or of the name
is 0 or greater than 255.  On a READY document, with a name of valid length and a device without
earlier event, an id of length 0 or 256 is rejected in this way and an id of length 1 or 255 is
accepted: the register event is appended and, the document carrying a device count, the answer
is the status document. -/
theorem RegisterDevice_length_check (env : Env) (w : World) (st : State) (r : Request)
    (ls : LicenseStatus) (hget : st.GetByLicenseId r.key = some ls) :
    ((r.id.utf8ByteSize = 0 ∨ r.id.utf8ByteSize > 255 ∨ r.name.utf8ByteSize = 0 ∨
        r.name.utf8ByteSize > 255) →
      RegisterDevice env w st r =
        ⟨st, .problem
          "device id and device name are mandatory and maximum length is 255 symbols " 400,
          []⟩) ∧
    ((RegisterDevice env w st r).response =
        .problem "device id and device name are mandatory and maximum length is 255 symbols "
          400 ↔
      (r.id.utf8ByteSize = 0 ∨ r.id.utf8ByteSize > 255 ∨ r.name.utf8ByteSize = 0 ∨
        r.name.utf8ByteSize > 255)) ∧
    (ls.Status = STATUS_READY →
      (1 ≤ r.name.utf8ByteSize ∧ r.name.utf8ByteSize ≤ 255) →
      (∀ e ∈ st.events, ¬ (e.LicenseStatusFk = ls.Id ∧ e.DeviceId = r.id)) →
      ((r.id.utf8ByteSize = 0 ∨ r.id.utf8ByteSize = 256) →
        (RegisterDevice env w st r).response.code = some 400 ∧
        (RegisterDevice env w st r).state = st) ∧
      ((r.id.utf8ByteSize = 1 ∨ r.id.utf8ByteSize = 255) →
        (RegisterDevice env w st r).response.code ≠ some 400 ∧
        (RegisterDevice env w st r).state.events = st.events ++
          [{ Id := st.events.length + 1, DeviceName := r.name, Timestamp := w.clock 0,
             Type_ := TYPE_REGISTER, DeviceId := r.id, LicenseStatusFk := ls.Id }] ∧
        (∀ n, ls.DeviceCount = some n →
          ∃ doc, (RegisterDevice env w st r).response = .document doc))) := by
  have hbad : (r.id.utf8ByteSize = 0 ∨ r.id.utf8ByteSize > 255 ∨ r.name.utf8ByteSize = 0 ∨
        r.name.utf8ByteSize > 255) →
      RegisterDevice env w st r =
        ⟨st, .problem
          "device id and device name are mandatory and maximum length is 255 symbols " 400,
          []⟩ := by
    intro h
    simp only [RegisterDevice, hget]
    rw [if_pos h]
    rfl
  have hgood : ¬ (r.id.utf8ByteSize = 0 ∨ r.id.utf8ByteSize > 255 ∨ r.name.utf8ByteSize = 0 ∨
        r.name.utf8ByteSize > 255) →
      (RegisterDevice env w st r).response ≠
        .problem "device id and device name are mandatory and maximum length is 255 symbols "
          400 := by
    intro h
    simp only [RegisterDevice, hget]
    rw [if_neg h]
    split_ifs with h1 h2
    · simp
    · simp
    · rcases registerTransaction_state env w st r ls with ⟨-, hc, -⟩ | ⟨n, -, ⟨doc, hd⟩, -⟩
      · rw [hc]; simp
      · rw [hd]; simp
  refine ⟨hbad, ⟨fun h => ?_, fun h => by rw [hbad h]⟩, ?_⟩
  · by_contra hn
    exact hgood hn h
  · intro hready hname hnew
    constructor
    · intro hlen
      rw [hbad (by omega)]
      exact ⟨rfl, rfl⟩
    · intro hlen
      have hcheck := checkDeviceStatus_of_no_event st ls.Id r.id hnew
      have hl : ¬ (r.id.utf8ByteSize = 0 ∨ r.id.utf8ByteSize > 255 ∨
          r.name.utf8ByteSize = 0 ∨ r.name.utf8ByteSize > 255) := by omega
      have hst : ¬ (ls.Status ≠ STATUS_ACTIVE ∧ ls.Status ≠ STATUS_READY) := by
        simp [hready]
      have hrun : RegisterDevice env w st r = registerTransaction env w st r ls := by
        simp only [RegisterDevice, hget]
        rw [if_neg hl, if_neg hst, if_neg (not_not.2 hcheck)]
      rw [hrun]
      rcases registerTransaction_state env w st r ls with ⟨hnone, hc, hs⟩ | ⟨n, hn, ⟨doc, hd⟩, hs⟩
      · refine ⟨by rw [hc]; simp [Response.code], by rw [hs]; rfl, ?_⟩
        intro n hn
        rw [hnone] at hn
        cases hn
      · refine ⟨by rw [hd]; simp [Response.code], by rw [hs]; rfl, fun _ _ => ⟨doc, hd⟩⟩

/-- C12, at a READY loan: the ids of 0 and 256 bytes are rejected, the ids of 1 and 255 bytes
are accepted. -/
theorem RegisterDevice_length_check_witness :
    ((RegisterDevice sampleEnv (sampleWorld 50 200) (sampleState STATUS_READY)
        (sampleRequest "" "Kindle" "")).response.code = some 400 ∧
      (RegisterDevice sampleEnv (sampleWorld 50 200) (sampleState STATUS_READY)
        (sampleRequest "" "Kindle" "")).state = sampleState STATUS_READY) ∧
    (∃ doc, (RegisterDevice sampleEnv (sampleWorld 50 200) (sampleState STATUS_READY)
        (sampleRequest "D" "Kindle" "")).response = .document doc) ∧
    (∃ doc, (RegisterDevice sampleEnv (sampleWorld 50 200) (sampleState STATUS_READY)
        (sampleRequest text255 "Kindle" "")).response = .document doc) ∧
    ((RegisterDevice sampleEnv (sampleWorld 50 200) (sampleState STATUS_READY)
        (sampleRequest text256 "Kindle" "")).response.code = some 400 ∧
      (RegisterDevice sampleEnv (sampleWorld 50 200) (sampleState STATUS_READY)
        (sampleRequest text256 "Kindle" "")).state = sampleState STATUS_READY) :=
  ⟨((RegisterDevice_length_check sampleEnv (sampleWorld 50 200) (sampleState STATUS_READY)
      (sampleRequest "" "Kindle" "") (sampleLoan STATUS_READY) (by decide)).2.2 rfl
      (by decide) (by decide)).1 (Or.inl (by decide)),
    (((RegisterDevice_length_check sampleEnv (sampleWorld 50 200) (sampleState STATUS_READY)
      (sampleRequest "D" "Kindle" "") (sampleLoan STATUS_READY) (by decide)).2.2 rfl
      (by decide) (by decide)).2 (Or.inl (by decide))).2.2 0 rfl,
    (((RegisterDevice_length_check sampleEnv (sampleWorld 50 200) (sampleState STATUS_READY)
      (sampleRequest text255 "Kindle" "") (sampleLoan STATUS_READY) (by decide)).2.2 rfl
      (by decide) (by decide)).2 (Or.inr (by decide))).2.2 0 rfl,
    ((RegisterDevice_length_check sampleEnv (sampleWorld 50 200) (sampleState STATUS_READY)
      (sampleRequest text256 "Kindle" "") (sampleLoan STATUS_READY) (by decide)).2.2 rfl
      (by decide) (by decide)).1 (Or.inr (by decide))⟩


/-- C13 fails on the code: on an existing ACTIVE loan, a Return and a Renew request whose id has
256 bytes are not answered 400; the length check builds its Problem from `err.Error()` while
`err` is nil, so the handler panics before any response is written.  The state is unchanged
and `updateLicense` is not called. -/
theorem long_id_panics :
    text256.utf8ByteSize = 256 ∧
    LendingReturn sampleEnv (sampleWorld 50 200) (sampleState STATUS_ACTIVE)
      (sampleRequest text256 "Kindle" "") = ⟨sampleState STATUS_ACTIVE, .crash, []⟩ ∧
    LendingRenewal sampleEnv (sampleWorld 50 200) (sampleState STATUS_ACTIVE)
      (sampleRequest text256 "Kindle" "") = ⟨sampleState STATUS_ACTIVE, .crash, []⟩ ∧
    Response.crash.code ≠ some 400 := by
  refine ⟨by decide, by decide, by decide, by decide⟩


theorem checkDeviceStatus_of_last (st : State) (fk : Int) (deviceId : String) (e : Event)
    (h : (st.deviceEvents fk deviceId).getLast? = some e) :
    st.CheckDeviceStatus fk deviceId = e.Type_ := by
  simp [State.CheckDeviceStatus, h]

theorem checkDeviceStatus_of_none (st : State) (fk : Int) (deviceId : String)
    (h : (st.deviceEvents fk deviceId).getLast? = none) :
    st.CheckDeviceStatus fk deviceId = "" := by
  simp [State.CheckDeviceStatus, h]

/-- With an event log whose types are `register`, `return` and `renew`, the status of a device
is `register` or `renew` exactly when it is neither `return` nor absent. -/
theorem checkDeviceStatus_active_iff (st : State) (fk : Int) (deviceId : String)
    (htypes : ∀ e ∈ st.events,
      e.Type_ = TYPE_REGISTER ∨ e.Type_ = TYPE_RETURN ∨ e.Type_ = TYPE_RENEW) :
    (st.CheckDeviceStatus fk deviceId = TYPE_REGISTER ∨
        st.CheckDeviceStatus fk deviceId = TYPE_RENEW) ↔
      ¬ (st.CheckDeviceStatus fk deviceId = TYPE_RETURN ∨
        st.CheckDeviceStatus fk deviceId = "") := by
  obtain ⟨h1, h2, h3, h4, h5, h6⟩ := type_constants_distinct
  cases hlast : (st.deviceEvents fk deviceId).getLast? with
  | none =>
    rw [checkDeviceStatus_of_none st fk deviceId hlast]
    constructor
    · rintro (h | h)
      · exact absurd h.symm h4
      · exact absurd h.symm h6
    · intro h
      exact absurd (Or.inr rfl) h
  | some e =>
    rw [checkDeviceStatus_of_last st fk deviceId e hlast]
    have hmem : e ∈ st.events :=
      (List.mem_filter.1 (List.mem_of_getLast?_eq_some hlast)).1
    rcases htypes e hmem with h | h | h
    · rw [h]
      constructor
      · intro _
        rintro (hc | hc)
        · exact h1 hc
        · exact h4 hc
      · intro _; exact Or.inl rfl
    · rw [h]
      constructor
      · rintro (hc | hc)
        · exact absurd hc.symm h1
        · exact absurd hc h3
      · intro hc; exact absurd (Or.inl rfl) hc
    · rw [h]
      constructor
      · intro _
        rintro (hc | hc)
        · exact h3 hc.symm
        · exact h6 hc
      · intro _; exact Or.inr rfl

theorem specDeviceActive_iff (st : State) (fk : Int) (deviceId : String) :
    st.specDeviceActive fk deviceId = true ↔
      (st.CheckDeviceStatus fk deviceId = TYPE_REGISTER ∨
        st.CheckDeviceStatus fk deviceId = TYPE_RENEW) := by
  obtain ⟨-, -, -, h4, -, h6⟩ := type_constants_distinct
  cases hlast : (st.deviceEvents fk deviceId).getLast? with
  | none =>
    rw [checkDeviceStatus_of_none st fk deviceId hlast]
    simp only [State.specDeviceActive, hlast]
    constructor
    · intro h; cases h
    · rintro (h | h)
      · exact absurd h.symm h4
      · exact absurd h.symm h6
  | some e =>
    rw [checkDeviceStatus_of_last st fk deviceId e hlast]
    simp only [State.specDeviceActive, hlast, decide_eq_true_eq]

theorem lcp_detail_ne_device (c : Int) (d : String)
    (hd : d = "Device is not activated" ∨ d = "The device is not active for this license") :
    Response.problem ("LCP license PATCH returned HTTP error code " ++ toString c) c ≠
      .problem d 400 := by
  intro h
  injection h with h1 h2
  subst h2
  rcases hd with hd | hd <;> subst hd <;> revert h1 <;> decide

theorem returnTransaction_response_ne (env : Env) (w : World) (st : State) (r : Request)
    (ls : LicenseStatus) (d : String)
    (hd : d = "Device is not activated" ∨ d = "The device is not active for this license") :
    (returnTransaction env w st r ls).response ≠ .problem d 400 := by
  unfold returnTransaction
  simp only [makeEvent]
  cases updateLicense env.Config w (w.clock 0) r.key with
  | error e => simp [StatusInternalServerError]
  | ok c =>
    simp only
    split_ifs
    · exact lcp_detail_ne_device c d hd
    · simp

theorem renewTransaction_response_ne (env : Env) (w : World) (st : State) (r : Request)
    (ls : LicenseStatus) (sugg : Time) (d : String)
    (hd : d = "Device is not activated" ∨ d = "The device is not active for this license") :
    (renewTransaction env w st r ls sugg).response ≠ .problem d 400 := by
  unfold renewTransaction
  simp only [makeEvent]
  cases updateLicense env.Config w sugg r.key with
  | error e => simp [StatusInternalServerError]
  | ok c =>
    simp only
    split_ifs
    · exact lcp_detail_ne_device c d hd
    · simp

theorem suggestedEnd_error_code (env : Env) (ls : LicenseStatus) (r : Request)
    (resp : Response) (h : suggestedEnd env ls r = .error resp) :
    ∃ detail, resp = .problem detail StatusInternalServerError := by
  simp only [suggestedEnd] at h
  split_ifs at h
  · cases h; exact ⟨_, rfl⟩
  · split at h
    · split_ifs at h
      cases h; exact ⟨_, rfl⟩
    · cases h; exact ⟨_, rfl⟩
  · split at h
    · cases h; exact ⟨_, rfl⟩
    · cases h

/-- The run of `LendingRenewal` once the length, status and device checks are passed. -/
theorem LendingRenewal_after_device (env : Env) (w : World) (st : State) (r : Request)
    (ls : LicenseStatus)
    (hget : st.GetByLicenseId r.key = some ls)
    (hid : r.id.utf8ByteSize ≤ 255) (hname : r.name.utf8ByteSize ≤ 255)
    (hstatus : ls.Status = STATUS_ACTIVE ∨ ls.Status = STATUS_READY)
    (hdev : r.id = "" ∨ st.CheckDeviceStatus ls.Id r.id = TYPE_REGISTER ∨
      st.CheckDeviceStatus ls.Id r.id = TYPE_RENEW) :
    LendingRenewal env w st r =
      match ls.PotentialRights with
      | some ⟨some potentialEnd⟩ =>
        if Time.IsZero potentialEnd then
          ⟨st, .problem "Potential rights end not set" StatusInternalServerError, []⟩
        else
          match suggestedEnd env ls r with
          | .error response => ⟨st, response, []⟩
          | .ok suggestedEnd =>
            if Time.After suggestedEnd potentialEnd then
              ⟨st, .problem "attempt to renew with date greater than potential rights end"
                StatusForbidden, []⟩
            else if Time.Before suggestedEnd (w.clock 0) then
              ⟨st, .problem "attempt to renew with date before now" StatusForbidden, []⟩
            else
              renewTransaction env w st r ls suggestedEnd
      | _ => ⟨st, .problem "Potential rights end not set" StatusInternalServerError, []⟩ := by
  have hlen : ¬ (r.name.utf8ByteSize > 255 ∨ r.id.utf8ByteSize > 255) := by omega
  have hst : ¬ (ls.Status ≠ STATUS_ACTIVE ∧ ls.Status ≠ STATUS_READY) := by
    rcases hstatus with h | h <;> simp [h]
  have hdev2 : ¬ (r.id ≠ "" ∧ (st.CheckDeviceStatus ls.Id r.id ≠ TYPE_REGISTER ∧
      st.CheckDeviceStatus ls.Id r.id ≠ TYPE_RENEW)) := by
    rcases hdev with h | h | h <;> simp [h]
  simp only [LendingRenewal, hget]
  rw [if_neg hlen, if_neg hst, if_neg hdev2]

theorem LendingRenewal_device_ok_response (env : Env) (w : World) (st : State) (r : Request)
    (ls : LicenseStatus)
    (hget : st.GetByLicenseId r.key = some ls)
    (hid : r.id.utf8ByteSize ≤ 255) (hname : r.name.utf8ByteSize ≤ 255)
    (hstatus : ls.Status = STATUS_ACTIVE ∨ ls.Status = STATUS_READY)
    (hdev : r.id = "" ∨ st.CheckDeviceStatus ls.Id r.id = TYPE_REGISTER ∨
      st.CheckDeviceStatus ls.Id r.id = TYPE_RENEW) :
    (LendingRenewal env w st r).response ≠
      .problem "The device is not active for this license" 400 := by
  rw [LendingRenewal_after_device env w st r ls hget hid hname hstatus hdev]
  rcases hp : ls.PotentialRights with _ | ⟨_ | pe⟩
  · simp
  · simp
  · simp only
    split_ifs
    · simp
    · cases hs : suggestedEnd env ls r with
      | error resp =>
        obtain ⟨detail, hd⟩ := suggestedEnd_error_code env ls r resp hs
        simp [hd, StatusInternalServerError]
      | ok sugg =>
        simp only
        split_ifs
        · simp
        · simp
        · exact renewTransaction_response_ne env w st r ls sugg _ (Or.inr rfl)

theorem LendingReturn_device_ok (env : Env) (w : World) (st : State) (r : Request)
    (ls : LicenseStatus)
    (hget : st.GetByLicenseId r.key = some ls)
    (hid : r.id.utf8ByteSize ≤ 255) (hname : r.name.utf8ByteSize ≤ 255)
    (hstatus : ls.Status = STATUS_ACTIVE ∨ ls.Status = STATUS_READY)
    (hdev : r.id = "" ∨ ¬ (st.CheckDeviceStatus ls.Id r.id = TYPE_RETURN ∨
      st.CheckDeviceStatus ls.Id r.id = "")) :
    ∃ moved, returnSwitch ls = .ok moved ∧
      LendingReturn env w st r = returnTransaction env w st r moved := by
  have hlen : ¬ (r.name.utf8ByteSize > 255 ∨ r.id.utf8ByteSize > 255) := by omega
  have hsw : ∃ moved, returnSwitch ls = .ok moved ∧ moved.Id = ls.Id := by
    rcases hstatus with h | h
    · exact ⟨_, returnSwitch_active h, rfl⟩
    · exact ⟨_, returnSwitch_ready h, rfl⟩
  obtain ⟨moved, hm, hmid⟩ := hsw
  refine ⟨moved, hm, ?_⟩
  have hdev2 : ¬ (r.id ≠ "" ∧ (st.CheckDeviceStatus moved.Id r.id = TYPE_RETURN ∨
      st.CheckDeviceStatus moved.Id r.id = "")) := by
    rw [hmid]
    rcases hdev with h | h
    · simp [h]
    · exact fun hc => h hc.2
  simp only [LendingReturn, hget, hm]
  rw [if_neg hlen, if_neg hdev2]

theorem LendingReturn_device_refused (env : Env) (w : World) (st : State) (r : Request)
    (ls : LicenseStatus)
    (hget : st.GetByLicenseId r.key = some ls)
    (hid : r.id.utf8ByteSize ≤ 255) (hname : r.name.utf8ByteSize ≤ 255)
    (hstatus : ls.Status = STATUS_ACTIVE ∨ ls.Status = STATUS_READY)
    (hne : r.id ≠ "")
    (hdev : st.CheckDeviceStatus ls.Id r.id = TYPE_RETURN ∨
      st.CheckDeviceStatus ls.Id r.id = "") :
    LendingReturn env w st r = ⟨st, .problem "Device is not activated" 400, []⟩ := by
  have hlen : ¬ (r.name.utf8ByteSize > 255 ∨ r.id.utf8ByteSize > 255) := by omega
  have hsw : ∃ moved, returnSwitch ls = .ok moved ∧ moved.Id = ls.Id := by
    rcases hstatus with h | h
    · exact ⟨_, returnSwitch_active h, rfl⟩
    · exact ⟨_, returnSwitch_ready h, rfl⟩
  obtain ⟨moved, hm, hmid⟩ := hsw
  simp only [LendingReturn, hget, hm]
  rw [if_neg hlen, hmid, if_pos ⟨hne, hdev⟩]
  rfl

theorem LendingRenewal_device_refused (env : Env) (w : World) (st : State) (r : Request)
    (ls : LicenseStatus)
    (hget : st.GetByLicenseId r.key = some ls)
    (hid : r.id.utf8ByteSize ≤ 255) (hname : r.name.utf8ByteSize ≤ 255)
    (hstatus : ls.Status = STATUS_ACTIVE ∨ ls.Status = STATUS_READY)
    (hne : r.id ≠ "")
    (hdev : ¬ (st.CheckDeviceStatus ls.Id r.id = TYPE_REGISTER ∨
      st.CheckDeviceStatus ls.Id r.id = TYPE_RENEW)) :
    LendingRenewal env w st r =
      ⟨st, .problem "The device is not active for this license" 400, []⟩ := by
  have hlen : ¬ (r.name.utf8ByteSize > 255 ∨ r.id.utf8ByteSize > 255) := by omega
  have hst : ¬ (ls.Status ≠ STATUS_ACTIVE ∧ ls.Status ≠ STATUS_READY) := by
    rcases hstatus with h | h <;> simp [h]
  have hdev2 : r.id ≠ "" ∧ (st.CheckDeviceStatus ls.Id r.id ≠ TYPE_REGISTER ∧
      st.CheckDeviceStatus ls.Id r.id ≠ TYPE_RENEW) :=
    ⟨hne, fun h => hdev (Or.inl h), fun h => hdev (Or.inr h)⟩
  simp only [LendingRenewal, hget]
  rw [if_neg hlen, if_neg hst, if_pos hdev2]
  rfl

/-- C6: for a Return or a Renew request on a stored READY or ACTIVE document that passes the
checks of its handler (id and name of at most 255 bytes, the device check, and for Renew the
potential rights and the window of the suggested end), when the LCP server answers the PATCH with
a status code `c` other than 200 and 206, `c` being between 100 and 999 as the status of an HTTP
response is: the handler has called
`updateLicense` once, it answers with status `c` and the detail `LCP license PATCH returned HTTP
error code c`, every stored status document is as before the request (the document of the
license is still `ls`, with its status, current end and timestamps), and the log is the log
before the request followed by the return or renew event of this document, appended before the
PATCH. -/
theorem lcp_refusal_propagates (env : Env) (w : World) (st : State) (r : Request)
    (ls : LicenseStatus) (c : Int)
    (hget : st.GetByLicenseId r.key = some ls)
    (hid : r.id.utf8ByteSize ≤ 255) (hname : r.name.utf8ByteSize ≤ 255)
    (hstatus : ls.Status = STATUS_ACTIVE ∨ ls.Status = STATUS_READY)
    (_hcode : 100 ≤ c ∧ c ≤ 999) (h200 : c ≠ StatusOK) (h206 : c ≠ StatusPartialContent) :
    ((r.id = "" ∨ (st.CheckDeviceStatus ls.Id r.id ≠ TYPE_RETURN ∧
        st.CheckDeviceStatus ls.Id r.id ≠ "")) →
      updateLicense env.Config w (w.clock 0) r.key = .ok c →
      (LendingReturn env w st r).response =
        .problem ("LCP license PATCH returned HTTP error code " ++ toString c) c ∧
      (LendingReturn env w st r).lcpCalls = [⟨w.clock 0, r.key⟩] ∧
      (LendingReturn env w st r).state.statuses = st.statuses ∧
      (LendingReturn env w st r).state.GetByLicenseId r.key = some ls ∧
      (LendingReturn env w st r).state.events = st.events ++
        [{ Id := st.events.length + 1, DeviceName := r.name, Timestamp := w.clock 0,
           Type_ := TYPE_RETURN, DeviceId := r.id, LicenseStatusFk := ls.Id }]) ∧
    (∀ pe sugg : Time,
      (r.id = "" ∨ st.CheckDeviceStatus ls.Id r.id = TYPE_REGISTER ∨
        st.CheckDeviceStatus ls.Id r.id = TYPE_RENEW) →
      ls.PotentialRights = some ⟨some pe⟩ → pe ≠ 0 →
      suggestedEnd env ls r = .ok sugg →
      (w.clock 0 ≤ sugg ∧ sugg ≤ pe) →
      updateLicense env.Config w sugg r.key = .ok c →
      (LendingRenewal env w st r).response =
        .problem ("LCP license PATCH returned HTTP error code " ++ toString c) c ∧
      (LendingRenewal env w st r).lcpCalls = [⟨sugg, r.key⟩] ∧
      (LendingRenewal env w st r).state.statuses = st.statuses ∧
      (LendingRenewal env w st r).state.GetByLicenseId r.key = some ls ∧
      (LendingRenewal env w st r).state.events = st.events ++
        [{ Id := st.events.length + 1, DeviceName := r.name, Timestamp := w.clock 1,
           Type_ := TYPE_RENEW, DeviceId := r.id, LicenseStatusFk := ls.Id }]) := by
  constructor
  · intro hdev hlcp
    have hdev2 : r.id = "" ∨ ¬ (st.CheckDeviceStatus ls.Id r.id = TYPE_RETURN ∨
        st.CheckDeviceStatus ls.Id r.id = "") := by
      rcases hdev with h | ⟨h1, h2⟩
      · exact Or.inl h
      · exact Or.inr (fun hc => hc.elim h1 h2)
    obtain ⟨moved, hsw, hrun⟩ := LendingReturn_device_ok env w st r ls hget hid hname hstatus hdev2
    rw [hrun, returnTransaction_refused env w st r moved c hlcp h200 h206,
      (returnSwitch_fields hsw).1]
    exact ⟨rfl, rfl, rfl, hget, rfl⟩
  · intro pe sugg hdev hpot hpe hsugg hwin hlcp
    have hafter : ¬ Time.After sugg pe = true := by
      rw [Time.after_iff]
      exact not_lt.2 hwin.2
    have hbefore : ¬ Time.Before sugg (w.clock 0) = true := by
      rw [Time.before_iff]
      exact not_lt.2 hwin.1
    rw [LendingRenewal_checked env w st r ls pe sugg hget hid hname hstatus hdev hpot hpe hsugg,
      if_neg hafter, if_neg hbefore, renewTransaction_refused env w st r ls sugg c hlcp h200 h206]
    exact ⟨rfl, rfl, rfl, hget, rfl⟩

/-- C6, at an ACTIVE loan with a registered device, returned and renewed at time 50 while the LCP
server answers 502: the answer is 502, the loan is stored as before and the event of the request
follows the register event in the log. -/
theorem lcp_refusal_propagates_witness :
    ((LendingReturn sampleEnv (sampleWorld 50 502)
        (sampleStateWith (sampleLoan STATUS_ACTIVE) [sampleEvent TYPE_REGISTER 10])
        (sampleRequest "D1" "Kindle" "150")).response =
        .problem ("LCP license PATCH returned HTTP error code " ++ toString (502 : Int)) 502 ∧
      (LendingReturn sampleEnv (sampleWorld 50 502)
        (sampleStateWith (sampleLoan STATUS_ACTIVE) [sampleEvent TYPE_REGISTER 10])
        (sampleRequest "D1" "Kindle" "150")).lcpCalls = [⟨50, "L1"⟩] ∧
      (LendingReturn sampleEnv (sampleWorld 50 502)
        (sampleStateWith (sampleLoan STATUS_ACTIVE) [sampleEvent TYPE_REGISTER 10])
        (sampleRequest "D1" "Kindle" "150")).state.statuses = [sampleLoan STATUS_ACTIVE] ∧
      (LendingReturn sampleEnv (sampleWorld 50 502)
        (sampleStateWith (sampleLoan STATUS_ACTIVE) [sampleEvent TYPE_REGISTER 10])
        (sampleRequest "D1" "Kindle" "150")).state.GetByLicenseId "L1" =
        some (sampleLoan STATUS_ACTIVE) ∧
      (LendingReturn sampleEnv (sampleWorld 50 502)
        (sampleStateWith (sampleLoan STATUS_ACTIVE) [sampleEvent TYPE_REGISTER 10])
        (sampleRequest "D1" "Kindle" "150")).state.events =
        [sampleEvent TYPE_REGISTER 10] ++
        [{ Id := 2, DeviceName := "Kindle", Timestamp := 50, Type_ := TYPE_RETURN,
           DeviceId := "D1", LicenseStatusFk := 1 }]) ∧
    ((LendingRenewal sampleEnv (sampleWorld 50 502)
        (sampleStateWith (sampleLoan STATUS_ACTIVE) [sampleEvent TYPE_REGISTER 10])
        (sampleRequest "D1" "Kindle" "150")).response =
        .problem ("LCP license PATCH returned HTTP error code " ++ toString (502 : Int)) 502 ∧
      (LendingRenewal sampleEnv (sampleWorld 50 502)
        (sampleStateWith (sampleLoan STATUS_ACTIVE) [sampleEvent TYPE_REGISTER 10])
        (sampleRequest "D1" "Kindle" "150")).lcpCalls = [⟨150, "L1"⟩] ∧
      (LendingRenewal sampleEnv (sampleWorld 50 502)
        (sampleStateWith (sampleLoan STATUS_ACTIVE) [sampleEvent TYPE_REGISTER 10])
        (sampleRequest "D1" "Kindle" "150")).state.statuses = [sampleLoan STATUS_ACTIVE] ∧
      (LendingRenewal sampleEnv (sampleWorld 50 502)
        (sampleStateWith (sampleLoan STATUS_ACTIVE) [sampleEvent TYPE_REGISTER 10])
        (sampleRequest "D1" "Kindle" "150")).state.GetByLicenseId "L1" =
        some (sampleLoan STATUS_ACTIVE) ∧
      (LendingRenewal sampleEnv (sampleWorld 50 502)
        (sampleStateWith (sampleLoan STATUS_ACTIVE) [sampleEvent TYPE_REGISTER 10])
        (sampleRequest "D1" "Kindle" "150")).state.events =
        [sampleEvent TYPE_REGISTER 10] ++
        [{ Id := 2, DeviceName := "Kindle", Timestamp := 50, Type_ := TYPE_RENEW,
           DeviceId := "D1", LicenseStatusFk := 1 }]) :=
  ⟨(lcp_refusal_propagates sampleEnv (sampleWorld 50 502)
      (sampleStateWith (sampleLoan STATUS_ACTIVE) [sampleEvent TYPE_REGISTER 10])
      (sampleRequest "D1" "Kindle" "150") (sampleLoan STATUS_ACTIVE) 502 (by decide) (by decide)
      (by decide) (Or.inl rfl) (by decide) (by decide) (by decide)).1
      (Or.inr (by decide)) rfl,
    (lcp_refusal_propagates sampleEnv (sampleWorld 50 502)
      (sampleStateWith (sampleLoan STATUS_ACTIVE) [sampleEvent TYPE_REGISTER 10])
      (sampleRequest "D1" "Kindle" "150") (sampleLoan STATUS_ACTIVE) 502 (by decide) (by decide)
      (by decide) (Or.inl rfl) (by decide) (by decide) (by decide)).2 200 150
      (Or.inr (Or.inl (by decide))) rfl (by decide) rfl (by decide) rfl⟩


/-- C14: for a Return or a Renew with a non-empty id on a READY or ACTIVE document (id and name
of at most 255 bytes, an event log whose types are `register`, `return` and `renew`), the request
passes the device check exactly when the most recent event of the device for the document is
`register` or `renew`; when that event is `return` or absent the answer is the 400 of the device
check, no event is appended, `updateLicense` is not called and the store is unchanged.  With an
empty id neither handler answers with the 400 of its device check: Return goes on to its
transaction and Renew to its remaining checks. -/
theorem device_check (env : Env) (w : World) (st : State) (r : Request) (ls : LicenseStatus)
    (hget : st.GetByLicenseId r.key = some ls)
    (hid : r.id.utf8ByteSize ≤ 255) (hname : r.name.utf8ByteSize ≤ 255)
    (hstatus : ls.Status = STATUS_ACTIVE ∨ ls.Status = STATUS_READY)
    (htypes : ∀ e ∈ st.events,
      e.Type_ = TYPE_REGISTER ∨ e.Type_ = TYPE_RETURN ∨ e.Type_ = TYPE_RENEW) :
    (r.id ≠ "" →
      ((LendingReturn env w st r).response ≠ .problem "Device is not activated" 400 ↔
        st.specDeviceActive ls.Id r.id = true) ∧
      ((LendingRenewal env w st r).response ≠
          .problem "The device is not active for this license" 400 ↔
        st.specDeviceActive ls.Id r.id = true) ∧
      (st.specDeviceActive ls.Id r.id = true →
        ∃ moved, returnSwitch ls = .ok moved ∧
          LendingReturn env w st r = returnTransaction env w st r moved) ∧
      (st.specDeviceActive ls.Id r.id = false →
        LendingReturn env w st r = ⟨st, .problem "Device is not activated" 400, []⟩ ∧
        LendingRenewal env w st r =
          ⟨st, .problem "The device is not active for this license" 400, []⟩)) ∧
    (r.id = "" →
      (∃ moved, returnSwitch ls = .ok moved ∧
        LendingReturn env w st r = returnTransaction env w st r moved) ∧
      (LendingRenewal env w st r).response ≠
        .problem "The device is not active for this license" 400) := by
  have hiff := specDeviceActive_iff st ls.Id r.id
  have hact := checkDeviceStatus_active_iff st ls.Id r.id htypes
  constructor
  · intro hne
    have hyes : st.specDeviceActive ls.Id r.id = true →
        ∃ moved, returnSwitch ls = .ok moved ∧
          LendingReturn env w st r = returnTransaction env w st r moved := fun ha =>
      LendingReturn_device_ok env w st r ls hget hid hname hstatus
        (Or.inr (hact.1 (hiff.1 ha)))
    have hno : st.specDeviceActive ls.Id r.id = false →
        LendingReturn env w st r = ⟨st, .problem "Device is not activated" 400, []⟩ ∧
        LendingRenewal env w st r =
          ⟨st, .problem "The device is not active for this license" 400, []⟩ := by
      intro hf
      have hn : ¬ (st.CheckDeviceStatus ls.Id r.id = TYPE_REGISTER ∨
          st.CheckDeviceStatus ls.Id r.id = TYPE_RENEW) := by
        intro hc
        rw [hiff.2 hc] at hf
        cases hf
      have hr : st.CheckDeviceStatus ls.Id r.id = TYPE_RETURN ∨
          st.CheckDeviceStatus ls.Id r.id = "" := by
        by_contra hc
        exact hn (hact.2 hc)
      exact ⟨LendingReturn_device_refused env w st r ls hget hid hname hstatus hne hr,
        LendingRenewal_device_refused env w st r ls hget hid hname hstatus hne hn⟩
    refine ⟨⟨fun h => ?_, fun ha => ?_⟩, ⟨fun h => ?_, fun ha => ?_⟩, hyes, hno⟩
    · by_contra hc
      rw [(hno (by simpa using hc)).1] at h
      exact h rfl
    · obtain ⟨moved, -, hrun⟩ := hyes ha
      rw [hrun]
      exact returnTransaction_response_ne env w st r moved _ (Or.inl rfl)
    · by_contra hc
      rw [(hno (by simpa using hc)).2] at h
      exact h rfl
    · exact LendingRenewal_device_ok_response env w st r ls hget hid hname hstatus
        (Or.inr (hiff.1 ha))
  · intro he
    exact ⟨LendingReturn_device_ok env w st r ls hget hid hname hstatus (Or.inl he),
      LendingRenewal_device_ok_response env w st r ls hget hid hname hstatus (Or.inl he)⟩

/-- C14, at an ACTIVE loan whose device `D1` has registered: its Return goes on to the
transaction; after which its most recent event is `return` and a further Renew is refused. -/
theorem device_check_witness :
    (∃ moved, returnSwitch (sampleLoan STATUS_ACTIVE) = .ok moved ∧
      LendingReturn sampleEnv (sampleWorld 50 200)
        (sampleStateWith (sampleLoan STATUS_ACTIVE) [sampleEvent TYPE_REGISTER 10])
        (sampleRequest "D1" "Kindle" "") =
      returnTransaction sampleEnv (sampleWorld 50 200)
        (sampleStateWith (sampleLoan STATUS_ACTIVE) [sampleEvent TYPE_REGISTER 10])
        (sampleRequest "D1" "Kindle" "") moved) ∧
    LendingRenewal sampleEnv (sampleWorld 50 200)
        (sampleStateWith (sampleLoan STATUS_ACTIVE)
          [sampleEvent TYPE_REGISTER 10, sampleEvent TYPE_RETURN 20])
        (sampleRequest "D1" "Kindle" "") =
      ⟨sampleStateWith (sampleLoan STATUS_ACTIVE)
          [sampleEvent TYPE_REGISTER 10, sampleEvent TYPE_RETURN 20],
        .problem "The device is not active for this license" 400, []⟩ :=
  ⟨((device_check sampleEnv (sampleWorld 50 200)
      (sampleStateWith (sampleLoan STATUS_ACTIVE) [sampleEvent TYPE_REGISTER 10])
      (sampleRequest "D1" "Kindle" "") (sampleLoan STATUS_ACTIVE) (by decide) (by decide)
      (by decide) (Or.inl rfl) (by decide)).1 (by decide)).2.2.1 (by decide),
    (((device_check sampleEnv (sampleWorld 50 200)
      (sampleStateWith (sampleLoan STATUS_ACTIVE)
        [sampleEvent TYPE_REGISTER 10, sampleEvent TYPE_RETURN 20])
      (sampleRequest "D1" "Kindle" "") (sampleLoan STATUS_ACTIVE) (by decide) (by decide)
      (by decide) (Or.inl rfl) (by decide)).1 (by decide)).2.2.2 (by decide)).2⟩


theorem wrap64_of_bounds (x : Int) (h0 : minDuration ≤ x) (h1 : x ≤ maxDuration) :
    wrap64 x = x := by
  have hmax : (maxDuration : Int) = 9223372036854775807 := by norm_num [maxDuration]
  have hmin : (minDuration : Int) = -9223372036854775808 := by norm_num [minDuration]
  have h2 : (x : Int) ≤ 9223372036854775807 := hmax ▸ h1
  have h3 : (-9223372036854775808 : Int) ≤ x := hmin ▸ h0
  unfold wrap64
  norm_num
  omega

/-- C15, amended: for a Renew request without `end` parameter that passes the length, status,
device and potential-rights checks: if the configured `renew_days` is 0, or the current end of
the license is unset or zero, the answer is 500 and nothing changes; otherwise, `renew_days`
being positive or negative with `renew_days` times 24h inside the range of a 64-bit duration,
the suggested end is the current end plus `renew_days` times 24h exactly, and it is the end
passed to `updateLicense` when the renewal proceeds. -/
theorem suggestedEnd_from_renew_days (env : Env) (w : World) (st : State) (r : Request)
    (ls : LicenseStatus) (pe : Time)
    (hget : st.GetByLicenseId r.key = some ls)
    (hid : r.id.utf8ByteSize ≤ 255) (hname : r.name.utf8ByteSize ≤ 255)
    (hstatus : ls.Status = STATUS_ACTIVE ∨ ls.Status = STATUS_READY)
    (hdev : r.id = "" ∨ st.CheckDeviceStatus ls.Id r.id = TYPE_REGISTER ∨
      st.CheckDeviceStatus ls.Id r.id = TYPE_RENEW)
    (hpot : ls.PotentialRights = some ⟨some pe⟩) (hpe : pe ≠ 0)
    (hend : r.timeEndString = "") :
    ((env.Config.LicenseStatus.RenewDays = 0 ∨ ls.CurrentEndLicense = none ∨
        ls.CurrentEndLicense = some 0) →
      ∃ detail, LendingRenewal env w st r = ⟨st, .problem detail 500, []⟩) ∧
    (∀ ce : Time, env.Config.LicenseStatus.RenewDays ≠ 0 →
      ls.CurrentEndLicense = some ce → ce ≠ 0 →
      minDuration ≤ env.Config.LicenseStatus.RenewDays * (24 * Hour) →
      env.Config.LicenseStatus.RenewDays * (24 * Hour) ≤ maxDuration →
      suggestedEnd env ls r = .ok (ce + env.Config.LicenseStatus.RenewDays * (24 * Hour)) ∧
      ∀ call ∈ (LendingRenewal env w st r).lcpCalls,
        call.timeEnd = ce + env.Config.LicenseStatus.RenewDays * (24 * Hour)) := by
  have hrun := LendingRenewal_after_device env w st r ls hget hid hname hstatus hdev
  have hz : Time.IsZero pe = false := by simp [Time.IsZero, hpe]
  simp only [hpot, hz, Bool.false_eq_true, if_false] at hrun
  constructor
  · intro hbad
    have herr : ∃ detail, suggestedEnd env ls r =
        .error (.problem detail StatusInternalServerError) := by
      simp only [suggestedEnd, hend, if_true]
      by_cases hd : env.Config.LicenseStatus.RenewDays = 0
      · rw [if_pos hd]; exact ⟨_, rfl⟩
      · rw [if_neg hd]
        rcases hbad with h | h | h
        · exact absurd h hd
        · rw [h]; exact ⟨_, rfl⟩
        · rw [h]; exact ⟨_, rfl⟩
    obtain ⟨detail, hs⟩ := herr
    rw [hs] at hrun
    exact ⟨detail, hrun⟩
  · intro ce hd hce hnz hlo hhi
    have hw : wrap64 (24 * Hour * env.Config.LicenseStatus.RenewDays) =
        env.Config.LicenseStatus.RenewDays * (24 * Hour) := by
      have hcomm : 24 * Hour * env.Config.LicenseStatus.RenewDays =
          env.Config.LicenseStatus.RenewDays * (24 * Hour) := by ring
      rw [hcomm]
      exact wrap64_of_bounds _ hlo hhi
    have hs : suggestedEnd env ls r =
        .ok (ce + env.Config.LicenseStatus.RenewDays * (24 * Hour)) := by
      have hnz2 : Time.IsZero ce = false := by simp [Time.IsZero, hnz]
      simp only [suggestedEnd, hend, if_true, hce, hw, Time.Add, hnz2]
      rw [if_neg hd]
      rfl
    refine ⟨hs, ?_⟩
    rw [hs] at hrun
    rw [hrun]
    simp only
    split_ifs
    · intro call hc; simp at hc
    · intro call hc; simp at hc
    · intro call hc
      rw [(renewTransaction_events env w st r ls _).2] at hc
      simp only [List.mem_singleton] at hc
      rw [hc]

/-- C15, at the loan whose current end is 2024-02-01T00:00:00Z, with `renew_days` = 7: the
suggested end is 2024-02-08T00:00:00Z. -/
theorem suggestedEnd_from_renew_days_witness :
    suggestedEnd sampleEnv (sampleLoanWith STATUS_READY (Date 2024 2 1) (Date 2024 3 1))
      (sampleRequest "" "" "") = .ok (Date 2024 2 1 + 7 * (24 * Hour)) ∧
    Date 2024 2 1 + 7 * (24 * Hour) = Date 2024 2 8 :=
  ⟨((suggestedEnd_from_renew_days sampleEnv (sampleWorld (Date 2024 1 15) 200)
      (sampleStateWith (sampleLoanWith STATUS_READY (Date 2024 2 1) (Date 2024 3 1)) [])
      (sampleRequest "" "" "") (sampleLoanWith STATUS_READY (Date 2024 2 1) (Date 2024 3 1))
      (Date 2024 3 1) (by decide) (by decide) (by decide) (Or.inr rfl) (Or.inl rfl) rfl
      (by decide) rfl).2 (Date 2024 2 1) (by decide) rfl (by decide) (by decide)
      (by decide)).1,
    by decide⟩

/-- C15 as stated fails.  With `renew_days` = -1, which is not > 0, a Renew without `end` on a
loan ending at 1000000000000000 and renewable up to 2000000000000000 is not answered 500: it
proceeds with the suggested end one day before the current end and is answered 200.  With
`renew_days` = 200000 the product with 24h overflows and the suggested end is not the current
end plus `renew_days` times 24h. -/
theorem renew_days_negative_or_huge :
    ¬ ((-1 : Int) > 0) ∧
    (LendingRenewal (sampleEnvWith (sampleConfigWith 30 (-1))) (sampleWorld 0 200)
      (sampleStateWith (sampleLoanWith STATUS_READY 1000000000000000 2000000000000000) [])
      (sampleRequest "" "" "")).response.code = some 200 ∧
    (LendingRenewal (sampleEnvWith (sampleConfigWith 30 (-1))) (sampleWorld 0 200)
      (sampleStateWith (sampleLoanWith STATUS_READY 1000000000000000 2000000000000000) [])
      (sampleRequest "" "" "")).lcpCalls = [⟨913600000000000, "L1"⟩] ∧
    suggestedEnd (sampleEnvWith (sampleConfigWith 30 200000))
      (sampleLoanWith STATUS_READY 1000000000000000 2000000000000000)
      (sampleRequest "" "" "") = .ok (1000000000000000 - 1166744073709551616) ∧
    (1000000000000000 - 1166744073709551616 : Int) ≠
      1000000000000000 + 200000 * (24 * Hour) := by
  refine ⟨by decide, by decide, by decide, rfl, by decide⟩


/-- C16: after every successful Renew, on a document found READY or ACTIVE, `updateLicense`
was called with the suggested end, the renew event stamped with the second clock reading was
appended, and the stored and the answered document have the status ACTIVE, the suggested end as
current end and `updated.status` = `updated.license` = the timestamp of the event, with
`license_ref`, `potential_rights` and the stored device count unchanged. -/
theorem LendingRenewal_success (env : Env) (w : World) (st : State) (r : Request)
    (doc : LicenseStatus)
    (hdoc : (LendingRenewal env w st r).response = .document doc) :
    ∃ ls sugg, st.GetByLicenseId r.key = some ls ∧
      (ls.Status = STATUS_ACTIVE ∨ ls.Status = STATUS_READY) ∧
      suggestedEnd env ls r = .ok sugg ∧
      (LendingRenewal env w st r).lcpCalls = [⟨sugg, r.key⟩] ∧
      (LendingRenewal env w st r).state.events = st.events ++
        [{ Id := st.events.length + 1, DeviceName := r.name, Timestamp := w.clock 1,
           Type_ := TYPE_RENEW, DeviceId := r.id, LicenseStatusFk := ls.Id }] ∧
      doc.Status = STATUS_ACTIVE ∧ doc.CurrentEndLicense = some sugg ∧
      doc.Updated = ⟨some (w.clock 1), some (w.clock 1)⟩ ∧
      doc.LicenseRef = ls.LicenseRef ∧ doc.PotentialRights = ls.PotentialRights ∧
      ∃ stored, (LendingRenewal env w st r).state.GetByLicenseId r.key = some stored ∧
        stored.Status = STATUS_ACTIVE ∧ stored.CurrentEndLicense = some sugg ∧
        stored.Updated = ⟨some (w.clock 1), some (w.clock 1)⟩ ∧
        stored.LicenseRef = ls.LicenseRef ∧ stored.PotentialRights = ls.PotentialRights ∧
        stored.DeviceCount = ls.DeviceCount := by
  rcases LendingRenewal_cases env w st r with
    ⟨-, -, hnd⟩ | ⟨ls, pe, sugg, hget, hstatus, -, hsugg, -, -, hrun⟩
  · exact absurd hdoc (hnd doc)
  · have href := getByLicenseId_ref hget
    rw [hrun] at hdoc ⊢
    have hshape := renewTransaction_document env w st r ls doc sugg hdoc
    have hev := renewTransaction_events env w st r ls sugg
    rw [hshape] at hdoc
    simp only [Response.document.injEq] at hdoc
    refine ⟨ls, sugg, hget, hstatus, hsugg, hev.2, hev.1, ?_, ?_, ?_, ?_, ?_, ?_⟩
    · rw [← hdoc]; simp [(fillLicenseStatus_fields _ _ _ _).1]
    · rw [← hdoc]; simp [(fillLicenseStatus_fields _ _ _ _).2.2.2.2.2.2]
    · rw [← hdoc]; simp [(fillLicenseStatus_fields _ _ _ _).2.2.2.1]
    · rw [← hdoc]; simp [(fillLicenseStatus_fields _ _ _ _).2.2.1]
    · rw [← hdoc]; simp [(fillLicenseStatus_fields _ _ _ _).2.2.2.2.2.1]
    · rw [hshape]
      exact ⟨_, getByLicenseId_update _ r.key ls _ hget rfl href, rfl, rfl, rfl, rfl, rfl, rfl⟩

/-- C16, at a READY loan ending at 100 and renewable up to 200, renewed at time 50 to the end
150. -/
theorem LendingRenewal_success_witness :
    ∃ ls sugg, (sampleState STATUS_READY).GetByLicenseId "L1" = some ls ∧
      suggestedEnd sampleEnv ls (sampleRequest "" "" "150") = .ok sugg ∧
      (LendingRenewal sampleEnv (sampleWorld 50 200) (sampleState STATUS_READY)
        (sampleRequest "" "" "150")).lcpCalls = [⟨sugg, "L1"⟩] ∧
      (LendingRenewal sampleEnv (sampleWorld 50 200) (sampleState STATUS_READY)
        (sampleRequest "" "" "150")).state.statuses.map
          (fun x => (x.Status, x.CurrentEndLicense)) = [(STATUS_ACTIVE, some 150)] :=
  have h := LendingRenewal_success sampleEnv (sampleWorld 50 200) (sampleState STATUS_READY)
    (sampleRequest "" "" "150") _ rfl
  match h with
  | ⟨ls, sugg, h1, _, h3, h4, _⟩ => ⟨ls, sugg, h1, h3, h4, by decide⟩


/-- C17 fails on the code: after the creation of the license `L1` and a Cancel/Revoke whose body
carries the status `foo`, a Return succeeds (answer 200, `updateLicense` called with the
timestamp 20 of the event, which is stored as current end) and the status of its response is
`foo`, neither RETURNED nor CANCELLED: the switch of `LendingReturn` has no case for it. -/
theorem return_answers_status_of_cancel_body :
    ((handle sampleEnv .lendingReturn (sampleWorld 20 200)
      (run sampleEnv State.empty
        [sampleCall .create 0 200 (sampleBody "L1"),
         sampleCall .cancel 10 200 (sampleBody "foo")])
      (sampleBody "")).response.document?).map (fun doc => doc.Status) = some "foo" ∧
    (handle sampleEnv .lendingReturn (sampleWorld 20 200)
      (run sampleEnv State.empty
        [sampleCall .create 0 200 (sampleBody "L1"),
         sampleCall .cancel 10 200 (sampleBody "foo")])
      (sampleBody "")).lcpCalls = [⟨20, "L1"⟩] ∧
    (handle sampleEnv .lendingReturn (sampleWorld 20 200)
      (run sampleEnv State.empty
        [sampleCall .create 0 200 (sampleBody "L1"),
         sampleCall .cancel 10 200 (sampleBody "foo")])
      (sampleBody "")).state.statuses.map (fun x => (x.Status, x.CurrentEndLicense)) =
        [("foo", some 20)] ∧
    "foo" ≠ STATUS_RETURNED ∧ "foo" ≠ STATUS_CANCELLED := by
  refine ⟨by decide, by decide, by decide, by decide, by decide⟩


/-- C18: on an existing document whose status is not READY, Cancel/Revoke is answered 400,
`updateLicense` is not called and the store is unchanged; when the status is READY, the body
decodes and `updateLicense`, called with the current time, returns 200 or 206, the stored
document has the status of the body and the current time as `current_end_license`,
`updated.status` and `updated.license`. -/
theorem CancelLicenseStatus_effect (env : Env) (w : World) (st : State) (r : Request)
    (ls : LicenseStatus) (hget : st.GetByLicenseId r.key = some ls) :
    (ls.Status ≠ STATUS_READY →
      CancelLicenseStatus env w st r =
        ⟨st, .problem "The new status is not compatible with current status" 400, []⟩) ∧
    (∀ parsedLs c, ls.Status = STATUS_READY →
      decodeJsonLicenseStatus env r = .ok parsedLs →
      updateLicense env.Config w (w.clock 0) r.key = .ok c →
      (c = StatusOK ∨ c = StatusPartialContent) →
      (CancelLicenseStatus env w st r).response = .ok ∧
      (CancelLicenseStatus env w st r).lcpCalls = [⟨w.clock 0, r.key⟩] ∧
      (CancelLicenseStatus env w st r).state.events = st.events ∧
      (CancelLicenseStatus env w st r).state.GetByLicenseId r.key =
        some { ls with Status := parsedLs.Status
                       CurrentEndLicense := some (w.clock 0)
                       Updated := ⟨some (w.clock 0), some (w.clock 0)⟩ }) := by
  have href := getByLicenseId_ref hget
  constructor
  · intro hs
    simp only [CancelLicenseStatus, hget]
    rw [if_pos hs]
    rfl
  · intro parsedLs c hs hdec hlcp hc
    have hc2 : ¬ (c ≠ StatusOK ∧ c ≠ StatusPartialContent) := by
      rcases hc with h | h <;> simp [h]
    have hrun : CancelLicenseStatus env w st r =
        ⟨st.Update { ls with Status := parsedLs.Status
                             CurrentEndLicense := some (w.clock 0)
                             Updated := ⟨some (w.clock 0), some (w.clock 0)⟩ },
          .ok, [⟨w.clock 0, r.key⟩]⟩ := by
      simp only [CancelLicenseStatus, hget, hdec, cancelTransaction, hlcp]
      rw [if_neg (not_not.2 hs), if_neg hc2]
    rw [hrun]
    exact ⟨rfl, rfl, rfl, getByLicenseId_update st r.key ls _ hget rfl href⟩

/-- C18, at a READY loan cancelled at time 10 with a body carrying the status CANCELLED. -/
theorem CancelLicenseStatus_effect_witness :
    (CancelLicenseStatus sampleEnv (sampleWorld 10 200) (sampleState STATUS_READY)
      (sampleBody STATUS_CANCELLED)).state.GetByLicenseId "L1" =
      some { sampleLoan STATUS_READY with Status := STATUS_CANCELLED
                                          CurrentEndLicense := some 10
                                          Updated := ⟨some 10, some 10⟩ } ∧
    CancelLicenseStatus sampleEnv (sampleWorld 10 200) (sampleState STATUS_ACTIVE)
      (sampleBody STATUS_CANCELLED) =
      ⟨sampleState STATUS_ACTIVE,
        .problem "The new status is not compatible with current status" 400, []⟩ :=
  ⟨((CancelLicenseStatus_effect sampleEnv (sampleWorld 10 200) (sampleState STATUS_READY)
      (sampleBody STATUS_CANCELLED) (sampleLoan STATUS_READY) (by decide)).2
      { LicenseStatus.zero with Status := STATUS_CANCELLED } 200 rfl rfl rfl
      (Or.inl rfl)).2.2.2,
    (CancelLicenseStatus_effect sampleEnv (sampleWorld 10 200) (sampleState STATUS_ACTIVE)
      (sampleBody STATUS_CANCELLED) (sampleLoan STATUS_ACTIVE) (by decide)).1 (by decide)⟩


/-- C19: on an existing document whose status is neither READY nor ACTIVE, a Register with id
and name of 1 to 255 bytes and a Renew with id and name of at most 255 bytes are both answered
400; no event is appended, `updateLicense` is not called and the store is unchanged. -/
theorem inactive_status_refused (env : Env) (w : World) (st : State) (r : Request)
    (ls : LicenseStatus) (hget : st.GetByLicenseId r.key = some ls)
    (hready : ls.Status ≠ STATUS_READY) (hactive : ls.Status ≠ STATUS_ACTIVE) :
    ((1 ≤ r.id.utf8ByteSize ∧ r.id.utf8ByteSize ≤ 255) →
      (1 ≤ r.name.utf8ByteSize ∧ r.name.utf8ByteSize ≤ 255) →
      RegisterDevice env w st r = ⟨st, .problem "License is not active" 400, []⟩) ∧
    (r.id.utf8ByteSize ≤ 255 → r.name.utf8ByteSize ≤ 255 →
      LendingRenewal env w st r = ⟨st, .problem "License is not active" 400, []⟩) := by
  constructor
  · intro hid hname
    have hlen : ¬ (r.id.utf8ByteSize = 0 ∨ r.id.utf8ByteSize > 255 ∨
        r.name.utf8ByteSize = 0 ∨ r.name.utf8ByteSize > 255) := by omega
    simp only [RegisterDevice, hget]
    rw [if_neg hlen, if_pos ⟨hactive, hready⟩]
    rfl
  · intro hid hname
    have hlen : ¬ (r.name.utf8ByteSize > 255 ∨ r.id.utf8ByteSize > 255) := by omega
    simp only [LendingRenewal, hget]
    rw [if_neg hlen, if_pos ⟨hactive, hready⟩]
    rfl

/-- C19, at a RETURNED loan. -/
theorem inactive_status_refused_witness :
    RegisterDevice sampleEnv (sampleWorld 50 200) (sampleState STATUS_RETURNED)
      (sampleRequest "D1" "Kindle" "") =
      ⟨sampleState STATUS_RETURNED, .problem "License is not active" 400, []⟩ ∧
    LendingRenewal sampleEnv (sampleWorld 50 200) (sampleState STATUS_RETURNED)
      (sampleRequest "D1" "Kindle" "") =
      ⟨sampleState STATUS_RETURNED, .problem "License is not active" 400, []⟩ :=
  ⟨(inactive_status_refused sampleEnv (sampleWorld 50 200) (sampleState STATUS_RETURNED)
      (sampleRequest "D1" "Kindle" "") (sampleLoan STATUS_RETURNED) (by decide) (by decide)
      (by decide)).1 (by decide) (by decide),
    (inactive_status_refused sampleEnv (sampleWorld 50 200) (sampleState STATUS_RETURNED)
      (sampleRequest "D1" "Kindle" "") (sampleLoan STATUS_RETURNED) (by decide) (by decide)
      (by decide)).2 (by decide) (by decide)⟩


/-- C20: the document `makeLicenseStatus` makes from a fresh document has no current end and no
potential rights when the license has no `rights.end` (a purchase), and has both a current end
and a potential rights end when the license has a `rights.end` (a loan). -/
theorem makeLicenseStatus_purchase_or_loan (cfg : Config) (now : Time) (license : License) :
    ((license.Rights = none ∨ ∃ rights, license.Rights = some rights ∧ rights.End = none) →
      (makeLicenseStatus cfg now license LicenseStatus.zero).CurrentEndLicense = none ∧
      (makeLicenseStatus cfg now license LicenseStatus.zero).PotentialRights = none) ∧
    (∀ rights e, license.Rights = some rights → rights.End = some e →
      (∃ ce, (makeLicenseStatus cfg now license LicenseStatus.zero).CurrentEndLicense =
        some ce) ∧
      (∃ pe, (makeLicenseStatus cfg now license LicenseStatus.zero).PotentialRights =
        some ⟨some pe⟩)) := by
  constructor
  · intro h
    have hb : license.Rights.bind (fun rights => rights.End) = none := by
      rcases h with h | ⟨rights, h1, h2⟩
      · simp [h]
      · simp [h1, h2]
    simp only [makeLicenseStatus, hb]
    split_ifs <;> exact ⟨rfl, rfl⟩
  · intro rights e h1 h2
    have hb : license.Rights.bind (fun rights => rights.End) = some e := by
      simp [h1, h2]
    simp only [makeLicenseStatus, hb]
    split_ifs <;> exact ⟨⟨_, rfl⟩, ⟨_, rfl⟩⟩

/-- C20, at a purchase and at a loan ending at 100. -/
theorem makeLicenseStatus_purchase_or_loan_witness :
    ((makeLicenseStatus sampleConfig 7 ⟨"L1", 0, none⟩ LicenseStatus.zero).CurrentEndLicense =
        none ∧
      (makeLicenseStatus sampleConfig 7 ⟨"L1", 0, none⟩ LicenseStatus.zero).PotentialRights =
        none) ∧
    ((∃ ce, (makeLicenseStatus sampleConfig 7 ⟨"L1", 0, some ⟨some 100⟩⟩
        LicenseStatus.zero).CurrentEndLicense = some ce) ∧
      (∃ pe, (makeLicenseStatus sampleConfig 7 ⟨"L1", 0, some ⟨some 100⟩⟩
        LicenseStatus.zero).PotentialRights = some ⟨some pe⟩)) :=
  ⟨(makeLicenseStatus_purchase_or_loan sampleConfig 7 ⟨"L1", 0, none⟩).1 (Or.inl rfl),
    (makeLicenseStatus_purchase_or_loan sampleConfig 7 ⟨"L1", 0, some ⟨some 100⟩⟩).2
      ⟨some 100⟩ 100 rfl rfl⟩


/-! ## Stored documents after one call -/

/-- A property of documents that the creation of a document and each kind of update keep holds
of every stored document after any call. -/
theorem step_forall (P : LicenseStatus → Prop) (env : Env) (st : State) (c : Call)
    (hinv : ∀ ls ∈ st.statuses, P ls)
    (hcreate : ∀ lic, c.action = .create →
      P { makeLicenseStatus env.Config (c.world.clock 0) lic LicenseStatus.zero with
          Id := st.statuses.length + 1 })
    (hget : ∀ ls, c.action = .get → st.GetByLicenseId c.request.key = some ls → P ls →
      P { ls with Status := STATUS_EXPIRED })
    (hregister : ∀ ls n, c.action = .register →
      st.GetByLicenseId c.request.key = some ls → ls.DeviceCount = some n → P ls →
      P { ls with Status := (if ls.Status = STATUS_READY then STATUS_ACTIVE else ls.Status)
                  DeviceCount := some (n + 1)
                  Updated := { ls.Updated with Status := some (c.world.clock 0) } })
    (hreturn : ∀ ls moved, c.action = .lendingReturn →
      st.GetByLicenseId c.request.key = some ls → returnSwitch ls = .ok moved → P ls →
      P { moved with CurrentEndLicense := some (c.world.clock 0)
                     Updated := ⟨some (c.world.clock 0), some (c.world.clock 0)⟩ })
    (hrenew : ∀ ls pe sugg, c.action = .renew →
      st.GetByLicenseId c.request.key = some ls → ls.PotentialRights = some ⟨some pe⟩ →
      (sugg : Int) ≤ pe → P ls →
      P { ls with CurrentEndLicense := some sugg
                  Updated := ⟨some (c.world.clock 1), some (c.world.clock 1)⟩
                  Status := STATUS_ACTIVE })
    (hcancel : ∀ (ls parsedLs : LicenseStatus), c.action = .cancel →
      st.GetByLicenseId c.request.key = some ls → ls.Status = STATUS_READY → P ls →
      P { ls with CurrentEndLicense := some (c.world.clock 0)
                  Status := parsedLs.Status
                  Updated := ⟨some (c.world.clock 0), some (c.world.clock 0)⟩ }) :
    ∀ ls ∈ (handle env c.action c.world st c.request).state.statuses, P ls := by
  obtain ⟨action, w, r⟩ := c
  cases action with
  | create =>
    simp only [handle]
    rcases (CreateLicenseStatusDocument_cases env w st r).2 with h | ⟨lic, -, h⟩
    · rw [h]; exact hinv
    · rw [h]
      exact addStatus_forall P st _ hinv (hcreate lic rfl)
  | get =>
    simp only [handle]
    rcases (GetLicenseStatusDocument_cases env w st r).2 with h | ⟨ls, hg, h⟩
    · rw [h]; exact hinv
    · rw [h]
      exact update_forall P st _ hinv (hget ls rfl hg (hinv ls (getByLicenseId_mem hg)))
  | register =>
    simp only [handle]
    rcases RegisterDevice_cases env w st r with ⟨h, -, -⟩ | ⟨ls, hg, -, -, -, -, hrun⟩
    · rw [h]; exact hinv
    · rw [hrun]
      rcases registerTransaction_state env w st r ls with ⟨-, -, h⟩ | ⟨n, hn, -, h⟩
      · rw [h]; exact hinv
      · rw [h]
        exact update_forall P (st.AddEvent _) _ hinv
          (hregister ls n rfl hg hn (hinv ls (getByLicenseId_mem hg)))
  | lendingReturn =>
    simp only [handle]
    rcases LendingReturn_cases env w st r with
      ⟨h, -, -⟩ | ⟨ls, moved, hg, hsw, -, -, -, hrun⟩
    · rw [h]; exact hinv
    · rw [hrun]
      rcases returnTransaction_state env w st r moved with h | h
      · rw [h]; exact hinv
      · rw [h]
        exact update_forall P (st.AddEvent _) _ hinv
          (hreturn ls moved rfl hg hsw (hinv ls (getByLicenseId_mem hg)))
  | renew =>
    simp only [handle]
    rcases LendingRenewal_cases env w st r with
      ⟨h, -, -⟩ | ⟨ls, pe, sugg, hg, -, hpot, -, hle, -, hrun⟩
    · rw [h]; exact hinv
    · rw [hrun]
      rcases renewTransaction_state env w st r ls sugg with h | h
      · rw [h]; exact hinv
      · rw [h]
        exact update_forall P (st.AddEvent _) _ hinv
          (hrenew ls pe sugg rfl hg hpot hle (hinv ls (getByLicenseId_mem hg)))
  | cancel =>
    simp only [handle]
    rcases CancelLicenseStatus_cases env w st r with
      ⟨h, -⟩ | ⟨ls, parsedLs, hg, hs, -, hrun⟩
    · rw [h]; exact hinv
    · rw [hrun]
      rcases cancelTransaction_state env w st r ls parsedLs with h | h
      · rw [h]; exact hinv
      · rw [h]
        exact update_forall P st _ hinv
          (hcancel ls parsedLs rfl hg hs (hinv ls (getByLicenseId_mem hg)))


/-- C21: for every license, configuration and clock reading, `makeLicenseStatus` makes a
document with `license_ref` = the id of the license, `updated.license` = its issue date,
`updated.status` = now, device count 0, and the status READY when `register` is enabled in the
configuration, ACTIVE when it is not. -/
theorem makeLicenseStatus_fields (cfg : Config) (now : Time) (license : License)
    (ls : LicenseStatus) :
    (makeLicenseStatus cfg now license ls).LicenseRef = license.Id ∧
    (makeLicenseStatus cfg now license ls).Updated.License = some license.Issued ∧
    (makeLicenseStatus cfg now license ls).Updated.Status = some now ∧
    (makeLicenseStatus cfg now license ls).DeviceCount = some 0 ∧
    (cfg.LicenseStatus.Register = true →
      (makeLicenseStatus cfg now license ls).Status = STATUS_READY) ∧
    (cfg.LicenseStatus.Register = false →
      (makeLicenseStatus cfg now license ls).Status = STATUS_ACTIVE) := by
  refine ⟨?_, ?_, ?_, ?_, ?_, ?_⟩
  · cases hb : license.Rights.bind (fun rights => rights.End) with
    | none =>
      simp only [makeLicenseStatus, hb]
      split_ifs <;> rfl
    | some e =>
      simp only [makeLicenseStatus, hb]
      split_ifs <;> rfl
  · simp only [makeLicenseStatus]
  · simp only [makeLicenseStatus]
  · simp only [makeLicenseStatus]
  · intro h
    simp only [makeLicenseStatus, h, if_true]
  · intro h
    simp only [makeLicenseStatus, h, Bool.false_eq_true, if_false]

/-- C21, at the loan `L1` issued at 0, made at time 7 with `register` enabled. -/
theorem makeLicenseStatus_fields_witness :
    (makeLicenseStatus sampleConfig 7 ⟨"L1", 0, some ⟨some 100⟩⟩ LicenseStatus.zero).Status =
      STATUS_READY :=
  (makeLicenseStatus_fields sampleConfig 7 ⟨"L1", 0, some ⟨some 100⟩⟩
    LicenseStatus.zero).2.2.2.2.1 rfl


theorem makeLicenseStatus_end_of_rights (cfg : Config) (now : Time) (license : License)
    (h : (makeLicenseStatus cfg now license LicenseStatus.zero).PotentialRights ≠ none) :
    (makeLicenseStatus cfg now license LicenseStatus.zero).CurrentEndLicense ≠ none := by
  cases hb : license.Rights.bind (fun rights => rights.End) with
  | none =>
    exfalso
    apply h
    simp only [makeLicenseStatus, hb]
    split_ifs <;> rfl
  | some e =>
    simp only [makeLicenseStatus, hb]
    split_ifs <;> simp

theorem makeLicenseStatus_rights_of_end (cfg : Config) (now : Time) (license : License)
    (h : (makeLicenseStatus cfg now license LicenseStatus.zero).CurrentEndLicense ≠ none) :
    (makeLicenseStatus cfg now license LicenseStatus.zero).PotentialRights ≠ none := by
  cases hb : license.Rights.bind (fun rights => rights.End) with
  | none =>
    exfalso
    apply h
    simp only [makeLicenseStatus, hb]
    split_ifs <;> rfl
  | some e =>
    simp only [makeLicenseStatus, hb]
    split_ifs <;> simp

/-- A stored document with potential rights has a current end, after any run. -/
theorem end_of_rights_run (env : Env) (calls : List Call) (st : State)
    (hinv : ∀ ls ∈ st.statuses, ls.PotentialRights ≠ none → ls.CurrentEndLicense ≠ none) :
    ∀ ls ∈ (run env st calls).statuses,
      ls.PotentialRights ≠ none → ls.CurrentEndLicense ≠ none := by
  induction calls generalizing st with
  | nil => exact hinv
  | cons c cs ih =>
    simp only [run, List.foldl_cons]
    apply ih
    apply step_forall (fun ls => ls.PotentialRights ≠ none → ls.CurrentEndLicense ≠ none)
      env st c hinv
    · intro lic _ h
      exact makeLicenseStatus_end_of_rights env.Config (c.world.clock 0) lic h
    · intro ls _ _ hp h
      exact hp h
    · intro ls n _ _ _ hp h
      exact hp h
    · intro ls moved _ _ _ _ _
      simp
    · intro ls pe sugg _ _ _ _ _ _
      simp
    · intro ls parsedLs _ _ _ _ _
      simp

/-- A stored document with a current end has potential rights, after any run whose Return and
Cancel/Revoke calls are on loans. -/
theorem rights_of_end_run (env : Env) (calls : List Call) (st : State)
    (hinv : ∀ ls ∈ st.statuses, ls.CurrentEndLicense ≠ none → ls.PotentialRights ≠ none)
    (hloan : loanRun env st calls = true) :
    ∀ ls ∈ (run env st calls).statuses,
      ls.CurrentEndLicense ≠ none → ls.PotentialRights ≠ none := by
  induction calls generalizing st with
  | nil => exact hinv
  | cons c cs ih =>
    simp only [loanRun, Bool.and_eq_true] at hloan
    simp only [run, List.foldl_cons]
    apply ih _ _ hloan.2
    apply step_forall (fun ls => ls.CurrentEndLicense ≠ none → ls.PotentialRights ≠ none)
      env st c hinv
    · intro lic _ h
      exact makeLicenseStatus_rights_of_end env.Config (c.world.clock 0) lic h
    · intro ls _ _ hp h
      exact hp h
    · intro ls n _ _ _ hp h
      exact hp h
    · intro ls moved ha hg hsw _ _
      have hon := hloan.1
      simp only [Call.onLoan, ha, hg] at hon
      show moved.PotentialRights ≠ none
      rw [(returnSwitch_fields hsw).2.2.2.1]
      intro hn
      rw [hn] at hon
      cases hon
    · intro ls pe sugg _ _ hpot _ _ _
      show ls.PotentialRights ≠ none
      rw [hpot]
      simp
    · intro ls parsedLs ha hg _ _ _
      have hon := hloan.1
      simp only [Call.onLoan, ha, hg] at hon
      show ls.PotentialRights ≠ none
      intro hn
      rw [hn] at hon
      cases hon

/-- C22, amended: in every state reached from the empty store by creations and any sequence of
Get, Register, Return, Renew and Cancel/Revoke requests, a stored document that has potential
rights has a current end; and when no Return and no Cancel/Revoke of the run is addressed to a
document without potential rights (a purchase), a stored document has a current end if and only
if it has potential rights. -/
theorem current_end_iff_potential_rights (env : Env) (calls : List Call) :
    (∀ ls ∈ (run env State.empty calls).statuses,
      ls.PotentialRights ≠ none → ls.CurrentEndLicense ≠ none) ∧
    (loanRun env State.empty calls = true →
      ∀ ls ∈ (run env State.empty calls).statuses,
        (ls.CurrentEndLicense ≠ none ↔ ls.PotentialRights ≠ none)) := by
  have hempty : ∀ (P : LicenseStatus → Prop), ∀ ls ∈ State.empty.statuses, P ls := by
    intro P ls hls
    simp [State.empty] at hls
  have ha := end_of_rights_run env calls State.empty (hempty _)
  refine ⟨ha, fun hloan ls hls => ⟨?_, ha ls hls⟩⟩
  exact rights_of_end_run env calls State.empty (hempty _) hloan ls hls

/-- C22, at the run that creates the loan `L1`, registers a device, renews and returns it. -/
theorem current_end_iff_potential_rights_witness :
    loanRun sampleEnv State.empty
      [sampleCall .create 0 200 (sampleBody "L1"),
       sampleCall .register 10 200 (sampleRequest "D1" "Kindle" ""),
       sampleCall .renew 20 200 (sampleRequest "D1" "Kindle" "150"),
       sampleCall .lendingReturn 30 200 (sampleRequest "D1" "Kindle" "")] = true ∧
    ∀ ls ∈ (run sampleEnv State.empty
      [sampleCall .create 0 200 (sampleBody "L1"),
       sampleCall .register 10 200 (sampleRequest "D1" "Kindle" ""),
       sampleCall .renew 20 200 (sampleRequest "D1" "Kindle" "150"),
       sampleCall .lendingReturn 30 200 (sampleRequest "D1" "Kindle" "")]).statuses,
      (ls.CurrentEndLicense ≠ none ↔ ls.PotentialRights ≠ none) :=
  ⟨by decide, (current_end_iff_potential_rights sampleEnv _).2 (by decide)⟩

/-- C22 as stated fails: a purchase, created without current end and without potential rights,
is stored with a current end and still without potential rights after a Return (answered 200,
which cancels the READY document), and likewise after a Cancel/Revoke. -/
theorem purchase_gets_end_without_rights :
    (run samplePurchaseEnv State.empty
      [sampleCall .create 0 200 (sampleBody "L1")]).statuses.map
        (fun ls => (ls.Status, ls.CurrentEndLicense, ls.PotentialRights)) =
      [(STATUS_READY, none, none)] ∧
    (run samplePurchaseEnv State.empty
      [sampleCall .create 0 200 (sampleBody "L1"),
       sampleCall .lendingReturn 10 200 (sampleBody "")]).statuses.map
        (fun ls => (ls.Status, ls.CurrentEndLicense, ls.PotentialRights)) =
      [(STATUS_CANCELLED, some 10, none)] ∧
    (run samplePurchaseEnv State.empty
      [sampleCall .create 0 200 (sampleBody "L1"),
       sampleCall .cancel 10 200 (sampleBody STATUS_REVOKED)]).statuses.map
        (fun ls => (ls.Status, ls.CurrentEndLicense, ls.PotentialRights)) =
      [(STATUS_REVOKED, some 10, none)] := by
  refine ⟨by decide, by decide, by decide⟩


/-- C23: `makeLinks` replaces the links of the document with exactly the list of the
specification, in its order, and changes no other field: the license link (not templated, its
href the configured license link with every `{license_id}` replaced by `license_ref` when that
link is configured, the LCP base url followed by `/licenses/` and `license_ref` otherwise), then
a templated register link exactly when `register` is enabled, then a templated return link
exactly when `return` is enabled and the current end is set and not zero, then a templated renew
link exactly when `renew` is enabled and the current end is set and not zero.  The document made
from a purchase carries neither a return nor a renew link. -/
theorem makeLinks_spec (cfg : Config) (ls : LicenseStatus) :
    makeLinks cfg ls = { ls with Links := specLinks cfg ls } ∧
    ((∃ l ∈ (makeLinks cfg ls).Links, l.Rel = "license") ∧
      ((∃ l ∈ (makeLinks cfg ls).Links, l.Rel = "register") ↔
        cfg.LicenseStatus.Register = true) ∧
      ((∃ l ∈ (makeLinks cfg ls).Links, l.Rel = "return") ↔
        cfg.LicenseStatus.Return = true ∧
          ∃ t, ls.CurrentEndLicense = some t ∧ t ≠ 0) ∧
      ((∃ l ∈ (makeLinks cfg ls).Links, l.Rel = "renew") ↔
        cfg.LicenseStatus.Renew = true ∧
          ∃ t, ls.CurrentEndLicense = some t ∧ t ≠ 0)) ∧
    (∀ (now : Time) (license : License),
      license.Rights.bind (fun rights => rights.End) = none →
      ∀ l ∈ (makeLinks cfg (makeLicenseStatus cfg now license LicenseStatus.zero)).Links,
        l.Rel ≠ "return" ∧ l.Rel ≠ "renew") := by
  have hall : ∀ ls : LicenseStatus, makeLinks cfg ls = { ls with Links := specLinks cfg ls } := by
    intro ls
    simp only [makeLinks, specLinks, Time.IsZero]
    cases hce : ls.CurrentEndLicense with
    | none =>
      simp only [Bool.and_false, Bool.false_eq_true, if_false, List.append_nil]
      split_ifs <;> rfl
    | some t =>
      by_cases ht : t = 0
      · simp only [ht, decide_True, Bool.not_true, Bool.and_false, Bool.false_eq_true,
          if_false, List.append_nil, ne_eq, not_true_eq_false, decide_False]
        split_ifs <;> rfl
      · simp only [ht, decide_False, Bool.not_false, Bool.and_true, ne_eq,
          not_false_eq_true, decide_True]
        split_ifs <;> rfl
  have hspec := hall ls
  have hlinks : (makeLinks cfg ls).Links = specLinks cfg ls := by rw [hspec]
  refine ⟨hspec, ?_, ?_⟩
  · rw [hlinks]
    cases hce : ls.CurrentEndLicense with
    | none =>
      simp only [specLinks, hce]
      cases cfg.LicenseStatus.Register <;> cases cfg.LicenseStatus.Return <;>
        cases cfg.LicenseStatus.Renew <;> simp
    | some t =>
      by_cases ht : t = 0
      · simp only [specLinks, hce, ht]
        cases cfg.LicenseStatus.Register <;> cases cfg.LicenseStatus.Return <;>
          cases cfg.LicenseStatus.Renew <;> simp
      · simp only [specLinks, hce]
        cases cfg.LicenseStatus.Register <;> cases cfg.LicenseStatus.Return <;>
          cases cfg.LicenseStatus.Renew <;> simp [ht]
  · intro now license hb l hl
    have hce : (makeLicenseStatus cfg now license LicenseStatus.zero).CurrentEndLicense =
        none := by
      simp only [makeLicenseStatus, hb]
      split_ifs <;> rfl
    rw [hall] at hl
    have hrel : l.Rel = "license" ∨ l.Rel = "register" := by
      simp only [specLinks, hce, Bool.and_false, Bool.false_eq_true, if_false,
        List.append_nil] at hl
      cases hr : cfg.LicenseStatus.Register
      · simp only [hr, Bool.false_eq_true, if_false, List.append_nil,
          List.mem_singleton] at hl
        left; rw [hl]
      · simp only [hr, if_true, List.mem_append, List.mem_singleton] at hl
        rcases hl with hl | hl
        · left; rw [hl]
        · right; rw [hl]
    rcases hrel with h | h <;> rw [h] <;> exact ⟨by decide, by decide⟩

/-- C23, at the sample loan, which carries the four links, and at a purchase, which carries
neither a return nor a renew link. -/
theorem makeLinks_spec_witness :
    (makeLinks sampleConfig (sampleLoan STATUS_READY)).Links.map
        (fun l => (l.Href, l.Rel, l.Templated)) =
      [("http://lcp/licenses/L1", "license", false),
       ("http://lsd/licenses/L1/register\x7b?id,name\x7d", "register", true),
       ("http://lsd/licenses/L1/return\x7b?id,name\x7d", "return", true),
       ("http://lsd/licenses/L1/renew\x7b?end,id,name\x7d", "renew", true)] ∧
    ∀ l ∈ (makeLinks sampleConfig
        (makeLicenseStatus sampleConfig 7 ⟨"L1", 0, none⟩ LicenseStatus.zero)).Links,
      l.Rel ≠ "return" ∧ l.Rel ≠ "renew" :=
  ⟨by rw [(makeLinks_spec sampleConfig (sampleLoan STATUS_READY)).1]; decide,
    (makeLinks_spec sampleConfig (sampleLoan STATUS_READY)).2.2 7 ⟨"L1", 0, none⟩ rfl⟩


/-! ## Dates of the worked example -/

/-- C26, amended: for the license issued at 2024-01-01T00:00:00Z whose rights end at
2024-02-01T00:00:00Z, `makeLicenseStatus` sets the potential rights end to 2024-02-01T00:00:00Z
when `renting_days` is 30 and to 2024-03-01T00:00:00Z, sixty days after the issue date in a leap
year, when `renting_days` is 60. -/
theorem makeLicenseStatus_potential_end_2024 :
    (makeLicenseStatus (sampleConfigWith 30 7) (Date 2024 1 1)
      ⟨"L1", Date 2024 1 1, some ⟨some (Date 2024 2 1)⟩⟩ LicenseStatus.zero).PotentialRights =
      some ⟨some (Date 2024 2 1)⟩ ∧
    (makeLicenseStatus (sampleConfigWith 60 7) (Date 2024 1 1)
      ⟨"L1", Date 2024 1 1, some ⟨some (Date 2024 2 1)⟩⟩ LicenseStatus.zero).PotentialRights =
      some ⟨some (Date 2024 3 1)⟩ := by
  constructor <;> decide

/-- C26 as stated fails: with `renting_days` = 60 the potential rights end is
2024-01-01T00:00:00Z plus 60 times 24 hours, which is 2024-03-01T00:00:00Z (January has 31 days
and February 2024 has 29), one day before 2024-03-02T00:00:00Z. -/
theorem makeLicenseStatus_potential_end_not_march_2 :
    (makeLicenseStatus (sampleConfigWith 60 7) (Date 2024 1 1)
      ⟨"L1", Date 2024 1 1, some ⟨some (Date 2024 2 1)⟩⟩ LicenseStatus.zero).PotentialRights ≠
      some ⟨some (Date 2024 3 2)⟩ ∧
    Date 2024 1 1 + 60 * (24 * Hour) = Date 2024 3 1 ∧
    Date 2024 3 1 + 24 * Hour = Date 2024 3 2 := by
  refine ⟨by decide, by decide, by decide⟩


/-! ## Closed statuses -/

theorem GetLicenseStatusDocument_closed (env : Env) (w : World) (st : State) (r : Request)
    (ls : LicenseStatus) (hget : st.GetByLicenseId r.key = some ls)
    (hactive : ls.Status ≠ STATUS_ACTIVE) (hready : ls.Status ≠ STATUS_READY) :
    (GetLicenseStatusDocument env w st r).state = st ∧
    (GetLicenseStatusDocument env w st r).lcpCalls = [] := by
  have hexp : (match ls.PotentialRights with
      | some ⟨some potentialEnd⟩ =>
        !Time.IsZero potentialEnd &&
          (decide (Time.Sub (w.clock 0) potentialEnd > 0) &&
            (decide (ls.Status = STATUS_ACTIVE) || decide (ls.Status = STATUS_READY)))
      | _ => false) = false := by
    rcases hp : ls.PotentialRights with _ | ⟨_ | e⟩
    · rfl
    · rfl
    · simp [hactive, hready]
  simp only [GetLicenseStatusDocument, hget, hexp]
  simp

/-- C27: the statuses RETURNED, EXPIRED, CANCELLED and REVOKED are absorbing.  For a stored
document with one of them, every Get, Register, Return, Renew and Cancel/Revoke request
addressed to it, at any clock value and with any LCP server, leaves the whole state unchanged
(so its stored status, current end and device count, and the event log) and does not call
`updateLicense`. -/
theorem closed_statuses_absorbing (env : Env) (w : World) (st : State) (r : Request)
    (ls : LicenseStatus) (a : Action)
    (hget : st.GetByLicenseId r.key = some ls)
    (hclosed : ls.Status = STATUS_RETURNED ∨ ls.Status = STATUS_EXPIRED ∨
      ls.Status = STATUS_CANCELLED ∨ ls.Status = STATUS_REVOKED)
    (haction : a ≠ .create) :
    (handle env a w st r).state = st ∧ (handle env a w st r).lcpCalls = [] := by
  obtain ⟨h1, h2, h3, h4, h5, h6, h7, h8, h9, -⟩ := status_constants_distinct
  have hactive : ls.Status ≠ STATUS_ACTIVE := by
    rcases hclosed with h | h | h | h <;> rw [h]
    · exact fun hc => h7 hc.symm
    · exact fun hc => h9 hc.symm
    · exact fun hc => h8 hc.symm
    · exact fun hc => h6 hc.symm
  have hready : ls.Status ≠ STATUS_READY := by
    rcases hclosed with h | h | h | h <;> rw [h]
    · exact fun hc => h3 hc.symm
    · exact fun hc => h5 hc.symm
    · exact fun hc => h4 hc.symm
    · exact fun hc => h2 hc.symm
  cases a with
  | create => exact absurd rfl haction
  | get => exact GetLicenseStatusDocument_closed env w st r ls hget hactive hready
  | register =>
    rcases RegisterDevice_cases env w st r with ⟨h, hc, -⟩ | ⟨ls0, hget0, hs, -⟩
    · exact ⟨h, hc⟩
    · rw [hget] at hget0
      cases hget0
      rcases hs with hs | hs
      · exact absurd hs hactive
      · exact absurd hs hready
  | lendingReturn =>
    rcases LendingReturn_cases env w st r with ⟨h, hc, -⟩ | ⟨ls0, moved, hget0, hsw, -⟩
    · exact ⟨h, hc⟩
    · rw [hget] at hget0
      cases hget0
      obtain ⟨detail, hd⟩ := returnSwitch_closed hclosed
      rw [hd] at hsw
      cases hsw
  | renew =>
    rcases LendingRenewal_cases env w st r with ⟨h, hc, -⟩ | ⟨ls0, pe, sugg, hget0, hs, -⟩
    · exact ⟨h, hc⟩
    · rw [hget] at hget0
      cases hget0
      rcases hs with hs | hs
      · exact absurd hs hactive
      · exact absurd hs hready
  | cancel =>
    rcases CancelLicenseStatus_cases env w st r with ⟨h, hc⟩ | ⟨ls0, parsedLs, hget0, hs, -⟩
    · exact ⟨h, hc⟩
    · rw [hget] at hget0
      cases hget0
      exact absurd hs hready

/-- C27, at an EXPIRED loan on which a Return is attempted at time 50. -/
theorem closed_statuses_absorbing_witness :
    (handle sampleEnv .lendingReturn (sampleWorld 50 200) (sampleState STATUS_EXPIRED)
      (sampleRequest "" "" "")).state = sampleState STATUS_EXPIRED ∧
    (handle sampleEnv .lendingReturn (sampleWorld 50 200) (sampleState STATUS_EXPIRED)
      (sampleRequest "" "" "")).lcpCalls = [] :=
  closed_statuses_absorbing sampleEnv (sampleWorld 50 200) (sampleState STATUS_EXPIRED)
    (sampleRequest "" "" "") (sampleLoan STATUS_EXPIRED) .lendingReturn (by decide)
    (Or.inr (Or.inl rfl)) (by decide)


/-! ## The filter endpoint -/

set_option maxRecDepth 100000

theorem utf8ByteSize_append (a b : String) :
    (a ++ b).utf8ByteSize = a.utf8ByteSize + b.utf8ByteSize := by
  cases a with
  | mk as =>
    cases b with
    | mk bs =>
      show String.utf8ByteSize ⟨as ++ bs⟩ = _
      simp only [String.utf8ByteSize_mk, String.utf8Len_append]

theorem utf8ByteSize_append_pos (a b : String) (h : 0 < b.utf8ByteSize) :
    0 < (a ++ b).utf8ByteSize := by
  rw [utf8ByteSize_append]
  omega

/-- A number within the signed 64-bit range is left as it is by `wrap64`. -/
theorem wrap64_of_int (x : Int) (h0 : -9223372036854775808 ≤ x) (h1 : x ≤ 9223372036854775807) :
    wrap64 x = x := by
  unfold wrap64
  norm_num
  omega

/-- A number read by `ParseInt` with bit size 32 is a signed 32-bit number. -/
theorem ParseInt_range (s : String) (base : Nat) (v : Int) (h : ParseInt s base 32 = .ok v) :
    -2147483648 ≤ v ∧ v ≤ 2147483647 := by
  unfold ParseInt at h
  split at h
  · cases h
  · rename_i c cs hs
    simp only at h
    split at h
    · cases h
    · cases h
    · rename_i un hu
      norm_num at h
      by_cases hneg : c = '-'
      · simp only [hneg, decide_True, Bool.not_true, Bool.false_eq_true, false_and, if_false,
          true_and, if_true] at h
        split_ifs at h with h1
        cases h
        omega
      · simp only [hneg, decide_False, Bool.not_false, true_and, false_and, if_false,
          Bool.false_eq_true] at h
        split_ifs at h with h1
        cases h
        have h2 : un < 2147483648 := by
          by_contra hc
          exact h1 ⟨not_false, by omega⟩
        omega

/-- Inputs accepted by `FilterLicenseStatuses`: the three form values, with their defaults, are
read by `ParseInt` as `devices`, `page` and `perPage`, each at least 1.  The repository is
queried once, and the header `Link` is built from the decremented page number. -/
theorem FilterLicenseStatuses_accepted (st : State) (r : ListRequest) (devices page perPage : Int)
    (hd : ParseInt (if r.devices = "" then "1" else r.devices) 10 32 = .ok devices)
    (hp : ParseInt (if r.page = "" then "1" else r.page) 10 32 = .ok page)
    (hpp : ParseInt (if r.per_page = "" then "10" else r.per_page) 10 32 = .ok perPage)
    (h1 : 1 ≤ devices) (h2 : 1 ≤ page) (h3 : 1 ≤ perPage) :
    FilterLicenseStatuses st r =
      ⟨.ok (st.List devices perPage ((page - 1) * perPage))
        (if st.List devices perPage ((page - 1) * perPage) = [] then
          (if page ≤ 1 then none
           else some ("</licenses/?devices=" ++ Itoa devices ++ "&page=" ++ Itoa (page - 2) ++
              "&per_page=" ++ Itoa (perPage + 1) ++ ">; rel=\"previous\"; title=\"previous\""))
         else
          (if page ≤ 1 then
            some ("</licenses/?devices=" ++ Itoa devices ++ "&page=" ++ Itoa page ++
              "&per_page=" ++ Itoa (perPage + 1) ++ ">; rel=\"next\"; title=\"next\"")
           else
            some ("</licenses/?devices=" ++ Itoa devices ++ "&page=" ++ Itoa page ++
              "&per_page=" ++ Itoa (perPage + 1) ++ ">; rel=\"next\"; title=\"next\"" ++ ", " ++
              ("</licenses/?devices=" ++ Itoa devices ++ "&page=" ++ Itoa (page - 2) ++
              "&per_page=" ++ Itoa (perPage + 1) ++ ">; rel=\"previous\"; title=\"previous\"")))),
       [⟨devices, perPage, (page - 1) * perPage⟩]⟩ := by
  obtain ⟨-, hp1⟩ := ParseInt_range _ _ _ hp
  obtain ⟨-, hpp1⟩ := ParseInt_range _ _ _ hpp
  have w1 : wrap64 (page - 1) = page - 1 := wrap64_of_int _ (by omega) (by omega)
  have w2 : wrap64 (page - 1 + 1) = page := by
    have he : page - 1 + 1 = page := by omega
    rw [he]
    exact wrap64_of_int _ (by omega) (by omega)
  have w3 : wrap64 (page - 1 - 1) = page - 2 := by
    have he : page - 1 - 1 = page - 2 := by omega
    rw [he]
    exact wrap64_of_int _ (by omega) (by omega)
  have w4 : wrap64 (perPage + 1) = perPage + 1 := wrap64_of_int _ (by omega) (by omega)
  have hprod0 : 0 ≤ (page - 1) * perPage := Int.mul_nonneg (by omega) (by omega)
  have hprod1 : (page - 1) * perPage ≤ 2147483647 * 2147483647 :=
    Int.mul_le_mul (by omega) hpp1 (by omega) (by omega)
  have w5 : wrap64 ((page - 1) * perPage) = (page - 1) * perPage :=
    wrap64_of_int _ (by omega) (by omega)
  have hchecks : ¬ (page < 1 ∨ perPage < 1 ∨ devices < 1) := by omega
  have hnext : ∀ a : String, 0 < (a ++ ">; rel=\"next\"; title=\"next\"").utf8ByteSize :=
    fun a => utf8ByteSize_append_pos _ _ (by decide)
  have hprev : ∀ a : String,
      0 < (a ++ ">; rel=\"previous\"; title=\"previous\"").utf8ByteSize :=
    fun a => utf8ByteSize_append_pos _ _ (by decide)
  simp only [FilterLicenseStatuses, hd, hp, hpp, if_neg hchecks, w1, w2, w3, w4, w5]
  by_cases hres : st.List devices perPage ((page - 1) * perPage) = []
  · have hlen : ¬ (st.List devices perPage ((page - 1) * perPage)).length > 0 := by
      rw [hres]; simp
    rw [if_pos hres]
    by_cases hpage : page ≤ 1
    · have hgt : ¬ page - 1 > 0 := by omega
      simp only [if_neg hlen, if_neg hgt, if_pos hpage]
      rfl
    · have hgt : page - 1 > 0 := by omega
      have hempty : ¬ ("" : String).utf8ByteSize > 0 := by decide
      simp only [if_neg hlen, if_pos hgt, if_neg hpage, if_neg hempty, String.empty_append,
        if_pos (hprev _), gt_iff_lt]
  · have hlen : (st.List devices perPage ((page - 1) * perPage)).length > 0 :=
      List.length_pos.mpr hres
    rw [if_neg hres]
    by_cases hpage : page ≤ 1
    · have hgt : ¬ page - 1 > 0 := by omega
      simp only [if_pos hlen, if_neg hgt, if_pos hpage, String.empty_append, gt_iff_lt,
        if_pos (hnext _)]
    · have hgt : page - 1 > 0 := by omega
      simp only [if_pos hlen, if_pos hgt, if_neg hpage, String.empty_append, gt_iff_lt,
        if_pos (hnext _), if_pos (utf8ByteSize_append_pos _ _ (hprev _))]

/-- Inputs refused by `FilterLicenseStatuses`: when the three form values, with their defaults,
are not all read by `ParseInt` as numbers that are at least 1, the answer is 400 and the
repository is not queried. -/
theorem FilterLicenseStatuses_rejected (st : State) (r : ListRequest)
    (h : ∀ devices page perPage : Int,
      ParseInt (if r.devices = "" then "1" else r.devices) 10 32 = .ok devices →
      ParseInt (if r.page = "" then "1" else r.page) 10 32 = .ok page →
      ParseInt (if r.per_page = "" then "10" else r.per_page) 10 32 = .ok perPage →
      ¬ (1 ≤ devices ∧ 1 ≤ page ∧ 1 ≤ perPage)) :
    ∃ detail, FilterLicenseStatuses st r = ⟨.problem detail StatusBadRequest, []⟩ := by
  cases hd : ParseInt (if r.devices = "" then "1" else r.devices) 10 32 with
  | error e => exact ⟨e.Error, by simp only [FilterLicenseStatuses, hd]⟩
  | ok devices =>
    cases hp : ParseInt (if r.page = "" then "1" else r.page) 10 32 with
    | error e => exact ⟨e.Error, by simp only [FilterLicenseStatuses, hd, hp]⟩
    | ok page =>
      cases hpp : ParseInt (if r.per_page = "" then "10" else r.per_page) 10 32 with
      | error e => exact ⟨e.Error, by simp only [FilterLicenseStatuses, hd, hp, hpp]⟩
      | ok perPage =>
        have hno := h devices page perPage hd hp hpp
        have hc : page < 1 ∨ perPage < 1 ∨ devices < 1 := by omega
        exact ⟨"Devices, page, per_page must be positive number",
          by simp only [FilterLicenseStatuses, hd, hp, hpp, if_pos hc]⟩


/-- C24: `FilterLicenseStatuses` answers 200 if and only if the form values `devices`, `page`
and `per_page`, replaced by "1", "1" and "10" when empty, are each read by
`strconv.ParseInt(_, 10, 32)` as a number that is at least 1; otherwise it answers 400 and makes
no repository query, which is what happens when `page`, `per_page` or `devices` is "0".  When the
request is accepted, the repository is queried once, with the device threshold `devices`, the
limit `per_page` and the offset `(page - 1) * per_page`, and the result of that query is the
body of the answer. -/
theorem FilterLicenseStatuses_accepts_iff (st : State) (r : ListRequest) :
    ((∃ body link, (FilterLicenseStatuses st r).response = .ok body link) ↔
      ∃ devices page perPage : Int,
        ParseInt (if r.devices = "" then "1" else r.devices) 10 32 = .ok devices ∧
        ParseInt (if r.page = "" then "1" else r.page) 10 32 = .ok page ∧
        ParseInt (if r.per_page = "" then "10" else r.per_page) 10 32 = .ok perPage ∧
        1 ≤ devices ∧ 1 ≤ page ∧ 1 ≤ perPage) ∧
    ((¬ ∃ body link, (FilterLicenseStatuses st r).response = .ok body link) →
      ∃ detail, FilterLicenseStatuses st r = ⟨.problem detail 400, []⟩) ∧
    (r.page = "0" ∨ r.per_page = "0" ∨ r.devices = "0" →
      ∃ detail, FilterLicenseStatuses st r = ⟨.problem detail 400, []⟩) ∧
    (∀ devices page perPage : Int,
      ParseInt (if r.devices = "" then "1" else r.devices) 10 32 = .ok devices →
      ParseInt (if r.page = "" then "1" else r.page) 10 32 = .ok page →
      ParseInt (if r.per_page = "" then "10" else r.per_page) 10 32 = .ok perPage →
      1 ≤ devices → 1 ≤ page → 1 ≤ perPage →
      (FilterLicenseStatuses st r).queries = [⟨devices, perPage, (page - 1) * perPage⟩] ∧
      ∃ link, (FilterLicenseStatuses st r).response =
        .ok (st.List devices perPage ((page - 1) * perPage)) link) := by
  have hok : (∃ devices page perPage : Int,
        ParseInt (if r.devices = "" then "1" else r.devices) 10 32 = .ok devices ∧
        ParseInt (if r.page = "" then "1" else r.page) 10 32 = .ok page ∧
        ParseInt (if r.per_page = "" then "10" else r.per_page) 10 32 = .ok perPage ∧
        1 ≤ devices ∧ 1 ≤ page ∧ 1 ≤ perPage) →
      ∃ body link, (FilterLicenseStatuses st r).response = .ok body link := by
    rintro ⟨devices, page, perPage, hd, hp, hpp, h1, h2, h3⟩
    rw [FilterLicenseStatuses_accepted st r devices page perPage hd hp hpp h1 h2 h3]
    exact ⟨_, _, rfl⟩
  have hbad : (¬ ∃ devices page perPage : Int,
        ParseInt (if r.devices = "" then "1" else r.devices) 10 32 = .ok devices ∧
        ParseInt (if r.page = "" then "1" else r.page) 10 32 = .ok page ∧
        ParseInt (if r.per_page = "" then "10" else r.per_page) 10 32 = .ok perPage ∧
        1 ≤ devices ∧ 1 ≤ page ∧ 1 ≤ perPage) →
      ∃ detail, FilterLicenseStatuses st r = ⟨.problem detail 400, []⟩ := by
    intro hno
    exact FilterLicenseStatuses_rejected st r
      (fun devices page perPage hd hp hpp hall => hno ⟨devices, page, perPage, hd, hp, hpp, hall⟩)
  have hzero : ParseInt "0" 10 32 = .ok 0 := rfl
  refine ⟨⟨fun hacc => ?_, hok⟩, fun hno => hbad (fun hex => hno (hok hex)), fun hz => ?_,
    fun devices page perPage hd hp hpp h1 h2 h3 => ?_⟩
  · by_contra hno
    obtain ⟨detail, hdet⟩ := hbad hno
    obtain ⟨body, link, hresp⟩ := hacc
    rw [hdet] at hresp
    cases hresp
  · apply hbad
    rintro ⟨devices, page, perPage, hd, hp, hpp, h1, h2, h3⟩
    rcases hz with hz | hz | hz
    · rw [hz, if_neg (by decide), hzero] at hp
      cases hp
      omega
    · rw [hz, if_neg (by decide), hzero] at hpp
      cases hpp
      omega
    · rw [hz, if_neg (by decide), hzero] at hd
      cases hd
      omega
  · rw [FilterLicenseStatuses_accepted st r devices page perPage hd hp hpp h1 h2 h3]
    exact ⟨rfl, _, rfl⟩

/-- C24, on the sample store: page 2 of pages of 1 document queries with offset 1, and an
unreadable page number is refused. -/
theorem FilterLicenseStatuses_accepts_iff_witness :
    ((FilterLicenseStatuses sampleStore ⟨"", "2", "1"⟩).queries = [⟨1, 1, (2 - 1) * 1⟩] ∧
      ∃ link, (FilterLicenseStatuses sampleStore ⟨"", "2", "1"⟩).response =
        .ok (sampleStore.List 1 1 ((2 - 1) * 1)) link) ∧
    (∃ detail, FilterLicenseStatuses sampleStore ⟨"", "0", ""⟩ = ⟨.problem detail 400, []⟩) ∧
    FilterLicenseStatuses sampleStore ⟨"", "x", ""⟩ =
      ⟨.problem "strconv.ParseInt: parsing \"x\": invalid syntax" 400, []⟩ ∧
    FilterLicenseStatuses sampleStore ⟨"4294967296", "", ""⟩ =
      ⟨.problem "strconv.ParseInt: parsing \"4294967296\": value out of range" 400, []⟩ :=
  ⟨(FilterLicenseStatuses_accepts_iff sampleStore ⟨"", "2", "1"⟩).2.2.2 1 2 1 rfl rfl rfl
      (by decide) (by decide) (by decide),
    (FilterLicenseStatuses_accepts_iff sampleStore ⟨"", "0", ""⟩).2.2.1 (Or.inl rfl),
    by decide, by decide⟩


/-- C25: for an accepted `FilterLicenseStatuses` request, with `devices`, `page` and `perPage`
the three numbers read and `result` the documents returned by the repository, the header `Link`
is made of a rel="next" entry exactly when `result` is not empty and of a rel="previous" entry
exactly when `page > 1`, the two separated by ", " when both are there, and is not set when
neither is; both entries carry `devices` and `perPage + 1`. -/
theorem FilterLicenseStatuses_link_header (st : State) (r : ListRequest)
    (devices page perPage : Int)
    (hd : ParseInt (if r.devices = "" then "1" else r.devices) 10 32 = .ok devices)
    (hp : ParseInt (if r.page = "" then "1" else r.page) 10 32 = .ok page)
    (hpp : ParseInt (if r.per_page = "" then "10" else r.per_page) 10 32 = .ok perPage)
    (h1 : 1 ≤ devices) (h2 : 1 ≤ page) (h3 : 1 ≤ perPage) :
    ∃ (link : Option String) (nextPage previousPage : Int),
      (FilterLicenseStatuses st r).response =
        .ok (st.List devices perPage ((page - 1) * perPage)) link ∧
      (st.List devices perPage ((page - 1) * perPage) ≠ [] ∧ page > 1 →
        link = some ("</licenses/?devices=" ++ Itoa devices ++ "&page=" ++ Itoa nextPage ++
          "&per_page=" ++ Itoa (perPage + 1) ++ ">; rel=\"next\"; title=\"next\"" ++ ", " ++
          ("</licenses/?devices=" ++ Itoa devices ++ "&page=" ++ Itoa previousPage ++
          "&per_page=" ++ Itoa (perPage + 1) ++ ">; rel=\"previous\"; title=\"previous\""))) ∧
      (st.List devices perPage ((page - 1) * perPage) ≠ [] ∧ ¬ page > 1 →
        link = some ("</licenses/?devices=" ++ Itoa devices ++ "&page=" ++ Itoa nextPage ++
          "&per_page=" ++ Itoa (perPage + 1) ++ ">; rel=\"next\"; title=\"next\"")) ∧
      (st.List devices perPage ((page - 1) * perPage) = [] ∧ page > 1 →
        link = some ("</licenses/?devices=" ++ Itoa devices ++ "&page=" ++ Itoa previousPage ++
          "&per_page=" ++ Itoa (perPage + 1) ++ ">; rel=\"previous\"; title=\"previous\"")) ∧
      (st.List devices perPage ((page - 1) * perPage) = [] ∧ ¬ page > 1 → link = none) := by
  rw [FilterLicenseStatuses_accepted st r devices page perPage hd hp hpp h1 h2 h3]
  refine ⟨_, page, page - 2, rfl, ?_, ?_, ?_, ?_⟩
  · rintro ⟨hres, hpage⟩
    have hle : ¬ page ≤ 1 := by omega
    rw [if_neg hres, if_neg hle]
  · rintro ⟨hres, hpage⟩
    have hle : page ≤ 1 := by omega
    rw [if_neg hres, if_pos hle]
  · rintro ⟨hres, hpage⟩
    have hle : ¬ page ≤ 1 := by omega
    rw [if_pos hres, if_neg hle]
  · rintro ⟨hres, hpage⟩
    have hle : page ≤ 1 := by omega
    rw [if_pos hres, if_pos hle]

/-- C25, on the sample store: the first page of the documents used on at least 2 devices, in
pages of 10, has a rel="next" entry only, which carries `devices=2` and `per_page=11`; page 2 of
pages of 5 is empty and has a rel="previous" entry only; with 4 devices the first page is empty
and the header is not set. -/
theorem FilterLicenseStatuses_link_header_witness :
    (∃ (link : Option String) (nextPage previousPage : Int),
      (FilterLicenseStatuses sampleStore ⟨"2", "", ""⟩).response =
        .ok (sampleStore.List 2 10 ((1 - 1) * 10)) link ∧
      (sampleStore.List 2 10 ((1 - 1) * 10) ≠ [] ∧ (1 : Int) > 1 →
        link = some ("</licenses/?devices=" ++ Itoa 2 ++ "&page=" ++ Itoa nextPage ++
          "&per_page=" ++ Itoa (10 + 1) ++ ">; rel=\"next\"; title=\"next\"" ++ ", " ++
          ("</licenses/?devices=" ++ Itoa 2 ++ "&page=" ++ Itoa previousPage ++
          "&per_page=" ++ Itoa (10 + 1) ++ ">; rel=\"previous\"; title=\"previous\""))) ∧
      (sampleStore.List 2 10 ((1 - 1) * 10) ≠ [] ∧ ¬ (1 : Int) > 1 →
        link = some ("</licenses/?devices=" ++ Itoa 2 ++ "&page=" ++ Itoa nextPage ++
          "&per_page=" ++ Itoa (10 + 1) ++ ">; rel=\"next\"; title=\"next\"")) ∧
      (sampleStore.List 2 10 ((1 - 1) * 10) = [] ∧ (1 : Int) > 1 →
        link = some ("</licenses/?devices=" ++ Itoa 2 ++ "&page=" ++ Itoa previousPage ++
          "&per_page=" ++ Itoa (10 + 1) ++ ">; rel=\"previous\"; title=\"previous\"")) ∧
      (sampleStore.List 2 10 ((1 - 1) * 10) = [] ∧ ¬ (1 : Int) > 1 → link = none)) ∧
    (FilterLicenseStatuses sampleStore ⟨"2", "", ""⟩).response =
      .ok [sampleCounted 2 "L2" 3, sampleCounted 3 "L3" 2]
        (some "</licenses/?devices=2&page=1&per_page=11>; rel=\"next\"; title=\"next\"") ∧
    (FilterLicenseStatuses sampleStore ⟨"2", "2", "5"⟩).response =
      .ok [] (some
        "</licenses/?devices=2&page=0&per_page=6>; rel=\"previous\"; title=\"previous\"") ∧
    (FilterLicenseStatuses sampleStore ⟨"4", "", ""⟩).response = .ok [] none :=
  ⟨FilterLicenseStatuses_link_header sampleStore ⟨"2", "", ""⟩ 2 1 10 rfl rfl rfl
      (by decide) (by decide) (by decide),
    by decide, by decide, by decide⟩


/-- C28 fails on the code.  On the sample store, the request for page 2 of the documents used on
at least 1 device, in pages of 1, is accepted and returns the second document; its rel="next"
entry names page 2, the page just served, and not page 3, and its rel="previous" entry names
page 0 and not page 1.  The request that the rel="previous" entry describes (`devices=1`,
`page=0`, `per_page=2`) is refused by the endpoint with 400.  The request for page 1 gets a
rel="next" entry that names page 1. -/
theorem link_pages_off_by_one :
    FilterLicenseStatuses sampleStore ⟨"1", "2", "1"⟩ =
      ⟨.ok [sampleCounted 2 "L2" 3]
        (some ("</licenses/?devices=1&page=2&per_page=2>; rel=\"next\"; title=\"next\", " ++
          "</licenses/?devices=1&page=0&per_page=2>; rel=\"previous\"; title=\"previous\"")),
       [⟨1, 1, 1⟩]⟩ ∧
    FilterLicenseStatuses sampleStore ⟨"1", "0", "2"⟩ =
      ⟨.problem "Devices, page, per_page must be positive number" 400, []⟩ ∧
    FilterLicenseStatuses sampleStore ⟨"1", "1", "1"⟩ =
      ⟨.ok [sampleCounted 1 "L1" 1]
        (some "</licenses/?devices=1&page=1&per_page=2>; rel=\"next\"; title=\"next\""),
       [⟨1, 1, 0⟩]⟩ := by
  refine ⟨by decide, by decide, by decide⟩


end Lsd
